import Mathlib

/-!
# PI-RADS reporting canvas: a verification development

A shallow embedding of the interactive canvas code of `src/app.js`
(classes `PIRADSPainter`, `ResizableImage` and `ImageCombiner`) and of the
measurement and lesion-list methods of its report form (class
`BefundGenerator`), and theorems about them.

Modelling conventions.

* JavaScript numbers are idealised as exact rationals (`ℚ`): no rounding, no
  `NaN`, no infinities. A division by zero, which JavaScript evaluates to an
  infinity or `NaN`, is `0` here; every theorem that divides states the
  positivity it needs.
* Objects that the source mutates in place are records that the embedded
  functions return. An element reference held by the interaction state
  (`selectedImage`, `selectedHandle.image`) is the index of the element in
  `images`.
* The copies `{ ...image }` and `{ ...handle, image }` made at pointer-down are
  shallow: the handle objects inside them stay shared with the element. The
  model records their values at the time of the copy; the code reads only
  `x`, `y`, `width` and `height` of a snapshot, which are numbers.
* A `TypeError` raised by reading a property of `null` is the result `none`;
  the functions that can raise one do so before they change anything.
* The DOM canvas is the record of its `width` and `height`. The element holds
  whole numbers: an assignment to `canvas.width` or `canvas.height` stores the
  integer part of the assigned number (`canvasDimension`), and every read
  returns that integer. Logging, cursor styling and `preventDefault` do not
  touch the modelled state and are left out.
* Drawing is the list of operations a function issues on a 2D context
  (`DrawOp`), each with the context attributes the code sets for it; `save` and
  `restore` are left out.
* Values the code reads from the platform are arguments or state: the pointer
  position of an event, `Date.now()` in a new element id, the colour scheme of
  the document, the outcome of an image load, and the DOM fields of the painter
  (`lesionNumberInput`, `colorInput`).
* `leftImage` and `rightImage` of the combiner are the elements at index 0
  and 1, where the constructor put them.
* Event handlers run to completion one after the other; a sequence of events or
  calls is a list folded over the state. The redraw bookkeeping counts the runs
  of `performRedraw` and the callbacks waiting for the next display refresh.
* A string is the list of its characters. The numbers `parseGermanNumber` reads
  from the measurement fields are arguments, and the part of the document that
  `getElementById` searches for a lesion is the list of the ids of the lesion
  elements.
-/

namespace PIRADS

/-! ## Data model -/

/-- A point `{x, y}`. -/
structure Point where
  x : ℚ
  y : ℚ
deriving DecidableEq, Repr

/-- A committed stroke of `PIRADSPainter.paths`:
`{points, color, lineWidth, lesionNumber}`. -/
structure Path where
  points : List Point
  color : String
  lineWidth : ℚ
  lesionNumber : ℚ
deriving DecidableEq, Repr

/-- The eight handle names, in the key order of the `handles` object
(`Object.entries` order): nw, ne, se, sw, n, e, s, w. -/
inductive HandleType where
  | nw | ne | se | sw | n | e | s | w
deriving DecidableEq, Repr

/-- One handle hotspot of an element: `{x, y, size, cursor}`. -/
structure Handle where
  x : ℚ
  y : ℚ
  size : ℚ
  cursor : String
deriving DecidableEq, Repr

/-- The `handles` object of a `ResizableImage`. -/
structure Handles where
  nw : Handle
  ne : Handle
  se : Handle
  sw : Handle
  n : Handle
  e : Handle
  s : Handle
  w : Handle
deriving DecidableEq, Repr

/-- The part of an `HTMLImageElement` the code reads. -/
structure Img where
  width : ℚ
  height : ℚ
  naturalWidth : ℚ
  naturalHeight : ℚ
deriving DecidableEq, Repr

/-- The fields of class `ResizableImage`. -/
structure ResizableImage where
  id : String
  x : ℚ
  y : ℚ
  width : ℚ
  height : ℚ
  minWidth : ℚ
  minHeight : ℚ
  image : Option Img
  naturalWidth : ℚ
  naturalHeight : ℚ
  aspectRatio : ℚ
  selected : Bool
  handles : Handles
deriving DecidableEq, Repr

/-- The canvas element: its `width` and `height` (the viewport), which the
element holds as integers. Also the shape of `canvasResizeStartState`, whose
two numbers are read from a canvas. -/
structure Canvas where
  width : ℤ
  height : ℤ
deriving DecidableEq, Repr

/-- The value a dimension of a canvas element holds after the assignment
`canvas.width = v` or `canvas.height = v`: the element keeps the integer part of
the number, so `1431.5` is stored as `1431`. The numbers the code assigns are
at least 1 (`handleCanvasResize` at least 50); what the element does with a
negative number, or with one of `2^31` or more, is outside the model. -/
def canvasDimension (v : ℚ) : ℤ :=
  ⌊v⌋

/-- An entry of `getCanvasResizeHandles()`: `{name, x, y, cursor}`. -/
structure CanvasHandle where
  name : HandleType
  x : ℚ
  y : ℚ
  cursor : String
deriving DecidableEq, Repr

/-- The value of `selectedHandle`: `{type, handle, image}`, the image being the
index of the element in `images`. -/
structure HandleInfo where
  type : HandleType
  handle : Handle
  image : Nat
deriving DecidableEq, Repr

/-- The state of class `ImageCombiner` that the transforms read and write. -/
structure ImageCombiner where
  canvas : Canvas
  images : List ResizableImage
  canvasResizeHandle : Option CanvasHandle
  isResizingCanvas : Bool
  canvasResizeStartState : Option Canvas
  selectedImage : Option Nat
  selectedHandle : Option HandleInfo
  isDragging : Bool
  dragStartPos : Point
  initialImageState : Option ResizableImage
  isWindows : Bool
deriving DecidableEq, Repr

/-- The part of a mouse event `handleMouseDown` reads: the button and the
position `getMousePosition(e)` computes from it. -/
structure MouseEvent where
  button : Int
  pos : Point
deriving DecidableEq, Repr

/-! ## ResizableImage -/

namespace ResizableImage

/-- The source's `createHandles()`, from the rectangle `(x, y, width, height)`. -/
def createHandlesAt (x y width height : ℚ) : Handles :=
  let handleSize : ℚ := 8
  { nw := { x := x - handleSize / 2, y := y - handleSize / 2,
            size := handleSize, cursor := "nw-resize" }
    ne := { x := x + width - handleSize / 2, y := y - handleSize / 2,
            size := handleSize, cursor := "ne-resize" }
    se := { x := x + width - handleSize / 2, y := y + height - handleSize / 2,
            size := handleSize, cursor := "se-resize" }
    sw := { x := x - handleSize / 2, y := y + height - handleSize / 2,
            size := handleSize, cursor := "sw-resize" }
    n := { x := x + width / 2 - handleSize / 2, y := y - handleSize / 2,
           size := handleSize, cursor := "n-resize" }
    e := { x := x + width - handleSize / 2, y := y + height / 2 - handleSize / 2,
           size := handleSize, cursor := "e-resize" }
    s := { x := x + width / 2 - handleSize / 2, y := y + height - handleSize / 2,
           size := handleSize, cursor := "s-resize" }
    w := { x := x - handleSize / 2, y := y + height / 2 - handleSize / 2,
           size := handleSize, cursor := "w-resize" } }

/-- The method `createHandles()` of an element. -/
def createHandles (r : ResizableImage) : Handles :=
  createHandlesAt r.x r.y r.width r.height

/-- The constructor `new ResizableImage(id, x, y, width, height)`. -/
def new (id : String) (x y width height : ℚ) : ResizableImage :=
  { id := id, x := x, y := y, width := width, height := height,
    minWidth := 50, minHeight := 50, image := none,
    naturalWidth := 0, naturalHeight := 0, aspectRatio := 1,
    selected := false, handles := createHandlesAt x y width height }

/-- The method `updateHandles()`: rewrites the `x` and `y` of the eight handles
from the current rectangle, leaving `size` and `cursor`. -/
def updateHandles (r : ResizableImage) : ResizableImage :=
  let handleSize : ℚ := 8
  let h := r.handles
  { r with handles :=
    { nw := { h.nw with x := r.x - handleSize / 2, y := r.y - handleSize / 2 }
      ne := { h.ne with x := r.x + r.width - handleSize / 2, y := r.y - handleSize / 2 }
      se := { h.se with x := r.x + r.width - handleSize / 2,
                        y := r.y + r.height - handleSize / 2 }
      sw := { h.sw with x := r.x - handleSize / 2, y := r.y + r.height - handleSize / 2 }
      n := { h.n with x := r.x + r.width / 2 - handleSize / 2, y := r.y - handleSize / 2 }
      e := { h.e with x := r.x + r.width - handleSize / 2,
                      y := r.y + r.height / 2 - handleSize / 2 }
      s := { h.s with x := r.x + r.width / 2 - handleSize / 2,
                      y := r.y + r.height - handleSize / 2 }
      w := { h.w with x := r.x - handleSize / 2,
                      y := r.y + r.height / 2 - handleSize / 2 } } }

/-- The string method `startsWith`, on the characters of the two strings. -/
def startsWith (s pre : String) : Bool :=
  pre.data.isPrefixOf s.data

/-- The test of `fitToCurrentBounds` for an additional screenshot that was
pre-sized to its image: the id starts with `screenshot-`, is not `screenshot-1`,
and width and height are within 10 of the image's. -/
def isPreSized (r : ResizableImage) (image : Img) : Bool :=
  (startsWith r.id "screenshot-" && r.id != "screenshot-1")
    && (decide (|r.width - image.width| < 10) && decide (|r.height - image.height| < 10))

/-- The method `fitToCurrentBounds()`. -/
def fitToCurrentBounds (r : ResizableImage) : ResizableImage :=
  match r.image with
  | none => r
  | some image =>
    let aspectRatio := r.aspectRatio
    let availableWidth := r.width
    let availableHeight := r.height
    let originalX := r.x
    let originalY := r.y
    if isPreSized r image then
      r.updateHandles
    else
      let fit : ℚ × ℚ :=
        if availableWidth / availableHeight > aspectRatio then
          (availableHeight * aspectRatio, availableHeight)
        else
          (availableWidth, availableWidth / aspectRatio)
      let newWidth := fit.1
      let newHeight := fit.2
      updateHandles
        { r with x := originalX + (availableWidth - newWidth) / 2,
                 y := originalY + (availableHeight - newHeight) / 2,
                 width := newWidth, height := newHeight }

/-- The method `setImage(img)` of an element. -/
def setImage (r : ResizableImage) (img : Img) : ResizableImage :=
  fitToCurrentBounds
    { r with image := some img, naturalWidth := img.naturalWidth,
             naturalHeight := img.naturalHeight,
             aspectRatio := img.naturalWidth / img.naturalHeight }

/-- The method `containsPoint(x, y)`. -/
def containsPoint (r : ResizableImage) (x y : ℚ) : Bool :=
  decide (x ≥ r.x) && decide (x ≤ r.x + r.width) &&
    decide (y ≥ r.y) && decide (y ≤ r.y + r.height)

/-- The pairs `Object.entries(this.handles)` yields, in key order. -/
def handleEntries (h : Handles) : List (HandleType × Handle) :=
  [(.nw, h.nw), (.ne, h.ne), (.se, h.se), (.sw, h.sw),
   (.n, h.n), (.e, h.e), (.s, h.s), (.w, h.w)]

/-- The hit test of one handle hotspot in `getHandleAtPoint`. -/
def handleHit (handle : Handle) (x y : ℚ) : Bool :=
  decide (x ≥ handle.x) && decide (x ≤ handle.x + handle.size) &&
    decide (y ≥ handle.y) && decide (y ≤ handle.y + handle.size)

/-- The method `getHandleAtPoint(x, y)`: the first handle, in key order, whose
hotspot holds the point, as `{type, handle}`. -/
def getHandleAtPoint (r : ResizableImage) (x y : ℚ) : Option (HandleType × Handle) :=
  (handleEntries r.handles).find? fun entry => handleHit entry.2 x y

end ResizableImage

/-! ## PIRADSPainter: eraser -/

namespace PIRADSPainter

/-- The test `Math.sqrt(Math.pow(point.x - x, 2) + Math.pow(point.y - y, 2)) < radius`
of `removePathsAtPoint`, decided without a square root: a square root is never
negative, so it is below `radius` exactly when `radius` is positive and the sum
of squares is below `radius ^ 2` (`distanceLt_iff_sqrt`). -/
def distanceLt (point : Point) (x y radius : ℚ) : Bool :=
  decide (0 < radius ∧ (point.x - x) ^ 2 + (point.y - y) ^ 2 < radius ^ 2)

/-- The inner loop `path.points.forEach(...)`: the final value of `keepPath`. -/
def keepPath (path : Path) (x y radius : ℚ) : Bool :=
  path.points.foldl (fun keep point => if distanceLt point x y radius then false else keep) true

/-- The outer loop `this.paths.forEach(...)`: the final `newPaths` and
`pathsRemoved`. -/
def scanPaths (paths : List Path) (x y radius : ℚ) : List Path × Bool :=
  paths.foldl
    (fun acc path =>
      let keep := keepPath path x y radius
      (if keep then acc.1 ++ [path] else acc.1, acc.2 || !keep))
    ([], false)

/-- The method `removePathsAtPoint(x, y, radius)`, as the value of `this.paths`
after the call. -/
def removePathsAtPoint (paths : List Path) (x y radius : ℚ) : List Path :=
  let scan := scanPaths paths x y radius
  if scan.2 then scan.1 else paths

end PIRADSPainter

/-! ## ImageCombiner: viewport resize -/

namespace ImageCombiner

/-- An entry of `preservedImages` in `handleCanvasResize`. -/
structure Preserved where
  id : String
  x : ℚ
  y : ℚ
  width : ℚ
  height : ℚ
  image : Option Img
  aspectRatio : ℚ
deriving DecidableEq, Repr

/-- The snapshot `this.images.map(img => (...))` of `handleCanvasResize`. -/
def preserveImages (images : List ResizableImage) : List Preserved :=
  images.map fun img =>
    { id := img.id, x := img.x, y := img.y, width := img.width, height := img.height,
      image := img.image, aspectRatio := img.aspectRatio }

/-- The loop `preservedImages.forEach((preserved, index) => ...)`: entry `index`
is written back to `images[index]` when that element exists, and the element's
handles are updated. -/
def restoreImages : List Preserved → List ResizableImage → List ResizableImage
  | preserved :: ps, img :: imgs =>
      ResizableImage.updateHandles
          { img with x := preserved.x, y := preserved.y, width := preserved.width,
                     height := preserved.height, image := preserved.image,
                     aspectRatio := preserved.aspectRatio }
        :: restoreImages ps imgs
  | _, imgs => imgs

/-- The new viewport size `handleCanvasResize` computes from the drag-start
size, before and after clamping. -/
def canvasResizeTarget (start : Canvas) (deltaX deltaY : ℚ) (handleName : HandleType) :
    ℚ × ℚ :=
  let minWidth : ℚ := 50
  let minHeight : ℚ := 50
  let maxWidth : ℚ := 3000
  let maxHeight : ℚ := 2000
  let sensitivity : ℚ := 3 / 10
  let adjustedDeltaX := deltaX * sensitivity
  let adjustedDeltaY := deltaY * sensitivity
  let raw : ℚ × ℚ :=
    match handleName with
    | .nw => (start.width - adjustedDeltaX, start.height - adjustedDeltaY)
    | .ne => (start.width + adjustedDeltaX, start.height - adjustedDeltaY)
    | .sw => (start.width - adjustedDeltaX, start.height + adjustedDeltaY)
    | .se => (start.width + adjustedDeltaX, start.height + adjustedDeltaY)
    | .n => (start.width, start.height - adjustedDeltaY)
    | .s => (start.width, start.height + adjustedDeltaY)
    | .w => (start.width - adjustedDeltaX, start.height)
    | .e => (start.width + adjustedDeltaX, start.height)
  (max minWidth (min maxWidth raw.1), max minHeight (min maxHeight raw.2))

/-- The method `handleCanvasResize(deltaX, deltaY, handleName)`. It reads
`canvasResizeStartState`; when that is `null` the read throws (`none`). -/
def handleCanvasResize (c : ImageCombiner) (deltaX deltaY : ℚ) (handleName : HandleType) :
    Option ImageCombiner :=
  match c.canvasResizeStartState with
  | none => none
  | some start =>
    let newSize := canvasResizeTarget start deltaX deltaY handleName
    let newWidth := newSize.1
    let newHeight := newSize.2
    if newWidth ≠ c.canvas.width ∨ newHeight ≠ c.canvas.height then
      let preservedImages := preserveImages c.images
      let canvas : Canvas :=
        { width := canvasDimension newWidth, height := canvasDimension newHeight }
      some { c with canvas := canvas, images := restoreImages preservedImages c.images }
    else
      some c

/-- The state an event handler leaves behind: the returned state, or the state
it started from when the handler threw before changing anything. -/
def stateAfter (c : ImageCombiner) (r : Option ImageCombiner) : ImageCombiner :=
  r.getD c

/-- One viewport resize request: the pointer delta and the grabbed handle. -/
structure CanvasResizeCall where
  deltaX : ℚ
  deltaY : ℚ
  handleName : HandleType
deriving DecidableEq, Repr

/-- A sequence of `handleCanvasResize` calls, run in order. -/
def runCanvasResizes (c : ImageCombiner) (calls : List CanvasResizeCall) : ImageCombiner :=
  calls.foldl
    (fun st call => stateAfter st (handleCanvasResize st call.deltaX call.deltaY call.handleName))
    c

/-! ## ImageCombiner: element transforms -/

/-- The statement `if (image.x < 0) image.x = 0;`. -/
def clampLeft (image : ResizableImage) : ResizableImage :=
  if image.x < 0 then { image with x := 0 } else image

/-- The statement `if (image.y < 0) image.y = 0;`. -/
def clampTop (image : ResizableImage) : ResizableImage :=
  if image.y < 0 then { image with y := 0 } else image

/-- The statement
`if (image.x + image.width > this.canvas.width) image.x = this.canvas.width - image.width;`. -/
def clampRight (c : ImageCombiner) (image : ResizableImage) : ResizableImage :=
  if image.x + image.width > c.canvas.width then
    { image with x := c.canvas.width - image.width }
  else image

/-- The statement
`if (image.y + image.height > this.canvas.height) image.y = this.canvas.height - image.height;`. -/
def clampBottom (c : ImageCombiner) (image : ResizableImage) : ResizableImage :=
  if image.y + image.height > c.canvas.height then
    { image with y := c.canvas.height - image.height }
  else image

/-- The statement `if (image.width < image.minWidth) image.width = image.minWidth;`. -/
def ensureMinWidth (image : ResizableImage) : ResizableImage :=
  if image.width < image.minWidth then { image with width := image.minWidth } else image

/-- The statement `if (image.height < image.minHeight) image.height = image.minHeight;`. -/
def ensureMinHeight (image : ResizableImage) : ResizableImage :=
  if image.height < image.minHeight then { image with height := image.minHeight } else image

/-- The method `constrainImageToCanvas(image)`, on the element it is given: its
statements in source order. -/
def constrainImageToCanvas (c : ImageCombiner) (image : ResizableImage) : ResizableImage :=
  if c.isResizingCanvas then image
  else
    ResizableImage.updateHandles
      (ensureMinHeight (ensureMinWidth (clampBottom c (clampRight c (clampTop (clampLeft image))))))

/-- The values `(newX, newY, newWidth, newHeight)` that `resizeWithHandle`
computes from the drag-start snapshot `init`, the handle and the delta: the
`switch` on the handle type, then the aspect-ratio step for a corner handle of
an element with a bound image. -/
def resizeTarget (init : ResizableImage) (image : ResizableImage) (handleType : HandleType)
    (dx dy : ℚ) : ℚ × ℚ × ℚ × ℚ :=
  let originalX := init.x
  let originalY := init.y
  let originalWidth := init.width
  let originalHeight := init.height
  let raw : ℚ × ℚ × ℚ × ℚ :=
    match handleType with
    | .nw => (originalX + dx, originalY + dy, originalWidth - dx, originalHeight - dy)
    | .ne => (originalX, originalY + dy, originalWidth + dx, originalHeight - dy)
    | .se => (originalX, originalY, originalWidth + dx, originalHeight + dy)
    | .sw => (originalX + dx, originalY, originalWidth - dx, originalHeight + dy)
    | .n => (originalX, originalY + dy, originalWidth, originalHeight - dy)
    | .e => (originalX, originalY, originalWidth + dx, originalHeight)
    | .s => (originalX, originalY, originalWidth, originalHeight + dy)
    | .w => (originalX + dx, originalY, originalWidth - dx, originalHeight)
  let newX := raw.1
  let newY := raw.2.1
  let newWidth := raw.2.2.1
  let newHeight := raw.2.2.2
  if (handleType = .nw ∨ handleType = .ne ∨ handleType = .se ∨ handleType = .sw)
      ∧ image.image.isSome then
    let aspectRatio := image.aspectRatio
    if handleType = .nw ∨ handleType = .se then
      let newHeight := newWidth / aspectRatio
      let newY := if handleType = .nw then originalY + originalHeight - newHeight else newY
      (newX, newY, newWidth, newHeight)
    else
      let newWidth := newHeight * aspectRatio
      let newY := if handleType = .ne then originalY + originalHeight - newHeight else newY
      (newX, newY, newWidth, newHeight)
  else
    (newX, newY, newWidth, newHeight)

/-- The test `newWidth >= minSize && newHeight >= minSize` of `resizeWithHandle`,
with `minSize = 50`. -/
def resizeAccepted (t : ℚ × ℚ × ℚ × ℚ) : Bool :=
  let minSize : ℚ := 50
  decide (t.2.2.1 ≥ minSize) && decide (t.2.2.2 ≥ minSize)

/-- What `resizeWithHandle` does to the element `image` it is handed. -/
def resizeElement (c : ImageCombiner) (init : ResizableImage) (image : ResizableImage)
    (handleType : HandleType) (dx dy : ℚ) : ResizableImage :=
  let t := resizeTarget init image handleType dx dy
  if resizeAccepted t then
    let image := { image with x := t.1, y := t.2.1, width := t.2.2.1, height := t.2.2.2 }
    if !c.isResizingCanvas then constrainImageToCanvas c image else image
  else
    image

/-- The method `resizeWithHandle(handleInfo, dx, dy)`. It reads
`initialImageState`; when that is `null` the read throws (`none`). An element
reference that is no longer in `images` is a detached object: the scene does not
change. -/
def resizeWithHandle (c : ImageCombiner) (handleInfo : HandleInfo) (dx dy : ℚ) :
    Option ImageCombiner :=
  match c.initialImageState with
  | none => none
  | some init =>
    match c.images.get? handleInfo.image with
    | none => some c
    | some image =>
      some { c with images :=
        c.images.set handleInfo.image (resizeElement c init image handleInfo.type dx dy) }

/-- The method `moveImage(image, dx, dy)`, the image given by its index. -/
def moveImage (c : ImageCombiner) (image : Nat) (dx dy : ℚ) : Option ImageCombiner :=
  match c.initialImageState with
  | none => none
  | some init =>
    match c.images.get? image with
    | none => some c
    | some img =>
      let newX := init.x + dx
      let newY := init.y + dy
      let img := { img with x := newX, y := newY }
      let img := if !c.isResizingCanvas then constrainImageToCanvas c img else img
      some { c with images := c.images.set image img }

/-- One `resizeWithHandle` request of a gesture: the drag-start snapshot in
force, the handle information and the delta. -/
structure ResizeCall where
  snapshot : ResizableImage
  handleInfo : HandleInfo
  dx : ℚ
  dy : ℚ
deriving DecidableEq, Repr

/-- A `resizeWithHandle` call made with `initialImageState` holding the given
drag-start snapshot. -/
def resizeStep (c : ImageCombiner) (call : ResizeCall) : ImageCombiner :=
  let c := { c with initialImageState := some call.snapshot }
  stateAfter c (resizeWithHandle c call.handleInfo call.dx call.dy)

/-- A sequence of `resizeWithHandle` calls, run in order. -/
def runResizes (c : ImageCombiner) (calls : List ResizeCall) : ImageCombiner :=
  calls.foldl resizeStep c

/-! ## ImageCombiner: pointer-down hit testing -/

/-- The method `getCanvasResizeHandles()`. -/
def getCanvasResizeHandles (c : ImageCombiner) : List CanvasHandle :=
  let size : ℚ := 16
  let w := c.canvas.width
  let h := c.canvas.height
  [ { name := .nw, x := 0, y := 0, cursor := "nwse-resize" },
    { name := .ne, x := w - size, y := 0, cursor := "nesw-resize" },
    { name := .sw, x := 0, y := h - size, cursor := "nesw-resize" },
    { name := .se, x := w - size, y := h - size, cursor := "nwse-resize" },
    { name := .n, x := w / 2 - size / 2, y := 0, cursor := "ns-resize" },
    { name := .s, x := w / 2 - size / 2, y := h - size, cursor := "ns-resize" },
    { name := .w, x := 0, y := h / 2 - size / 2, cursor := "ew-resize" },
    { name := .e, x := w - size, y := h / 2 - size / 2, cursor := "ew-resize" } ]

/-- The hit test of one viewport hotspot in `getCanvasHandleAtPoint`. -/
def canvasHandleHit (handle : CanvasHandle) (x y : ℚ) : Bool :=
  let size : ℚ := 16
  decide (x ≥ handle.x) && decide (x ≤ handle.x + size) &&
    decide (y ≥ handle.y) && decide (y ≤ handle.y + size)

/-- The method `getCanvasHandleAtPoint(x, y)`. -/
def getCanvasHandleAtPoint (c : ImageCombiner) (x y : ℚ) : Option CanvasHandle :=
  (getCanvasResizeHandles c).find? fun handle => canvasHandleHit handle x y

/-- The first loop of `handleMouseDown`: the first element, from index `index`
on, that has a handle under the point, with its index and the handle. -/
def findHandleHit (x y : ℚ) : List ResizableImage → Nat →
    Option (Nat × ResizableImage × HandleType × Handle)
  | [], _ => none
  | image :: rest, index =>
    match image.getHandleAtPoint x y with
    | some handle => some (index, image, handle)
    | none => findHandleHit x y rest (index + 1)

/-- The second loop of `handleMouseDown`: the first element, from index `index`
on, whose rectangle holds the point, with its index. -/
def findBodyHit (x y : ℚ) : List ResizableImage → Nat → Option (Nat × ResizableImage)
  | [], _ => none
  | image :: rest, index =>
    if image.containsPoint x y then some (index, image) else findBodyHit x y rest (index + 1)

/-- The statement `this.images.forEach(img => img.selected = false)`. -/
def clearSelection (images : List ResizableImage) : List ResizableImage :=
  images.map fun img => { img with selected := false }

/-- The method `handleMouseDown(e)` (the later of the two definitions in the
class body, which is the one in force). -/
def handleMouseDown (c : ImageCombiner) (e : MouseEvent) : ImageCombiner :=
  let pos := e.pos
  if e.button ≠ 0 then c
  else
    match getCanvasHandleAtPoint c pos.x pos.y with
    | some canvasHandle =>
      { c with canvasResizeHandle := some canvasHandle, isResizingCanvas := true,
               isDragging := true, dragStartPos := pos,
               canvasResizeStartState :=
                 some { width := c.canvas.width, height := c.canvas.height } }
    | none =>
      match findHandleHit pos.x pos.y c.images 0 with
      | some (index, image, handle) =>
        { c with selectedHandle := some { type := handle.1, handle := handle.2, image := index },
                 isDragging := true, dragStartPos := pos,
                 initialImageState := some image }
      | none =>
        match findBodyHit pos.x pos.y c.images 0 with
        | some (index, image) =>
          let image := { image with selected := true }
          { c with selectedImage := some index,
                   images := (clearSelection c.images).set index image,
                   isDragging := true, dragStartPos := pos,
                   initialImageState := some image }
        | none =>
          { c with selectedImage := none, selectedHandle := none,
                   canvasResizeHandle := none, isResizingCanvas := false,
                   images := clearSelection c.images }

/-- The method `handleMouseUp()`. -/
def handleMouseUp (c : ImageCombiner) : ImageCombiner :=
  { c with isDragging := false, selectedImage := none, selectedHandle := none,
           canvasResizeHandle := none, isResizingCanvas := false,
           initialImageState := none, canvasResizeStartState := none }

/-- The transform a pointer-move applies. -/
inductive Transform where
  | idle
  | viewportResizing (handle : CanvasHandle)
  | elementResizing (handleInfo : HandleInfo)
  | elementMoving (image : Nat)
  | dragOnly
deriving DecidableEq, Repr

/-- The dispatch of `handleMouseMove`: which transform the next pointer-move
applies in state `c` (`idle` when not dragging, `dragOnly` when dragging with
nothing grabbed). -/
def activeTransform (c : ImageCombiner) : Transform :=
  if !c.isDragging then .idle
  else
    match c.isResizingCanvas, c.canvasResizeHandle, c.selectedHandle, c.selectedImage with
    | true, some handle, _, _ => .viewportResizing handle
    | _, _, some handleInfo, _ => .elementResizing handleInfo
    | _, _, _, some image => .elementMoving image
    | _, _, _, _ => .dragOnly

/-- The Idle state of the interaction state machine: what the constructor sets
and `handleMouseUp` restores. -/
def isIdle (c : ImageCombiner) : Bool :=
  !c.isDragging && !c.isResizingCanvas && c.canvasResizeHandle.isNone &&
    c.selectedHandle.isNone && c.selectedImage.isNone

/-! ## ImageCombiner: element list -/

/-- The method `addImage(id, x, y, width, height)`. -/
def addImage (c : ImageCombiner) (id : String) (x y width height : ℚ) : ImageCombiner :=
  { c with images := c.images ++ [ResizableImage.new id x y width height] }

/-- The array method `findIndex`: the first index whose element satisfies `p`
(`none` for the source's `-1`). -/
def findIndex {α : Type} (p : α → Bool) : List α → Option Nat
  | [] => none
  | a :: as => if p a then some 0 else (findIndex p as).map (· + 1)

/-- The method `removeImage(imageId)`; `splice(index, 1)` is `eraseIdx`. -/
def removeImage (c : ImageCombiner) (imageId : String) : ImageCombiner :=
  match findIndex (fun img => img.id == imageId) c.images with
  | some index =>
    if c.images.length > 1 then { c with images := c.images.eraseIdx index } else c
  | none => c

end ImageCombiner

/-- The rectangle `(x, y, width, height)` of an element. -/
def rectOf (r : ResizableImage) : ℚ × ℚ × ℚ × ℚ :=
  (r.x, r.y, r.width, r.height)

/-- The size invariant of an element: both minimums are 50 and the element is at
least that large. -/
def Sized (r : ResizableImage) : Prop :=
  r.minWidth = 50 ∧ r.minHeight = 50 ∧ r.minWidth ≤ r.width ∧ r.minHeight ≤ r.height

/-! ## ImageCombiner: pointer-move and viewport-changing operations -/

namespace ImageCombiner

/-- The method `handleMouseMove(e)` (the later of the two definitions in the class
body), `e.pos` being `getMousePosition(e)`. When nothing is dragged it only
updates the cursor. A delta below the movement threshold (2 on Windows, else 1)
on both axes is ignored. -/
def handleMouseMove (c : ImageCombiner) (e : MouseEvent) : Option ImageCombiner :=
  if !c.isDragging then some c
  else
    let pos := e.pos
    let dx := pos.x - c.dragStartPos.x
    let dy := pos.y - c.dragStartPos.y
    let moveThreshold : ℚ := if c.isWindows then 2 else 1
    if |dx| < moveThreshold ∧ |dy| < moveThreshold then some c
    else
      match c.isResizingCanvas, c.canvasResizeHandle, c.selectedHandle, c.selectedImage with
      | true, some handle, _, _ => handleCanvasResize c dx dy handle.name
      | _, _, some handleInfo, _ => resizeWithHandle c handleInfo dx dy
      | _, _, _, some image => moveImage c image dx dy
      | _, _, _, _ => some c

/-- A sequence of pointer-move events, handled in order. -/
def runMouseMoves (c : ImageCombiner) (events : List MouseEvent) : ImageCombiner :=
  events.foldl (fun st e => stateAfter st (handleMouseMove st e)) c

/-- The method `updateCanvasSize(sizeString)`, given the two numbers that
`sizeString.split('x').map(Number)` yields. -/
def updateCanvasSize (c : ImageCombiner) (width height : ℚ) : ImageCombiner :=
  let minWidth : ℚ := 1
  let minHeight : ℚ := 1
  { c with
    canvas :=
      { width := canvasDimension (max minWidth width),
        height := canvasDimension (max minHeight height) } }

/-- The loop of `addScreenshotArea` that finds the lowest point of the existing
elements: the final value of `bottomY`, from its initial value. -/
def lowestBottom (images : List ResizableImage) (bottomY : ℚ) : ℚ :=
  images.foldl
    (fun bottomY img =>
      let imageBottom := img.y + img.height
      if imageBottom > bottomY then imageBottom else bottomY)
    bottomY

/-- The method `addScreenshotArea()`, the id of the new element
(`screenshot-` followed by `Date.now()`) given as `newId`. The new element is
the last one of `images`. -/
def addScreenshotArea (c : ImageCombiner) (newId : String) : ImageCombiner :=
  let margin : ℚ := 20
  let defaultImageWidth : ℚ := 600
  let defaultImageHeight : ℚ := 400
  let leftmostX := margin
  let bottomY :=
    if c.images.length > 0 then lowestBottom c.images 0 + margin else margin
  let x := leftmostX
  let y := bottomY
  let requiredHeight := y + defaultImageHeight + margin
  let canvas : Canvas :=
    if requiredHeight > c.canvas.height then
      { c.canvas with height := canvasDimension requiredHeight }
    else c.canvas
  addImage { c with canvas := canvas } newId x y defaultImageWidth defaultImageHeight

/-- The element `ImageCombiner.setImage(img, side)` binds the image to, as an
index into the element list of the state it returns: `leftImage` and
`rightImage` are the elements the constructor put at index 0 and 1; a side that
starts with `screenshot-` names an element by id; any other side takes the first
screenshot element without an image, or a new screenshot area. `none` is the
source's `undefined` target. -/
def setImageTarget (c : ImageCombiner) (side : String) (newId : String) :
    ImageCombiner × Option Nat :=
  if side = "left" then (c, if 0 < c.images.length then some 0 else none)
  else if side = "right" then (c, if 1 < c.images.length then some 1 else none)
  else if ResizableImage.startsWith side "screenshot-" then
    (c, findIndex (fun img => img.id == side) c.images)
  else
    match findIndex
        (fun image => ResizableImage.startsWith image.id "screenshot-" && image.image.isNone)
        c.images with
    | some index => (c, some index)
    | none => (addScreenshotArea c newId, some c.images.length)

/-- The method `ImageCombiner.setImage(img, side)`. For an additional screenshot
the container takes the image's size and the canvas grows to hold it; then the
element's own `setImage` binds the image. -/
def setImage (c : ImageCombiner) (img : Img) (side : String) (newId : String) :
    ImageCombiner :=
  let found := setImageTarget c side newId
  let c := found.1
  match found.2 with
  | none => c
  | some index =>
    match c.images.get? index with
    | none => c
    | some targetImage =>
      if ResizableImage.startsWith targetImage.id "screenshot-"
          && targetImage.id != "screenshot-1" then
        let targetImage := { targetImage with width := img.width, height := img.height }
        let requiredHeight : ℚ := targetImage.y + targetImage.height + 20
        let canvas : Canvas :=
          if requiredHeight > c.canvas.height then
            { c.canvas with height := canvasDimension requiredHeight }
          else c.canvas
        { c with canvas := canvas, images := c.images.set index (targetImage.setImage img) }
      else
        { c with images := c.images.set index (targetImage.setImage img) }

/-- The method `updateCanvasSizeForPiRadsImage()`, `rightImage` being the element
at index 1 and `defaultCanvasWidth` being 1430. -/
def updateCanvasSizeForPiRadsImage (c : ImageCombiner) : ImageCombiner :=
  let defaultCanvasWidth : ℚ := 1430
  match c.images.get? 1 with
  | none => c
  | some rightImage =>
    match rightImage.image with
    | none => c
    | some image =>
      let piRadsHeight := image.height
      let minWidth := defaultCanvasWidth
      let width :=
        if c.canvas.width < minWidth then canvasDimension minWidth else c.canvas.width
      { c with canvas := { width := width, height := canvasDimension piRadsHeight } }

/-- One viewport-changing operation of the canvas, with its arguments. -/
inductive ViewportOp where
  | canvasResize (deltaX deltaY : ℚ) (handleName : HandleType)
  | canvasSize (width height : ℚ)
  | screenshotArea (newId : String)
  | bindImage (img : Img) (side : String) (newId : String)
  | piRadsSize
deriving DecidableEq, Repr

/-- The state after one viewport-changing operation. -/
def applyViewportOp (c : ImageCombiner) : ViewportOp → ImageCombiner
  | .canvasResize deltaX deltaY handleName =>
      stateAfter c (handleCanvasResize c deltaX deltaY handleName)
  | .canvasSize width height => updateCanvasSize c width height
  | .screenshotArea newId => addScreenshotArea c newId
  | .bindImage img side newId => setImage c img side newId
  | .piRadsSize => updateCanvasSizeForPiRadsImage c

/-- A sequence of viewport-changing operations, run in order. -/
def runViewportOps (c : ImageCombiner) (ops : List ViewportOp) : ImageCombiner :=
  ops.foldl applyViewportOp c

end ImageCombiner

/-- The viewport size policy: width in `[50, 3000]`, height in `[50, 2000]`. -/
def ViewportInBounds (canvas : Canvas) : Prop :=
  50 ≤ canvas.width ∧ canvas.width ≤ 3000 ∧ 50 ≤ canvas.height ∧ canvas.height ≤ 2000

/-- The sign `sx` with which a handle applies the horizontal delta to the width:
`+1` for ne, se, e, `-1` for nw, sw, w, `0` for n, s. -/
def signX : HandleType → ℚ
  | .ne | .se | .e => 1
  | .nw | .sw | .w => -1
  | .n | .s => 0

/-- The sign `sy` with which a handle applies the vertical delta to the height:
`+1` for sw, se, s, `-1` for nw, ne, n, `0` for e, w. -/
def signY : HandleType → ℚ
  | .sw | .se | .s => 1
  | .nw | .ne | .n => -1
  | .e | .w => 0

/-- The value `v` clamped into `[lo, hi]`. -/
def clamp (v lo hi : ℚ) : ℚ :=
  if v < lo then lo else if hi < v then hi else v

/-! ## Drawing operations -/

/-- A path command of a 2D context: `moveTo`, `lineTo`, `quadraticCurveTo`. -/
inductive PathCmd where
  | moveTo (x y : ℚ)
  | lineTo (x y : ℚ)
  | quadraticCurveTo (cpx cpy x y : ℚ)
deriving DecidableEq, Repr

/-- The text of a `fillText` call of the legend: the caption, or the label of a
lesion with its number. -/
inductive LegendText where
  | caption
  | lesion (number : ℚ)
deriving DecidableEq, Repr

/-- A drawing operation issued on a 2D context, with the context attributes it
is drawn with. `drawImageAt` is the three-argument `drawImage(img, x, y)`, which
draws at the image's natural size; `stroke` is `beginPath()`, the path commands
and `stroke()`, with `lineCap` when the code sets it. -/
inductive DrawOp where
  | fillRect (fillStyle : String) (x y width height : ℚ)
  | drawImage (image : Img) (x y width height : ℚ)
  | drawImageAt (image : Img) (x y : ℚ)
  | stroke (strokeStyle : String) (lineWidth : ℚ) (lineCap : Option String)
      (path : List PathCmd)
  | fillText (fillStyle font textAlign : String) (text : LegendText) (x y : ℚ)
deriving DecidableEq, Repr

/-! ## ImageCombiner: export -/

namespace ImageCombiner

/-- The method `drawRoundedBorder(ctx, width, height)`: one stroked path. -/
def drawRoundedBorder (width height : ℚ) : List DrawOp :=
  let borderRadius : ℚ := 32
  let borderWidth : ℚ := 3
  [ .stroke "#51abe4" borderWidth none
      [ .moveTo borderRadius (borderWidth / 2),
        .lineTo (width - borderRadius) (borderWidth / 2),
        .quadraticCurveTo (width - borderWidth / 2) (borderWidth / 2)
          (width - borderWidth / 2) borderRadius,
        .lineTo (width - borderWidth / 2) (height - borderRadius),
        .quadraticCurveTo (width - borderWidth / 2) (height - borderWidth / 2)
          (width - borderRadius) (height - borderWidth / 2),
        .lineTo borderRadius (height - borderWidth / 2),
        .quadraticCurveTo (borderWidth / 2) (height - borderWidth / 2)
          (borderWidth / 2) (height - borderRadius),
        .lineTo (borderWidth / 2) borderRadius,
        .quadraticCurveTo (borderWidth / 2) (borderWidth / 2) borderRadius (borderWidth / 2) ] ]

/-- The loop `this.images.forEach((image, index) => ...)` of
`exportCombinedImage`: the `drawImage` calls issued and the final `imagesDrawn`. -/
def exportDrawImages (images : List ResizableImage) : List DrawOp × Nat :=
  images.foldl
    (fun acc image =>
      match image.image with
      | some img =>
        (acc.1 ++ [.drawImage img image.x image.y image.width image.height], acc.2 + 1)
      | none => acc)
    ([], 0)

/-- The synchronous part of the method `exportCombinedImage()`: the offscreen
canvas it creates and the drawing operations it issues on it, in order. The
smoothing attributes set on Windows are context settings, not drawing
operations. -/
def exportCombinedImage (c : ImageCombiner) : Canvas × List DrawOp :=
  let exportCanvas : Canvas := { width := c.canvas.width, height := c.canvas.height }
  let fill : List DrawOp := [.fillRect "white" 0 0 exportCanvas.width exportCanvas.height]
  let drawn := exportDrawImages c.images
  (exportCanvas, fill ++ drawn.1 ++ drawRoundedBorder exportCanvas.width exportCanvas.height)

end ImageCombiner

/-! ## PIRADSPainter: state, pen gesture, legend, redraw and export -/

/-- The two tools of the painter, the values of `currentTool`. -/
inductive Tool where
  | pen | eraser
deriving DecidableEq, Repr

/-- A legend entry, and the shape of `currentLesion`: `{number, color, lineWidth}`. -/
structure Lesion where
  number : ℚ
  color : String
  lineWidth : ℚ
deriving DecidableEq, Repr

/-- The colour `select` element: its option values and `selectedIndex`. -/
structure ColorInput where
  options : List String
  selectedIndex : Nat
deriving DecidableEq, Repr

/-- The property `value` of the colour `select`: the value of the selected option. -/
def ColorInput.value (input : ColorInput) : String :=
  (input.options.get? input.selectedIndex).getD ""

/-- The state of class `PIRADSPainter`. `lesionNumberInput` is the integer
`parseInt` reads from the lesion-number field; `imgComplete` is `img.complete`. -/
structure PIRADSPainter where
  canvas : Canvas
  img : Img
  imgComplete : Bool
  drawing : Bool
  currentLesion : Lesion
  currentTool : Tool
  selectedLesion : Option Nat
  lesions : List Lesion
  paths : List Path
  currentPath : List Point
  lastX : ℚ
  lastY : ℚ
  backgroundColor : String
  legendBackground : String
  internalBackground : String
  lesionNumberInput : Int
  colorInput : ColorInput
deriving DecidableEq, Repr

namespace PIRADSPainter

/-- The `mousedown` listener of the painter canvas, at canvas position `p`. -/
def onMouseDown (s : PIRADSPainter) (p : Point) : PIRADSPainter :=
  let s := { s with drawing := true, lastX := p.x, lastY := p.y }
  if s.currentTool = .pen then { s with currentPath := [{ x := s.lastX, y := s.lastY }] }
  else s

/-- The `mousemove` listener of the painter canvas, at canvas position `p`. -/
def onMouseMove (s : PIRADSPainter) (p : Point) : PIRADSPainter :=
  if s.drawing then
    let x := p.x
    let y := p.y
    let s :=
      if s.currentTool = .eraser then { s with paths := removePathsAtPoint s.paths x y 10 }
      else { s with currentPath := s.currentPath ++ [{ x := x, y := y }] }
    { s with lastX := x, lastY := y }
  else s

/-- The `mouseup` listener of the painter canvas. -/
def onMouseUp (s : PIRADSPainter) : PIRADSPainter :=
  let s :=
    if s.drawing && decide (s.currentTool = .pen) then
      { s with
        paths :=
          s.paths ++ [{ points := s.currentPath, color := s.currentLesion.color,
                        lineWidth := s.currentLesion.lineWidth,
                        lesionNumber := s.currentLesion.number }] }
    else s
  { s with drawing := false }

/-- A pen gesture: pointer-down at `p0`, pointer-moves at `moves`, pointer-up. -/
def penGesture (s : PIRADSPainter) (p0 : Point) (moves : List Point) : PIRADSPainter :=
  onMouseUp (moves.foldl onMouseMove (onMouseDown s p0))

/-- The method `updateCurrentLesion()`. -/
def updateCurrentLesion (s : PIRADSPainter) : PIRADSPainter :=
  { s with currentLesion := { s.currentLesion with color := s.colorInput.value } }

/-- The method `addLesion()`. The assignment `this.lesions[i] = ...` is `set`;
an index beyond the list, which would extend the array, is outside the model. -/
def addLesion (s : PIRADSPainter) : PIRADSPainter :=
  let s :=
    match s.selectedLesion with
    | some selected =>
      { s with lesions := s.lesions.set selected s.currentLesion, selectedLesion := none }
    | none =>
      let s :=
        { s with
          lesions :=
            s.lesions ++ [({ number := s.currentLesion.number, color := s.currentLesion.color,
                             lineWidth := s.currentLesion.lineWidth } : Lesion)] }
      let number : Int := s.lesionNumberInput + 1
      let s :=
        { s with
          currentLesion := { s.currentLesion with number := (number : ℚ) },
          lesionNumberInput := number }
      let nextColorIndex := (s.colorInput.selectedIndex + 1) % s.colorInput.options.length
      { s with colorInput := { s.colorInput with selectedIndex := nextColorIndex } }
  updateCurrentLesion s

/-- The stroked path of one committed stroke: `moveTo` the first point, `lineTo`
each later one. -/
def strokeCmds : List Point → List PathCmd
  | [] => []
  | first :: rest => .moveTo first.x first.y :: rest.map fun point => .lineTo point.x point.y

/-- The loop `this.paths.forEach(pathData => ...)` of `redrawCanvas` and of
`exportToClipboard`: one stroke per committed stroke, with its colour, width and
a round line cap. -/
def drawPaths (paths : List Path) : List DrawOp :=
  paths.map fun pathData =>
    .stroke pathData.color pathData.lineWidth (some "round") (strokeCmds pathData.points)

/-- The loop `this.lesions.forEach((lesion, index) => ...)` of `drawLegend`, from
index `index` on. -/
def drawLegendItems (startX startY : ℚ) (itemsPerRow : Nat) (textColor : String) :
    List Lesion → Nat → List DrawOp
  | [], _ => []
  | lesion :: rest, index =>
    let itemWidth : ℚ := 100
    let row := index / itemsPerRow
    let col := index % itemsPerRow
    let x := startX + (col : ℚ) * itemWidth
    let y := startY + (row : ℚ) * 25
    .fillRect lesion.color x (y - 12) 15 15
      :: .fillText textColor "14px Arial" "left" (.lesion lesion.number) (x + 25) y
      :: drawLegendItems startX startY itemsPerRow textColor rest (index + 1)

/-- The method `drawLegend()`: the operations it issues, always on the painter's
own context `this.ctx`. It declares no parameters, so arguments passed to it are
ignored. `isDark` is the colour scheme of the document. -/
def drawLegend (s : PIRADSPainter) (isDark : Bool) : List DrawOp :=
  let legendWidth := s.canvas.width
  let imageHeight :=
    if s.imgComplete && decide (s.img.naturalWidth > 0) then s.img.naturalHeight
    else s.canvas.height - 80
  let startY := imageHeight + 40
  let itemWidth : ℚ := 100
  let itemsPerRow := min 5 s.lesions.length
  let totalWidth := itemWidth * (itemsPerRow : ℚ)
  let startX := (legendWidth - totalWidth) / 2
  let textColor := if isDark then "#ffffff" else "#000000"
  .fillRect s.legendBackground 0 imageHeight s.canvas.width 80
    :: .fillText textColor "bold 16px Arial" "center" .caption (s.canvas.width / 2)
        (imageHeight + 25)
    :: drawLegendItems startX startY itemsPerRow textColor s.lesions 0

/-- The theme colours `redrawCanvas()` stores before drawing. -/
def setTheme (s : PIRADSPainter) (isDark : Bool) : PIRADSPainter :=
  { s with backgroundColor := if isDark then "#1a1a1a" else "#f8f8f8",
           legendBackground := if isDark then "#2a2a2a" else "#FFFEFC",
           internalBackground := if isDark then "#2a2a2a" else "#ffffff" }

/-- The method `redrawCanvas()`: the state it leaves and the operations it issues
on the live context, the background fill first. -/
def redrawCanvas (s : PIRADSPainter) (isDark : Bool) : PIRADSPainter × List DrawOp :=
  let s := setTheme s isDark
  let background : List DrawOp :=
    [.fillRect s.backgroundColor 0 0 s.canvas.width s.canvas.height]
  let image : List DrawOp :=
    if s.imgComplete && decide (s.img.naturalWidth > 0) then [.drawImageAt s.img 0 0] else []
  (s, background ++ image ++ drawPaths s.paths ++ drawLegend s isDark)

/-- The operations of one run of `exportToClipboard`, by the surface they are
issued on. -/
structure ExportOps where
  exportSurface : List DrawOp
  liveSurface : List DrawOp
deriving DecidableEq, Repr

/-- The method `exportToClipboard()` up to `toBlob`. `backgroundImage` is the
outcome of loading `imageUrl`: `none` when the load fails, in which case the
awaited promise rejects before anything is drawn. The call
`this.drawLegend(exportCtx, ...)` runs `drawLegend()`, which draws on
`this.ctx`. -/
def exportToClipboard (s : PIRADSPainter) (isDark : Bool) (backgroundImage : Option Img) :
    ExportOps :=
  let exportCanvas : Canvas := { width := s.canvas.width, height := s.canvas.height }
  match backgroundImage with
  | none => { exportSurface := [], liveSurface := [] }
  | some backgroundImage =>
    let fill : List DrawOp :=
      [.fillRect "#FFFFFF" 0 0 exportCanvas.width exportCanvas.height]
    let background : List DrawOp :=
      [.drawImage backgroundImage 0 0 exportCanvas.width exportCanvas.height]
    let strokes : List DrawOp := if s.paths.length > 0 then drawPaths s.paths else []
    { exportSurface := fill ++ background ++ strokes, liveSurface := drawLegend s isDark }

end PIRADSPainter

/-! ## Predicates of the no-drift specification -/

/-- The elements `a` and `b` have the same rectangle and the same minimums. -/
def SameRect (a b : ResizableImage) : Prop :=
  a.x = b.x ∧ a.y = b.y ∧ a.width = b.width ∧ a.height = b.height
    ∧ a.minWidth = b.minWidth ∧ a.minHeight = b.minHeight

/-- The elements `a` and `b` agree on what a gesture never changes: the bound
image, the aspect ratio and the minimums. -/
def SameAttrs (a b : ResizableImage) : Prop :=
  a.image = b.image ∧ a.aspectRatio = b.aspectRatio
    ∧ a.minWidth = b.minWidth ∧ a.minHeight = b.minHeight

/-- The cumulative delta of a pointer position from the drag start reaches the
movement threshold of `handleMouseMove` on some axis. -/
def reachesThreshold (c : ImageCombiner) (e : MouseEvent) : Prop :=
  ¬ (|e.pos.x - c.dragStartPos.x| < (if c.isWindows then 2 else 1)
      ∧ |e.pos.y - c.dragStartPos.y| < (if c.isWindows then 2 else 1))

/-! ## BefundGenerator: measurement fields and lesion list -/

/-- The state of class `BefundGenerator` that the measurement and lesion methods
read and write. `lesionItems` holds the ids of the `.lesion-item` elements of
the document, in document order: what `document.getElementById` searches. -/
structure BefundGenerator where
  lesions : List String
  lesionItems : List String
  currentVolume : ℚ
  currentPsaDensity : ℚ
deriving DecidableEq, Repr

namespace BefundGenerator

/-- The state the constructor sets: no lesions, volume and density 0. -/
def new : BefundGenerator :=
  { lesions := [], lesionItems := [], currentVolume := 0, currentPsaDensity := 0 }

/-- The characters the class `[^0-9,.]` leaves: the ten digits, the comma and
the dot. -/
def isAllowedChar (ch : Char) : Bool :=
  ch.isDigit || ch == ',' || ch == '.'

/-- The string method `replace(search, replacement)` for one-character strings:
the first occurrence is replaced. -/
def replaceFirst (value : List Char) (search replacement : Char) : List Char :=
  match value with
  | [] => []
  | ch :: rest =>
    if ch = search then replacement :: rest else ch :: replaceFirst rest search replacement

/-- The expression `(value.match(/,/g) || []).length` for the character `ch`. -/
def countOf (value : List Char) (ch : Char) : Nat :=
  (value.filter (· == ch)).length

/-- The string method `lastIndexOf(ch)`: the last index holding `ch`, or `-1`.
The fold carries the answer so far and the current index. -/
def lastIndexOf (value : List Char) (ch : Char) : Int :=
  (value.foldl
    (fun (acc : Int × Int) c => (if c = ch then acc.2 else acc.1, acc.2 + 1))
    ((-1 : Int), (0 : Int))).1

/-- The string method `substring(start, stop)` for `start <= stop`; a negative
argument counts as 0. -/
def substring (value : List Char) (start stop : Int) : List Char :=
  (value.take stop.toNat).drop start.toNat

/-- The method `handleMeasurementInput(input)`, as the string it writes back to
`input.value` from the string it reads there. The recalculation it triggers
afterwards is `calculateVolume` or `calculatePsaDensity`. A character outside
the basic plane is two code units in the source and one character here; the
filter drops it either way. -/
def handleMeasurementInput (value : String) : String :=
  let value := value.data.filter isAllowedChar
  let value :=
    if value.contains '.' && !value.contains ',' then replaceFirst value '.' ',' else value
  let commaCount := countOf value ','
  let value := if commaCount > 1 then substring value 0 (lastIndexOf value ',') else value
  String.mk value

/-- The method `calculatePsaDensity()`, `psa` being the number
`parseGermanNumber` returns for the PSA field. -/
def calculatePsaDensity (s : BefundGenerator) (psa : ℚ) : BefundGenerator :=
  if psa > 0 ∧ s.currentVolume > 0 then
    { s with currentPsaDensity := psa / s.currentVolume }
  else
    { s with currentPsaDensity := 0 }

/-- The method `calculateVolume()`, `a`, `b`, `c` and `psa` being the numbers
`parseGermanNumber` returns for the three measurement fields and the PSA
field. -/
def calculateVolume (s : BefundGenerator) (a b c psa : ℚ) : BefundGenerator :=
  if a > 0 ∧ b > 0 ∧ c > 0 then
    calculatePsaDensity { s with currentVolume := a * b * c * (52 / 100) } psa
  else
    calculatePsaDensity { s with currentVolume := 0 } psa

/-- The method `addLesion()`, on the lesion list and the lesion elements: the
new id is `lesion_` followed by the list length plus one. -/
def addLesion (s : BefundGenerator) : BefundGenerator :=
  let lesionIndex := s.lesions.length + 1
  let lesionId := "lesion_" ++ toString lesionIndex
  let items := if s.lesions.length = 0 then [] else s.lesionItems
  { s with lesionItems := items ++ [lesionId], lesions := s.lesions ++ [lesionId] }

/-- The method `removeLesion(lesionId)`: when the document holds an element with
the id, the first such element is removed and every entry equal to the id is
filtered out of the list. -/
def removeLesion (s : BefundGenerator) (lesionId : String) : BefundGenerator :=
  if lesionId ∈ s.lesionItems then
    let items := s.lesionItems.erase lesionId
    let lesions := s.lesions.filter fun id => id != lesionId
    { s with lesionItems := if lesions.length = 0 then [] else items, lesions := lesions }
  else s

/-- A call on the lesion list of the report form. -/
inductive LesionCall where
  | add
  | remove (lesionId : String)
deriving DecidableEq, Repr

/-- A sequence of `addLesion` and `removeLesion` calls, run in order. -/
def runLesionCalls (s : BefundGenerator) (calls : List LesionCall) : BefundGenerator :=
  calls.foldl
    (fun st call =>
      match call with
      | .add => addLesion st
      | .remove lesionId => removeLesion st lesionId)
    s

end BefundGenerator

/-! ## Predicates of the containment specification -/

/-- The element lies inside the viewport: `0 <= x`, `0 <= y`,
`x + width <= canvas.width` and `y + height <= canvas.height`. -/
def InsideViewport (canvas : Canvas) (r : ResizableImage) : Prop :=
  0 ≤ r.x ∧ 0 ≤ r.y ∧ r.x + r.width ≤ canvas.width ∧ r.y + r.height ≤ canvas.height

/-! ## ImageCombiner: event and operation sequences -/

namespace ImageCombiner

/-- A pointer event of the canvas: `mousedown`, `mousemove` or `mouseup`. -/
inductive PointerEvent where
  | down (e : MouseEvent)
  | move (e : MouseEvent)
  | up
deriving DecidableEq, Repr

/-- The state the handler of one pointer event leaves. -/
def handlePointerEvent (c : ImageCombiner) : PointerEvent → ImageCombiner
  | .down e => handleMouseDown c e
  | .move e => stateAfter c (handleMouseMove c e)
  | .up => handleMouseUp c

/-- A sequence of pointer events, handled in order. -/
def runPointerEvents (c : ImageCombiner) (events : List PointerEvent) : ImageCombiner :=
  events.foldl handlePointerEvent c

/-- An operation on the canvas: a pointer event or a call of `setImage`,
`addImage`, `addScreenshotArea` or `removeImage`, with its arguments. -/
inductive CanvasOp where
  | pointer (event : PointerEvent)
  | setImage (img : Img) (side : String) (newId : String)
  | addImage (id : String) (x y width height : ℚ)
  | addScreenshotArea (newId : String)
  | removeImage (imageId : String)
deriving DecidableEq, Repr

/-- The state after one operation on the canvas. -/
def applyCanvasOp (c : ImageCombiner) : CanvasOp → ImageCombiner
  | .pointer event => handlePointerEvent c event
  | .setImage img side newId => setImage c img side newId
  | .addImage id x y width height => addImage c id x y width height
  | .addScreenshotArea newId => addScreenshotArea c newId
  | .removeImage imageId => removeImage c imageId

/-- A sequence of operations on the canvas, run in order. -/
def runCanvasOps (c : ImageCombiner) (ops : List CanvasOp) : ImageCombiner :=
  ops.foldl applyCanvasOp c

end ImageCombiner

/-! ## ImageCombiner: redraw scheduling -/

namespace ImageCombiner

/-- The redraw bookkeeping of the combiner: the flag `pendingRedraw`, the number
of callbacks handed to `requestAnimationFrame` that the browser has not run yet,
and the number of `performRedraw` runs so far. -/
structure RedrawState where
  pendingRedraw : Bool
  frameCallbacks : Nat
  paints : Nat
deriving DecidableEq, Repr

/-- The method `performRedraw()`, as one more run of it. -/
def performRedraw (s : RedrawState) : RedrawState :=
  { s with paints := s.paints + 1 }

/-- The method `scheduleRedraw()`: with no redraw pending it sets the flag and
hands one callback to `requestAnimationFrame`. -/
def scheduleRedraw (s : RedrawState) : RedrawState :=
  if s.pendingRedraw then s
  else { s with pendingRedraw := true, frameCallbacks := s.frameCallbacks + 1 }

/-- The method `redraw()`. -/
def redraw (s : RedrawState) : RedrawState :=
  scheduleRedraw s

/-- The callback `scheduleRedraw` hands to `requestAnimationFrame`:
`performRedraw()`, then the flag is cleared. -/
def frameCallback (s : RedrawState) : RedrawState :=
  { performRedraw s with pendingRedraw := false }

/-- A display refresh: the browser runs the callbacks requested since the last
one. -/
def runFrame (s : RedrawState) : RedrawState :=
  Nat.iterate frameCallback s.frameCallbacks { s with frameCallbacks := 0 }

/-- Whether `handleMouseDown(e)` reaches one of its two `this.redraw()` calls: it
does when the left button goes down on neither a viewport hotspot nor an element
handle. -/
def mouseDownRedraws (c : ImageCombiner) (e : MouseEvent) : Bool :=
  if e.button ≠ 0 then false
  else
    match getCanvasHandleAtPoint c e.pos.x e.pos.y with
    | some _ => false
    | none =>
      match findHandleHit e.pos.x e.pos.y c.images 0 with
      | some _ => false
      | none => true

/-- Whether `handleCanvasResize` computes a size that differs from the viewport's
and so calls `this.performRedraw()` itself. -/
def canvasResizeRepaints (c : ImageCombiner) (deltaX deltaY : ℚ) (handleName : HandleType) :
    Bool :=
  match c.canvasResizeStartState with
  | none => false
  | some start =>
    let newSize := canvasResizeTarget start deltaX deltaY handleName
    decide (newSize.1 ≠ c.canvas.width ∨ newSize.2 ≠ c.canvas.height)

/-- What `handleMouseMove(e)` does to the redraw bookkeeping: nothing when no drag
is in progress or the delta is below the threshold; otherwise the transform runs
(a viewport resize that changes the size paints at once) and `this.redraw()` is
called at the end. A transform that throws leaves before that call. -/
def mouseMoveRedraw (c : ImageCombiner) (s : RedrawState) (e : MouseEvent) : RedrawState :=
  if !c.isDragging then s
  else
    let pos := e.pos
    let dx := pos.x - c.dragStartPos.x
    let dy := pos.y - c.dragStartPos.y
    let moveThreshold : ℚ := if c.isWindows then 2 else 1
    if |dx| < moveThreshold ∧ |dy| < moveThreshold then s
    else
      match c.isResizingCanvas, c.canvasResizeHandle, c.selectedHandle, c.selectedImage with
      | true, some handle, _, _ =>
        match handleCanvasResize c dx dy handle.name with
        | none => s
        | some _ =>
          redraw (if canvasResizeRepaints c dx dy handle.name then performRedraw s else s)
      | _, _, some handleInfo, _ =>
        match resizeWithHandle c handleInfo dx dy with
        | none => s
        | some _ => redraw s
      | _, _, _, some image =>
        match moveImage c image dx dy with
        | none => s
        | some _ => redraw s
      | _, _, _, _ => redraw s

/-- What happens between two display refreshes: a pointer event, or a redraw
request from any other method (`this.redraw()`). -/
inductive DisplayEvent where
  | pointer (event : PointerEvent)
  | redrawRequest
deriving DecidableEq, Repr

/-- The scene and the redraw bookkeeping after one event. -/
def handleDisplayEvent (st : ImageCombiner × RedrawState) :
    DisplayEvent → ImageCombiner × RedrawState
  | .pointer (.down e) =>
    (handleMouseDown st.1 e, if mouseDownRedraws st.1 e then redraw st.2 else st.2)
  | .pointer (.move e) =>
    (stateAfter st.1 (handleMouseMove st.1 e), mouseMoveRedraw st.1 st.2 e)
  | .pointer .up => (handleMouseUp st.1, st.2)
  | .redrawRequest => (st.1, redraw st.2)

/-- A sequence of events between two display refreshes, handled in order. -/
def runDisplayEvents (st : ImageCombiner × RedrawState) (events : List DisplayEvent) :
    ImageCombiner × RedrawState :=
  events.foldl handleDisplayEvent st

/-- The number of pointer-move events in a sequence. -/
def pointerMoves (events : List DisplayEvent) : Nat :=
  (events.filter fun event =>
    match event with
    | .pointer (.move _) => true
    | _ => false).length

end ImageCombiner

/-! ## Predicates of the interaction and handle specifications -/

/-- The point a handle is named after: the corner of the rectangle for nw, ne,
se, sw and the midpoint of the edge for n, e, s, w. -/
def handleAnchor (r : ResizableImage) : HandleType → Point
  | .nw => { x := r.x, y := r.y }
  | .ne => { x := r.x + r.width, y := r.y }
  | .se => { x := r.x + r.width, y := r.y + r.height }
  | .sw => { x := r.x, y := r.y + r.height }
  | .n => { x := r.x + r.width / 2, y := r.y }
  | .e => { x := r.x + r.width, y := r.y + r.height / 2 }
  | .s => { x := r.x + r.width / 2, y := r.y + r.height }
  | .w => { x := r.x, y := r.y + r.height / 2 }

/-- The handles of the element are what `createHandles` computes from its
current rectangle. -/
def HandlesDerived (r : ResizableImage) : Prop :=
  r.handles = r.createHandles

/-- No two of the three conditions `isResizingCanvas`, `selectedHandle` not null
and `selectedImage` not null hold together. -/
def AtMostOneTransform (c : ImageCombiner) : Prop :=
  ¬ (c.isResizingCanvas = true ∧ c.selectedHandle.isSome = true)
    ∧ ¬ (c.isResizingCanvas = true ∧ c.selectedImage.isSome = true)
    ∧ ¬ (c.selectedHandle.isSome = true ∧ c.selectedImage.isSome = true)

/-- Every left-button pointer-down of the sequence arrives while no drag is in
progress, the sequence being handled from state `c`. -/
def DownsWhenReleased : ImageCombiner → List ImageCombiner.PointerEvent → Prop
  | _, [] => True
  | c, event :: rest =>
    (match event with
      | .down e => e.button = 0 → c.isDragging = false
      | _ => True)
      ∧ DownsWhenReleased (ImageCombiner.handlePointerEvent c event) rest

/-- The snapshots a pointer-move reads are recorded: the drag-start viewport size
while `isResizingCanvas` is set, and the drag-start element state while
`selectedHandle` or `selectedImage` is not null. -/
def SnapshotsRecorded (c : ImageCombiner) : Prop :=
  (c.isResizingCanvas = true → c.canvasResizeStartState.isSome = true)
    ∧ (c.selectedHandle.isSome = true → c.initialImageState.isSome = true)
    ∧ (c.selectedImage.isSome = true → c.initialImageState.isSome = true)

/-! ## Predicates of the hit-test specification -/

/-- The point lies in one of the eight viewport resize hotspots. -/
def inCanvasHotspot (c : ImageCombiner) (p : Point) : Bool :=
  (ImageCombiner.getCanvasResizeHandles c).any fun handle =>
    ImageCombiner.canvasHandleHit handle p.x p.y

/-- The point lies in one of the eight handle hotspots of the element. -/
def inElementHotspot (p : Point) (r : ResizableImage) : Bool :=
  (ResizableImage.handleEntries r.handles).any fun entry =>
    ResizableImage.handleHit entry.2 p.x p.y

/-- The point lies inside the rectangle of the element. -/
def inElementBody (p : Point) (r : ResizableImage) : Bool :=
  r.containsPoint p.x p.y

/-- Element `r` at index `i` is the first element of the list, in list order,
that satisfies `q`. -/
def FirstWith (q : ResizableImage → Bool) (images : List ResizableImage) (i : Nat)
    (r : ResizableImage) : Prop :=
  images.get? i = some r ∧ q r = true
    ∧ ∀ (j : Nat) (r' : ResizableImage), j < i → images.get? j = some r' → q r' = false

/-! ## Concrete scenes used by the witnesses -/

namespace Examples

/-- The left element of a constructed canvas: `screenshot-1` at `(0, 0, 715, 680)`. -/
def leftImage : ResizableImage := ResizableImage.new "screenshot-1" 0 0 715 680

/-- The right element of a constructed canvas: `pirads` at `(715, 0, 715, 680)`. -/
def rightImage : ResizableImage := ResizableImage.new "pirads" 715 0 715 680

/-- The state the `ImageCombiner` constructor builds: a 1430 x 680 viewport with
the two default elements and no interaction in progress, on a platform that is
not Windows. -/
def constructed : ImageCombiner :=
  { canvas := { width := 1430, height := 680 }
    images := [leftImage, rightImage]
    canvasResizeHandle := none
    isResizingCanvas := false
    canvasResizeStartState := none
    selectedImage := none
    selectedHandle := none
    isDragging := false
    dragStartPos := { x := 0, y := 0 }
    initialImageState := none
    isWindows := false }

/-- A 400 x 200 image. -/
def wideImg : Img := { width := 400, height := 200, naturalWidth := 400, naturalHeight := 200 }

/-- The left element after a 400 x 200 image was bound to it: fitted to
`(0, 645/4, 715, 715/2)` with aspect ratio 2. -/
def boundLeft : ResizableImage :=
  { ResizableImage.new "screenshot-1" 0 (645 / 4) 715 (715 / 2) with
    image := some wideImg, naturalWidth := 400, naturalHeight := 200, aspectRatio := 2 }

/-- The south-east handle of `boundLeft`, as pointer-down records it. -/
def seInfo : HandleInfo :=
  { type := .se, handle := boundLeft.handles.se, image := 0 }

/-- The east handle of `boundLeft`, as pointer-down records it. -/
def eInfo : HandleInfo :=
  { type := .e, handle := boundLeft.handles.e, image := 0 }

/-- An element resize in progress on `boundLeft`, grabbed by its south-east
handle. -/
def resizing : ImageCombiner :=
  { constructed with
    images := [boundLeft, rightImage]
    selectedHandle := some seInfo
    isDragging := true
    dragStartPos := { x := 715, y := 2075 / 4 }
    initialImageState := some boundLeft }

/-- Two resize requests on element 0: an accepted one and one below the minimum. -/
def resizeCalls : List ImageCombiner.ResizeCall :=
  [ { snapshot := boundLeft, handleInfo := seInfo, dx := -100, dy := 0 },
    { snapshot := boundLeft, handleInfo := eInfo, dx := -700, dy := 0 } ]

/-- The stroke of the eraser example: points `(10, 10)` and `(50, 50)`. -/
def stroke : Path :=
  { points := [{ x := 10, y := 10 }, { x := 50, y := 50 }],
    color := "#ff0000", lineWidth := 3, lesionNumber := 1 }

/-- A 600 x 400 image. -/
def img600x400 : Img :=
  { width := 600, height := 400, naturalWidth := 600, naturalHeight := 400 }

/-- A 300 x 600 image. -/
def img300x600 : Img :=
  { width := 300, height := 600, naturalWidth := 300, naturalHeight := 600 }

/-- An additional screenshot area at `(0, 0, 600, 400)`. -/
def extraShot : ResizableImage := ResizableImage.new "screenshot-2" 0 0 600 400

/-- The first screenshot area placed at `(0, 0, 600, 400)`. -/
def firstShot : ResizableImage := ResizableImage.new "screenshot-1" 0 0 600 400

/-- A left-button pointer-down at `(2, 2)`: inside the viewport's north-west
hotspot, inside the north-west handle of the left element and inside its body. -/
def downAtCorner : MouseEvent := { button := 0, pos := { x := 2, y := 2 } }

/-- A viewport resize in progress on the constructed scene, grabbed at the
south-east viewport hotspot at `(1420, 670)`. -/
def resizingCanvas : ImageCombiner :=
  { constructed with
    canvasResizeHandle := some { name := .se, x := 1414, y := 664, cursor := "nwse-resize" }
    isResizingCanvas := true
    canvasResizeStartState := some { width := 1430, height := 680 }
    isDragging := true
    dragStartPos := { x := 1420, y := 670 } }

/-- A 4000 x 100 image (aspect ratio 40). -/
def flatImg : Img :=
  { width := 4000, height := 100, naturalWidth := 4000, naturalHeight := 100 }

/-- The left element after the 4000 x 100 image was bound to it
(`setImage_flat_eq`): fitted to `(0, 5297/16, 715, 143/8)`, lower than its
minimum height. -/
def flatLeft : ResizableImage :=
  { ResizableImage.new "screenshot-1" 0 (5297 / 16) 715 (143 / 8) with
    image := some flatImg, naturalWidth := 4000, naturalHeight := 100, aspectRatio := 40 }

/-- A move in progress on `flatLeft`, grabbed by its body at `(100, 340)`. -/
def movingFlat : ImageCombiner :=
  { constructed with
    images := [{ flatLeft with selected := true }, rightImage]
    selectedImage := some 0
    isDragging := true
    dragStartPos := { x := 100, y := 340 }
    initialImageState := some { flatLeft with selected := true } }

/-- Four clicks on the add-screenshot button. -/
def fourScreenshotAreas : List ImageCombiner.ViewportOp :=
  [.screenshotArea "screenshot-1700000000001", .screenshotArea "screenshot-1700000000002",
   .screenshotArea "screenshot-1700000000003", .screenshotArea "screenshot-1700000000004"]

/-- The 800 x 600 prostate diagram. -/
def diagram : Img := { width := 800, height := 600, naturalWidth := 800, naturalHeight := 600 }

/-- A painter with the diagram loaded on its 800 x 680 canvas, one committed
stroke, one registered lesion and lesion 2 current. -/
def painter : PIRADSPainter :=
  { canvas := { width := 800, height := 680 }
    img := diagram
    imgComplete := true
    drawing := false
    currentLesion := { number := 2, color := "#ff0000", lineWidth := 3 }
    currentTool := .pen
    selectedLesion := none
    lesions := [{ number := 1, color := "#51abe4", lineWidth := 3 }]
    paths := [stroke]
    currentPath := []
    lastX := 0
    lastY := 0
    backgroundColor := "#f8f8f8"
    legendBackground := "#FFFEFC"
    internalBackground := "#ffffff"
    lesionNumberInput := 2
    colorInput := { options := ["#51abe4", "#ff0000", "#00ff00"], selectedIndex := 1 } }

/-- The painter after the user typed 7 into the lesion-number field. -/
def painterEdited : PIRADSPainter := { painter with lesionNumberInput := 7 }

/-- The painter with its one legend entry selected for edit. -/
def painterSelected : PIRADSPainter := { painter with selectedLesion := some 0 }

/-- The constructed scene with the two bound elements `boundLeft` and a bound
right element, the left one selected. -/
def selectedScene : ImageCombiner :=
  { constructed with
    images := [{ boundLeft with selected := true },
               { rightImage with image := some diagram }]
    selectedImage := some 0
    isDragging := true }

/-- The painter's drawing of `Examples.painter`, as the live redraw issues it
after the background fill and as the export should mirror it. -/
def painterLegend : List DrawOp :=
  [ .fillRect "#FFFEFC" 0 600 800 80,
    .fillText "#000000" "bold 16px Arial" "center" .caption 400 625,
    .fillRect "#51abe4" 350 628 15 15,
    .fillText "#000000" "14px Arial" "left" (.lesion 1) 375 640 ]

/-- The stroke of `Examples.painter` as a drawing operation. -/
def painterStroke : DrawOp :=
  .stroke "#ff0000" 3 (some "round") [.moveTo 10 10, .lineTo 50 50]

/-- The scene before the resize gesture of `resizing`: the constructed scene with
the 400 x 200 image bound to the left element. -/
def boundScene : ImageCombiner :=
  { constructed with images := [boundLeft, rightImage] }

/-- The pointer-down that starts the gesture of `resizing`: left button on the
south-east handle of `boundLeft`. -/
def downOnSe : MouseEvent := { button := 0, pos := { x := 715, y := 2075 / 4 } }

/-- A pointer-move 100 to the left of the drag start. -/
def moveNear : MouseEvent := { button := 0, pos := { x := 615, y := 2075 / 4 } }

/-- A pointer-move 700 to the left of the drag start. -/
def moveFar : MouseEvent := { button := 0, pos := { x := 15, y := 2075 / 4 } }

/-- The left element of `resizing` after the pointer-move `moveNear`. -/
def nearLeft : ResizableImage :=
  ImageCombiner.resizeElement resizing boundLeft boundLeft seInfo.type
    (moveNear.pos.x - resizing.dragStartPos.x) (moveNear.pos.y - resizing.dragStartPos.y)

/-- The state of `resizing` after the pointer-move `moveNear`. -/
def resizingNear : ImageCombiner :=
  { resizing with images := resizing.images.set seInfo.image nearLeft }

/-- The constructed scene after four clicks on the add-screenshot button: the
viewport has grown to 1430 x 2380. -/
def tallScene : ImageCombiner :=
  ImageCombiner.runViewportOps constructed fourScreenshotAreas

/-- A left-button pointer-down at `(1420, 1190)`, inside the east viewport hotspot
of `tallScene`. -/
def downOnEast : MouseEvent := { button := 0, pos := { x := 1420, y := 1190 } }

/-- A pointer-move 100 to the right of `downOnEast`. -/
def moveEast : MouseEvent := { button := 0, pos := { x := 1520, y := 1190 } }

/-- The south-west handle of `boundLeft`, as pointer-down records it. -/
def swInfo : HandleInfo :=
  { type := .sw, handle := boundLeft.handles.sw, image := 0 }

/-- A left-button pointer-down at `(715, 340)`, inside the east handle of the left
element of the constructed scene and in no viewport hotspot. -/
def downOnLeftEast : MouseEvent := { button := 0, pos := { x := 715, y := 340 } }

/-- A left-button pointer-down at `(100, 100)`, inside the body of the left
element of the constructed scene, in no viewport hotspot and in no handle. -/
def downOnBody : MouseEvent := { button := 0, pos := { x := 100, y := 100 } }

/-- The constructed scene after the pointer-down `downOnLeftEast`: the east handle
of the left element is grabbed. -/
def grabbedEast : ImageCombiner :=
  { constructed with
    selectedHandle := some { type := .e, handle := leftImage.handles.e, image := 0 }
    isDragging := true
    dragStartPos := { x := 715, y := 340 }
    initialImageState := some leftImage }

/-- The redraw bookkeeping right after a display refresh: nothing pending, no
callback waiting, no paint counted yet. -/
def settled : ImageCombiner.RedrawState :=
  { pendingRedraw := false, frameCallbacks := 0, paints := 0 }

/-- A pointer-move 100 to the right of the drag start of `resizingCanvas`. -/
def moveRight100 : MouseEvent := { button := 0, pos := { x := 1520, y := 670 } }

/-- A pointer-move 200 to the right of the drag start of `resizingCanvas`. -/
def moveRight200 : MouseEvent := { button := 0, pos := { x := 1620, y := 670 } }

/-- A pointer-move 100 to the left of `downOnLeftEast`. -/
def moveLeft100 : MouseEvent := { button := 0, pos := { x := 615, y := 340 } }

end Examples

/-! ## Theorems -/

theorem restoreImages_preserveImages_map (images : List ResizableImage) :
    (ImageCombiner.restoreImages (ImageCombiner.preserveImages images) images).map
        (fun r => (r.id, rectOf r))
      = images.map (fun r => (r.id, rectOf r)) := by
  induction images with
  | nil => rfl
  | cons img rest ih =>
    simp only [ImageCombiner.preserveImages, List.map_cons, ImageCombiner.restoreImages] at ih ⊢
    rw [ih]
    simp [ResizableImage.updateHandles, rectOf]

theorem stateAfter_handleCanvasResize_map (c : ImageCombiner) (deltaX deltaY : ℚ)
    (handleName : HandleType) :
    (ImageCombiner.stateAfter c
        (ImageCombiner.handleCanvasResize c deltaX deltaY handleName)).images.map
        (fun r => (r.id, rectOf r))
      = c.images.map (fun r => (r.id, rectOf r)) := by
  unfold ImageCombiner.handleCanvasResize ImageCombiner.stateAfter
  cases c.canvasResizeStartState with
  | none => rfl
  | some start =>
    simp only
    split_ifs
    · simpa using restoreImages_preserveImages_map c.images
    · rfl

theorem runCanvasResizes_map (calls : List ImageCombiner.CanvasResizeCall)
    (c : ImageCombiner) :
    (ImageCombiner.runCanvasResizes c calls).images.map (fun r => (r.id, rectOf r))
      = c.images.map (fun r => (r.id, rectOf r)) := by
  induction calls generalizing c with
  | nil => rfl
  | cons call rest ih =>
    simp only [ImageCombiner.runCanvasResizes, List.foldl_cons] at ih ⊢
    rw [ih]
    exact stateAfter_handleCanvasResize_map c _ _ _

/-- C1. A viewport resize is content-invariant. For every state, handle name and
pointer delta, `handleCanvasResize` returns exactly when a drag-start viewport
size is recorded, and the state after the call has the same elements in the same
order, each with the id, `x`, `y`, `width` and `height` it had before; the same
holds after every sequence of such calls. -/
theorem handleCanvasResize_content_invariant (c : ImageCombiner) :
    (∀ (deltaX deltaY : ℚ) (handleName : HandleType),
      (ImageCombiner.handleCanvasResize c deltaX deltaY handleName).isSome
          = c.canvasResizeStartState.isSome
        ∧ (ImageCombiner.stateAfter c
            (ImageCombiner.handleCanvasResize c deltaX deltaY handleName)).images.length
          = c.images.length
        ∧ (ImageCombiner.stateAfter c
            (ImageCombiner.handleCanvasResize c deltaX deltaY handleName)).images.map
              (fun r => (r.id, r.x, r.y, r.width, r.height))
          = c.images.map (fun r => (r.id, r.x, r.y, r.width, r.height)))
      ∧ ∀ calls : List ImageCombiner.CanvasResizeCall,
          (ImageCombiner.runCanvasResizes c calls).images.length = c.images.length
          ∧ (ImageCombiner.runCanvasResizes c calls).images.map
              (fun r => (r.id, r.x, r.y, r.width, r.height))
            = c.images.map (fun r => (r.id, r.x, r.y, r.width, r.height)) := by
  refine ⟨fun deltaX deltaY handleName => ⟨?_, ?_, ?_⟩, fun calls => ⟨?_, ?_⟩⟩
  · unfold ImageCombiner.handleCanvasResize
    cases c.canvasResizeStartState with
    | none => rfl
    | some start => simp only; split_ifs <;> rfl
  · have h := congrArg List.length (stateAfter_handleCanvasResize_map c deltaX deltaY handleName)
    simpa using h
  · exact stateAfter_handleCanvasResize_map c deltaX deltaY handleName
  · have h := congrArg List.length (runCanvasResizes_map calls c)
    simpa using h
  · exact runCanvasResizes_map calls c

/-! ### Element resize -/

theorem clampLeft_frame (image : ResizableImage) :
    (ImageCombiner.clampLeft image).width = image.width
      ∧ (ImageCombiner.clampLeft image).height = image.height
      ∧ (ImageCombiner.clampLeft image).minWidth = image.minWidth
      ∧ (ImageCombiner.clampLeft image).minHeight = image.minHeight
      ∧ (ImageCombiner.clampLeft image).aspectRatio = image.aspectRatio
      ∧ (ImageCombiner.clampLeft image).image = image.image
      ∧ (ImageCombiner.clampLeft image).id = image.id := by
  unfold ImageCombiner.clampLeft
  split_ifs <;> exact ⟨rfl, rfl, rfl, rfl, rfl, rfl, rfl⟩

theorem clampTop_frame (image : ResizableImage) :
    (ImageCombiner.clampTop image).width = image.width
      ∧ (ImageCombiner.clampTop image).height = image.height
      ∧ (ImageCombiner.clampTop image).minWidth = image.minWidth
      ∧ (ImageCombiner.clampTop image).minHeight = image.minHeight
      ∧ (ImageCombiner.clampTop image).aspectRatio = image.aspectRatio
      ∧ (ImageCombiner.clampTop image).image = image.image
      ∧ (ImageCombiner.clampTop image).id = image.id := by
  unfold ImageCombiner.clampTop
  split_ifs <;> exact ⟨rfl, rfl, rfl, rfl, rfl, rfl, rfl⟩

theorem clampRight_frame (c : ImageCombiner) (image : ResizableImage) :
    (ImageCombiner.clampRight c image).width = image.width
      ∧ (ImageCombiner.clampRight c image).height = image.height
      ∧ (ImageCombiner.clampRight c image).minWidth = image.minWidth
      ∧ (ImageCombiner.clampRight c image).minHeight = image.minHeight
      ∧ (ImageCombiner.clampRight c image).aspectRatio = image.aspectRatio
      ∧ (ImageCombiner.clampRight c image).image = image.image
      ∧ (ImageCombiner.clampRight c image).id = image.id := by
  unfold ImageCombiner.clampRight
  split_ifs <;> exact ⟨rfl, rfl, rfl, rfl, rfl, rfl, rfl⟩

theorem clampBottom_frame (c : ImageCombiner) (image : ResizableImage) :
    (ImageCombiner.clampBottom c image).width = image.width
      ∧ (ImageCombiner.clampBottom c image).height = image.height
      ∧ (ImageCombiner.clampBottom c image).minWidth = image.minWidth
      ∧ (ImageCombiner.clampBottom c image).minHeight = image.minHeight
      ∧ (ImageCombiner.clampBottom c image).aspectRatio = image.aspectRatio
      ∧ (ImageCombiner.clampBottom c image).image = image.image
      ∧ (ImageCombiner.clampBottom c image).id = image.id := by
  unfold ImageCombiner.clampBottom
  split_ifs <;> exact ⟨rfl, rfl, rfl, rfl, rfl, rfl, rfl⟩

theorem constrainImageToCanvas_size (c : ImageCombiner) (image : ResizableImage)
    (hw : image.minWidth ≤ image.width) (hh : image.minHeight ≤ image.height) :
    (ImageCombiner.constrainImageToCanvas c image).width = image.width
      ∧ (ImageCombiner.constrainImageToCanvas c image).height = image.height
      ∧ (ImageCombiner.constrainImageToCanvas c image).minWidth = image.minWidth
      ∧ (ImageCombiner.constrainImageToCanvas c image).minHeight = image.minHeight
      ∧ (ImageCombiner.constrainImageToCanvas c image).aspectRatio = image.aspectRatio
      ∧ (ImageCombiner.constrainImageToCanvas c image).image = image.image
      ∧ (ImageCombiner.constrainImageToCanvas c image).id = image.id := by
  unfold ImageCombiner.constrainImageToCanvas
  by_cases hc : c.isResizingCanvas = true
  · simp [hc]
  · simp only [hc, Bool.false_eq_true, if_false]
    obtain ⟨a1, a2, a3, a4, a5, a6, a7⟩ := clampLeft_frame image
    obtain ⟨b1, b2, b3, b4, b5, b6, b7⟩ := clampTop_frame (ImageCombiner.clampLeft image)
    obtain ⟨c1, c2, c3, c4, c5, c6, c7⟩ :=
      clampRight_frame c (ImageCombiner.clampTop (ImageCombiner.clampLeft image))
    obtain ⟨d1, d2, d3, d4, d5, d6, d7⟩ := clampBottom_frame c
      (ImageCombiner.clampRight c (ImageCombiner.clampTop (ImageCombiner.clampLeft image)))
    have ew : (ImageCombiner.clampBottom c (ImageCombiner.clampRight c
        (ImageCombiner.clampTop (ImageCombiner.clampLeft image)))).width = image.width := by
      rw [d1, c1, b1, a1]
    have eh : (ImageCombiner.clampBottom c (ImageCombiner.clampRight c
        (ImageCombiner.clampTop (ImageCombiner.clampLeft image)))).height = image.height := by
      rw [d2, c2, b2, a2]
    have emw : (ImageCombiner.clampBottom c (ImageCombiner.clampRight c
        (ImageCombiner.clampTop (ImageCombiner.clampLeft image)))).minWidth = image.minWidth := by
      rw [d3, c3, b3, a3]
    have emh : (ImageCombiner.clampBottom c (ImageCombiner.clampRight c
        (ImageCombiner.clampTop (ImageCombiner.clampLeft image)))).minHeight
          = image.minHeight := by
      rw [d4, c4, b4, a4]
    have e1 : ImageCombiner.ensureMinWidth (ImageCombiner.clampBottom c (ImageCombiner.clampRight c
        (ImageCombiner.clampTop (ImageCombiner.clampLeft image))))
        = ImageCombiner.clampBottom c (ImageCombiner.clampRight c
        (ImageCombiner.clampTop (ImageCombiner.clampLeft image))) := by
      unfold ImageCombiner.ensureMinWidth
      rw [if_neg]
      rw [ew, emw]; exact not_lt.mpr hw
    have e2 : ImageCombiner.ensureMinHeight (ImageCombiner.clampBottom c
        (ImageCombiner.clampRight c (ImageCombiner.clampTop (ImageCombiner.clampLeft image))))
        = ImageCombiner.clampBottom c (ImageCombiner.clampRight c
        (ImageCombiner.clampTop (ImageCombiner.clampLeft image))) := by
      unfold ImageCombiner.ensureMinHeight
      rw [if_neg]
      rw [eh, emh]; exact not_lt.mpr hh
    rw [e1, e2]
    refine ⟨?_, ?_, ?_, ?_, ?_, ?_, ?_⟩
    · exact ew
    · exact eh
    · exact emw
    · exact emh
    · show (ImageCombiner.clampBottom c _).aspectRatio = _
      rw [d5, c5, b5, a5]
    · show (ImageCombiner.clampBottom c _).image = _
      rw [d6, c6, b6, a6]
    · show (ImageCombiner.clampBottom c _).id = _
      rw [d7, c7, b7, a7]

theorem resizeAccepted_iff (t : ℚ × ℚ × ℚ × ℚ) :
    ImageCombiner.resizeAccepted t = true ↔ 50 ≤ t.2.2.1 ∧ 50 ≤ t.2.2.2 := by
  simp [ImageCombiner.resizeAccepted]

/-- What an accepted step leaves: the computed width and height, whatever the
viewport clamp does to the position. -/
theorem resizeElement_accepted (c : ImageCombiner) (init image : ResizableImage)
    (handleType : HandleType) (dx dy : ℚ)
    (hmw : image.minWidth = 50) (hmh : image.minHeight = 50)
    (hacc : ImageCombiner.resizeAccepted
      (ImageCombiner.resizeTarget init image handleType dx dy) = true) :
    (ImageCombiner.resizeElement c init image handleType dx dy).width
        = (ImageCombiner.resizeTarget init image handleType dx dy).2.2.1
      ∧ (ImageCombiner.resizeElement c init image handleType dx dy).height
        = (ImageCombiner.resizeTarget init image handleType dx dy).2.2.2
      ∧ (ImageCombiner.resizeElement c init image handleType dx dy).minWidth = image.minWidth
      ∧ (ImageCombiner.resizeElement c init image handleType dx dy).minHeight = image.minHeight
      ∧ (ImageCombiner.resizeElement c init image handleType dx dy).aspectRatio
        = image.aspectRatio := by
  have hb := (resizeAccepted_iff _).mp hacc
  unfold ImageCombiner.resizeElement
  simp only [hacc, if_true]
  split_ifs
  · obtain ⟨h1, h2, h3, h4, h5, -, -⟩ := constrainImageToCanvas_size c
      { image with x := (ImageCombiner.resizeTarget init image handleType dx dy).1,
                   y := (ImageCombiner.resizeTarget init image handleType dx dy).2.1,
                   width := (ImageCombiner.resizeTarget init image handleType dx dy).2.2.1,
                   height := (ImageCombiner.resizeTarget init image handleType dx dy).2.2.2 }
      (by simpa [hmw] using hb.1) (by simpa [hmh] using hb.2)
    exact ⟨h1, h2, h3, h4, h5⟩
  · exact ⟨rfl, rfl, rfl, rfl, rfl⟩

theorem resizeElement_rejected (c : ImageCombiner) (init image : ResizableImage)
    (handleType : HandleType) (dx dy : ℚ)
    (hrej : ImageCombiner.resizeAccepted
      (ImageCombiner.resizeTarget init image handleType dx dy) = false) :
    ImageCombiner.resizeElement c init image handleType dx dy = image := by
  unfold ImageCombiner.resizeElement
  simp [hrej]

theorem resizeElement_sized (c : ImageCombiner) (init image : ResizableImage)
    (handleType : HandleType) (dx dy : ℚ) (h : Sized image) :
    Sized (ImageCombiner.resizeElement c init image handleType dx dy) := by
  obtain ⟨hmw, hmh, hw, hh⟩ := h
  cases hacc : ImageCombiner.resizeAccepted
      (ImageCombiner.resizeTarget init image handleType dx dy) with
  | false =>
    rw [resizeElement_rejected c init image handleType dx dy hacc]
    exact ⟨hmw, hmh, hw, hh⟩
  | true =>
    obtain ⟨e1, e2, e3, e4, -⟩ :=
      resizeElement_accepted c init image handleType dx dy hmw hmh hacc
    have hb := (resizeAccepted_iff _).mp hacc
    refine ⟨e3.trans hmw, e4.trans hmh, ?_, ?_⟩
    · rw [e1, e3, hmw]; exact hb.1
    · rw [e2, e4, hmh]; exact hb.2

theorem resizeStep_sized (c : ImageCombiner) (call : ImageCombiner.ResizeCall)
    (h : ∀ r ∈ c.images, Sized r) :
    ∀ r ∈ (ImageCombiner.resizeStep c call).images, Sized r := by
  unfold ImageCombiner.resizeStep ImageCombiner.stateAfter ImageCombiner.resizeWithHandle
  simp only
  cases hget : c.images.get? call.handleInfo.image with
  | none => simpa using h
  | some image =>
    simp only [Option.getD_some]
    intro r hr
    rcases List.mem_or_eq_of_mem_set hr with hmem | heq
    · exact h r hmem
    · rw [heq]
      exact resizeElement_sized _ _ _ _ _ _ (h image (List.get?_mem hget))

theorem runResizes_sized (calls : List ImageCombiner.ResizeCall) (c : ImageCombiner)
    (h : ∀ r ∈ c.images, Sized r) :
    ∀ r ∈ (ImageCombiner.runResizes c calls).images, Sized r := by
  induction calls generalizing c with
  | nil => exact h
  | cons call rest ih =>
    simp only [ImageCombiner.runResizes, List.foldl_cons] at ih ⊢
    exact ih _ (resizeStep_sized c call h)

theorem set_eq_self_of_get? {α : Type} :
    ∀ (l : List α) (i : Nat) (a : α), l.get? i = some a → l.set i a = l
  | [], _, _, h => by simp at h
  | b :: l, 0, a, h => by
    simp only [List.get?_cons_zero, Option.some.injEq] at h
    simp [h]
  | b :: l, i + 1, a, h => by
    simp only [List.get?_cons_succ] at h
    simp only [List.set_cons_succ, set_eq_self_of_get? l i a h]

theorem get?_set_of_get? {α : Type} :
    ∀ (l : List α) (i : Nat) (a b : α), l.get? i = some a → (l.set i b).get? i = some b
  | [], _, _, _, h => by simp at h
  | _ :: _, 0, _, _, _ => by simp
  | _ :: l, i + 1, a, b, h => by
    simp only [List.get?_cons_succ] at h
    simpa using get?_set_of_get? l i a b h

/-- The result of `resizeWithHandle` when a snapshot is recorded and the element
reference is in the list: the element is replaced by `resizeElement` of it. -/
theorem resizeWithHandle_eq (c : ImageCombiner) (init image : ResizableImage)
    (handleInfo : HandleInfo) (dx dy : ℚ)
    (hinit : c.initialImageState = some init)
    (himg : c.images.get? handleInfo.image = some image) :
    ImageCombiner.resizeWithHandle c handleInfo dx dy
        = some
          { c with
            images :=
              c.images.set handleInfo.image
                (ImageCombiner.resizeElement c init image handleInfo.type dx dy) }
      ∧ (c.images.set handleInfo.image
            (ImageCombiner.resizeElement c init image handleInfo.type dx dy)).get?
          handleInfo.image
        = some (ImageCombiner.resizeElement c init image handleInfo.type dx dy) := by
  refine ⟨?_, get?_set_of_get? _ _ _ _ himg⟩
  unfold ImageCombiner.resizeWithHandle
  rw [hinit]
  simp only
  rw [himg]

/-- For a corner handle of an element with a bound image and a positive aspect
ratio, an accepted target has `newWidth / newHeight = aspectRatio`. -/
theorem resizeTarget_corner_ratio (init image : ResizableImage) (handleType : HandleType)
    (dx dy : ℚ)
    (hcorner : handleType = .nw ∨ handleType = .ne ∨ handleType = .se ∨ handleType = .sw)
    (hbound : image.image.isSome = true) (har : 0 < image.aspectRatio)
    (hacc : ImageCombiner.resizeAccepted
      (ImageCombiner.resizeTarget init image handleType dx dy) = true) :
    (ImageCombiner.resizeTarget init image handleType dx dy).2.2.1
        / (ImageCombiner.resizeTarget init image handleType dx dy).2.2.2
      = image.aspectRatio := by
  have hb := (resizeAccepted_iff _).mp hacc
  have har' : image.aspectRatio ≠ 0 := ne_of_gt har
  rcases hcorner with h | h | h | h <;> subst h <;>
    simp only [ImageCombiner.resizeTarget, hbound, true_or, or_true, and_self, if_true,
      reduceCtorEq, or_self, if_false, or_false, false_or] at hb ⊢
  · have hw : init.width - dx ≠ 0 := by linarith [hb.1]
    field_simp
  · have hh : init.height - dy ≠ 0 := by linarith [hb.2]
    field_simp
  · have hw : init.width + dx ≠ 0 := by linarith [hb.1]
    field_simp
  · have hh : init.height + dy ≠ 0 := by linarith [hb.2]
    field_simp

theorem examples_resizing_sized : ∀ r ∈ Examples.resizing.images, Sized r := by
  intro r hr
  simp only [Examples.resizing, Examples.constructed, List.mem_cons, List.mem_singleton,
    List.not_mem_nil, or_false] at hr
  rcases hr with rfl | rfl <;>
    norm_num [Sized, Examples.boundLeft, Examples.rightImage, ResizableImage.new]

/-- C2. The size invariant survives element resizing. From a scene in which every
element has `minWidth = minHeight = 50`, `width >= minWidth` and
`height >= minHeight`, after every prefix of every sequence of `resizeWithHandle`
calls (any handle, any delta, any drag-start snapshot, any target element, image
bound or not, viewport resize flag set or not) every element still has
`width >= minWidth` and `height >= minHeight`. -/
theorem resizeWithHandle_keeps_min_size (c : ImageCombiner)
    (calls : List ImageCombiner.ResizeCall) (h : ∀ r ∈ c.images, Sized r) :
    ∀ k : Nat, ∀ r ∈ (ImageCombiner.runResizes c (calls.take k)).images,
      r.minWidth ≤ r.width ∧ r.minHeight ≤ r.height ∧ Sized r := by
  intro k r hr
  have hs := runResizes_sized (calls.take k) c h r hr
  exact ⟨hs.2.2.1, hs.2.2.2, hs⟩

/-- Witness of C2 on the scene `Examples.resizing` with two resize requests. -/
theorem resizeWithHandle_keeps_min_size_witness :
    (∀ r ∈ Examples.resizing.images, Sized r)
      ∧ ∀ k : Nat, ∀ r ∈ (ImageCombiner.runResizes Examples.resizing
          (Examples.resizeCalls.take k)).images,
        r.minWidth ≤ r.width ∧ r.minHeight ≤ r.height ∧ Sized r :=
  ⟨examples_resizing_sized,
    resizeWithHandle_keeps_min_size Examples.resizing Examples.resizeCalls
      examples_resizing_sized⟩

/-- C3. A corner-handle resize keeps the aspect ratio of an element with a bound
image. With a drag-start snapshot recorded, for a corner handle (nw, ne, se, sw)
of an element with a bound image, `aspectRatio > 0` and minimums 50,
`resizeWithHandle` returns, and the element it leaves has the same `aspectRatio`;
after an accepted step `width / height = aspectRatio` (the viewport clamp that
follows included), after a rejected step width and height are as before, so
`width / height = aspectRatio` holding before the step holds after it. -/
theorem resizeWithHandle_corner_keeps_aspect (c : ImageCombiner)
    (init image : ResizableImage) (handleInfo : HandleInfo) (dx dy : ℚ)
    (hinit : c.initialImageState = some init)
    (himg : c.images.get? handleInfo.image = some image)
    (hcorner : handleInfo.type = .nw ∨ handleInfo.type = .ne ∨ handleInfo.type = .se
      ∨ handleInfo.type = .sw)
    (hbound : image.image.isSome = true) (har : 0 < image.aspectRatio)
    (hmw : image.minWidth = 50) (hmh : image.minHeight = 50) :
    ∃ (c' : ImageCombiner) (r : ResizableImage),
      ImageCombiner.resizeWithHandle c handleInfo dx dy = some c'
        ∧ c'.images.get? handleInfo.image = some r
        ∧ r.aspectRatio = image.aspectRatio
        ∧ (ImageCombiner.resizeAccepted
              (ImageCombiner.resizeTarget init image handleInfo.type dx dy) = true →
            r.width / r.height = image.aspectRatio)
        ∧ (ImageCombiner.resizeAccepted
              (ImageCombiner.resizeTarget init image handleInfo.type dx dy) = false →
            r.width = image.width ∧ r.height = image.height)
        ∧ (image.width / image.height = image.aspectRatio →
            r.width / r.height = image.aspectRatio) := by
  obtain ⟨heq, hget⟩ := resizeWithHandle_eq c init image handleInfo dx dy hinit himg
  have hyes : ImageCombiner.resizeAccepted
        (ImageCombiner.resizeTarget init image handleInfo.type dx dy) = true →
      (ImageCombiner.resizeElement c init image handleInfo.type dx dy).width
          / (ImageCombiner.resizeElement c init image handleInfo.type dx dy).height
        = image.aspectRatio := by
    intro hacc
    obtain ⟨e1, e2, -, -, -⟩ :=
      resizeElement_accepted c init image handleInfo.type dx dy hmw hmh hacc
    rw [e1, e2]
    exact resizeTarget_corner_ratio init image handleInfo.type dx dy hcorner hbound har hacc
  have hno : ImageCombiner.resizeAccepted
        (ImageCombiner.resizeTarget init image handleInfo.type dx dy) = false →
      ImageCombiner.resizeElement c init image handleInfo.type dx dy = image :=
    resizeElement_rejected c init image handleInfo.type dx dy
  refine ⟨_, _, heq, hget, ?_, hyes, ?_, ?_⟩
  · cases hacc : ImageCombiner.resizeAccepted
        (ImageCombiner.resizeTarget init image handleInfo.type dx dy) with
    | false => rw [hno hacc]
    | true => exact (resizeElement_accepted c init image handleInfo.type dx dy hmw hmh hacc).2.2.2.2
  · intro hacc
    rw [hno hacc]
    exact ⟨rfl, rfl⟩
  · intro hbefore
    cases hacc : ImageCombiner.resizeAccepted
        (ImageCombiner.resizeTarget init image handleInfo.type dx dy) with
    | false => rw [hno hacc]; exact hbefore
    | true => exact hyes hacc

/-- Witness of C3: the south-east handle of `Examples.boundLeft` dragged by
`(-100, 0)`. -/
theorem resizeWithHandle_corner_keeps_aspect_witness :
    ∃ (c' : ImageCombiner) (r : ResizableImage),
      ImageCombiner.resizeWithHandle Examples.resizing Examples.seInfo (-100) 0 = some c'
        ∧ c'.images.get? Examples.seInfo.image = some r
        ∧ r.aspectRatio = Examples.boundLeft.aspectRatio
        ∧ (ImageCombiner.resizeAccepted
              (ImageCombiner.resizeTarget Examples.boundLeft Examples.boundLeft
                Examples.seInfo.type (-100) 0) = true →
            r.width / r.height = Examples.boundLeft.aspectRatio)
        ∧ (ImageCombiner.resizeAccepted
              (ImageCombiner.resizeTarget Examples.boundLeft Examples.boundLeft
                Examples.seInfo.type (-100) 0) = false →
            r.width = Examples.boundLeft.width ∧ r.height = Examples.boundLeft.height)
        ∧ (Examples.boundLeft.width / Examples.boundLeft.height
              = Examples.boundLeft.aspectRatio →
            r.width / r.height = Examples.boundLeft.aspectRatio) :=
  resizeWithHandle_corner_keeps_aspect Examples.resizing Examples.boundLeft Examples.boundLeft
    Examples.seInfo (-100) 0 rfl rfl (Or.inr (Or.inr (Or.inl rfl))) rfl
    (by norm_num [Examples.boundLeft]) rfl rfl

/-- C4. An edge-handle resize changes exactly one axis, with or without a bound
image. With a drag-start snapshot `init` recorded and minimums 50, an accepted
`resizeWithHandle` step returns and leaves the element with: for handle e, width
`init.width + dx` and height `init.height`; for w, width `init.width - dx` and
height `init.height`; for n, height `init.height - dy` and width `init.width`;
for s, height `init.height + dy` and width `init.width`. -/
theorem resizeWithHandle_edge_one_axis (c : ImageCombiner)
    (init image : ResizableImage) (handleInfo : HandleInfo) (dx dy : ℚ)
    (hinit : c.initialImageState = some init)
    (himg : c.images.get? handleInfo.image = some image)
    (hmw : image.minWidth = 50) (hmh : image.minHeight = 50)
    (hacc : ImageCombiner.resizeAccepted
      (ImageCombiner.resizeTarget init image handleInfo.type dx dy) = true) :
    ∃ (c' : ImageCombiner) (r : ResizableImage),
      ImageCombiner.resizeWithHandle c handleInfo dx dy = some c'
        ∧ c'.images.get? handleInfo.image = some r
        ∧ (handleInfo.type = .e → r.width = init.width + dx ∧ r.height = init.height)
        ∧ (handleInfo.type = .w → r.width = init.width - dx ∧ r.height = init.height)
        ∧ (handleInfo.type = .n → r.height = init.height - dy ∧ r.width = init.width)
        ∧ (handleInfo.type = .s → r.height = init.height + dy ∧ r.width = init.width) := by
  obtain ⟨heq, hget⟩ := resizeWithHandle_eq c init image handleInfo dx dy hinit himg
  obtain ⟨e1, e2, -, -, -⟩ :=
    resizeElement_accepted c init image handleInfo.type dx dy hmw hmh hacc
  refine ⟨_, _, heq, hget, ?_, ?_, ?_, ?_⟩ <;> intro ht <;> rw [e1, e2] <;> rw [ht] <;>
    simp [ImageCombiner.resizeTarget]

/-- Witness of C4: the east handle of `Examples.boundLeft` dragged by `(-100, 30)`. -/
theorem resizeWithHandle_edge_one_axis_witness :
    ImageCombiner.resizeAccepted
        (ImageCombiner.resizeTarget Examples.boundLeft Examples.boundLeft
          Examples.eInfo.type (-100) 30) = true
      ∧ ∃ (c' : ImageCombiner) (r : ResizableImage),
        ImageCombiner.resizeWithHandle Examples.resizing Examples.eInfo (-100) 30 = some c'
          ∧ c'.images.get? Examples.eInfo.image = some r
          ∧ (Examples.eInfo.type = .e →
              r.width = Examples.boundLeft.width + (-100)
                ∧ r.height = Examples.boundLeft.height)
          ∧ (Examples.eInfo.type = .w →
              r.width = Examples.boundLeft.width - (-100)
                ∧ r.height = Examples.boundLeft.height)
          ∧ (Examples.eInfo.type = .n →
              r.height = Examples.boundLeft.height - 30
                ∧ r.width = Examples.boundLeft.width)
          ∧ (Examples.eInfo.type = .s →
              r.height = Examples.boundLeft.height + 30
                ∧ r.width = Examples.boundLeft.width) :=
  have hacc : ImageCombiner.resizeAccepted
      (ImageCombiner.resizeTarget Examples.boundLeft Examples.boundLeft
        Examples.eInfo.type (-100) 30) = true := by
    simp only [ImageCombiner.resizeAccepted, ImageCombiner.resizeTarget, Examples.eInfo,
      Examples.boundLeft, ResizableImage.new, reduceCtorEq, or_self, false_and, if_false]
    norm_num
  ⟨hacc,
    resizeWithHandle_edge_one_axis Examples.resizing Examples.boundLeft Examples.boundLeft
      Examples.eInfo (-100) 30 rfl rfl rfl rfl hacc⟩

/-- C10. A resize below the minimum size is a no-op. With a drag-start snapshot
`init` recorded, for every handle and delta for which the computed new width or
new height is below 50, `resizeWithHandle` returns the state it was given: the
element's rectangle and handle hotspots, every other element, the viewport and
the interaction state are exactly as before. -/
theorem resizeWithHandle_below_min_noop (c : ImageCombiner) (init : ResizableImage)
    (handleInfo : HandleInfo) (dx dy : ℚ)
    (hinit : c.initialImageState = some init)
    (hsmall : ∀ image, c.images.get? handleInfo.image = some image →
      (ImageCombiner.resizeTarget init image handleInfo.type dx dy).2.2.1 < 50
        ∨ (ImageCombiner.resizeTarget init image handleInfo.type dx dy).2.2.2 < 50) :
    ImageCombiner.resizeWithHandle c handleInfo dx dy = some c := by
  cases himg : c.images.get? handleInfo.image with
  | none =>
    unfold ImageCombiner.resizeWithHandle
    rw [hinit]
    simp only
    rw [himg]
  | some image =>
    obtain ⟨heq, -⟩ := resizeWithHandle_eq c init image handleInfo dx dy hinit himg
    have hrej : ImageCombiner.resizeAccepted
        (ImageCombiner.resizeTarget init image handleInfo.type dx dy) = false := by
      cases hacc : ImageCombiner.resizeAccepted
          (ImageCombiner.resizeTarget init image handleInfo.type dx dy) with
      | false => rfl
      | true =>
        have hb := (resizeAccepted_iff _).mp hacc
        rcases hsmall image himg with h | h
        · exact absurd hb.1 (not_le.mpr h)
        · exact absurd hb.2 (not_le.mpr h)
    rw [heq, resizeElement_rejected c init image handleInfo.type dx dy hrej,
      set_eq_self_of_get? _ _ _ himg]

/-- Witness of C10: the east handle of `Examples.boundLeft` dragged by
`(-700, 0)`, which would leave a width of 15. -/
theorem resizeWithHandle_below_min_noop_witness :
    ImageCombiner.resizeWithHandle Examples.resizing Examples.eInfo (-700) 0
      = some Examples.resizing :=
  resizeWithHandle_below_min_noop Examples.resizing Examples.boundLeft Examples.eInfo (-700) 0
    rfl
    (by
      intro image himg
      left
      simp only [ImageCombiner.resizeTarget, Examples.eInfo, Examples.boundLeft,
        ResizableImage.new, reduceCtorEq, or_self, false_and, if_false]
      norm_num)

/-! ### Element removal -/

theorem findIndex_eq_none {α : Type} (p : α → Bool) :
    ∀ l : List α, (∀ a ∈ l, p a = false) → ImageCombiner.findIndex p l = none
  | [], _ => rfl
  | a :: l, h => by
    have ha : p a = false := h a (List.mem_cons_self a l)
    have hl : ∀ b ∈ l, p b = false := fun b hb => h b (List.mem_cons_of_mem a hb)
    simp [ImageCombiner.findIndex, ha, findIndex_eq_none p l hl]

theorem findIndex_append_first {α : Type} (p : α → Bool) (x : α) (post : List α)
    (hx : p x = true) :
    ∀ pre : List α, (∀ a ∈ pre, p a = false) →
      ImageCombiner.findIndex p (pre ++ x :: post) = some pre.length
  | [], _ => by simp [ImageCombiner.findIndex, hx]
  | a :: pre, h => by
    have ha : p a = false := h a (List.mem_cons_self a pre)
    have hl : ∀ b ∈ pre, p b = false := fun b hb => h b (List.mem_cons_of_mem a hb)
    simp [ImageCombiner.findIndex, ha, findIndex_append_first p x post hx pre hl]

theorem eraseIdx_append_first {α : Type} (x : α) (post : List α) :
    ∀ pre : List α, (pre ++ x :: post).eraseIdx pre.length = pre ++ post
  | [] => rfl
  | a :: pre => by simp [List.eraseIdx, eraseIdx_append_first x post pre]

theorem findIndex_lt_length {α : Type} (p : α → Bool) :
    ∀ (l : List α) (i : Nat), ImageCombiner.findIndex p l = some i → i < l.length
  | [], _, h => by simp [ImageCombiner.findIndex] at h
  | a :: l, i, h => by
    simp only [ImageCombiner.findIndex] at h
    split_ifs at h with hp
    · simp only [Option.some.injEq] at h
      subst h
      simp
    · simp only [Option.map_eq_some'] at h
      obtain ⟨j, hj, rfl⟩ := h
      have := findIndex_lt_length p l j hj
      simp only [List.length_cons]
      omega

/-- C5. The element count never drops below 1. For every state and id:
`removeImage` on a scene of exactly one element returns the state unchanged (also
when the id matches); with an id that no element has it returns the state
unchanged; on a scene of more than one element whose first element with that id
is `x`, after `pre` and before `post`, it leaves exactly `pre ++ post` and
changes nothing else; and a scene with at least one element keeps at least one. -/
theorem removeImage_keeps_one (c : ImageCombiner) (imageId : String) :
    (c.images.length = 1 → ImageCombiner.removeImage c imageId = c)
      ∧ ((∀ img ∈ c.images, img.id ≠ imageId) → ImageCombiner.removeImage c imageId = c)
      ∧ (∀ (pre : List ResizableImage) (x : ResizableImage) (post : List ResizableImage),
          1 < c.images.length → c.images = pre ++ x :: post → x.id = imageId →
          (∀ y ∈ pre, y.id ≠ imageId) →
          ImageCombiner.removeImage c imageId = { c with images := pre ++ post })
      ∧ (1 ≤ c.images.length → 1 ≤ (ImageCombiner.removeImage c imageId).images.length) := by
  refine ⟨?_, ?_, ?_, ?_⟩
  · intro hlen
    unfold ImageCombiner.removeImage
    cases ImageCombiner.findIndex (fun img => img.id == imageId) c.images with
    | none => rfl
    | some index => simp [hlen]
  · intro hno
    unfold ImageCombiner.removeImage
    rw [findIndex_eq_none _ _ (fun a ha => by simpa using hno a ha)]
  · intro pre x post hlen hsplit hx hpre
    unfold ImageCombiner.removeImage
    have hfind : ImageCombiner.findIndex (fun img => img.id == imageId) c.images
        = some pre.length := by
      rw [hsplit]
      exact findIndex_append_first _ x post (by simpa using hx) pre
        (fun a ha => by simpa using hpre a ha)
    rw [hfind]
    simp only [gt_iff_lt, hlen, if_true]
    rw [hsplit, eraseIdx_append_first]
  · intro hlen
    unfold ImageCombiner.removeImage
    cases hfind : ImageCombiner.findIndex (fun img => img.id == imageId) c.images with
    | none => exact hlen
    | some index =>
      simp only
      split_ifs with hgt
      · have hlt := findIndex_lt_length _ _ _ hfind
        simp only [List.length_eraseIdx, hlt, if_true]
        omega
      · exact hlen

/-- Witness of C5 on the constructed two-element scene: removing `pirads` leaves
the left element, and removing it in turn is rejected. -/
theorem removeImage_keeps_one_witness :
    ImageCombiner.removeImage Examples.constructed "pirads"
        = { Examples.constructed with images := [Examples.leftImage] }
      ∧ ImageCombiner.removeImage
          { Examples.constructed with images := [Examples.leftImage] } "screenshot-1"
        = { Examples.constructed with images := [Examples.leftImage] } :=
  ⟨(removeImage_keeps_one Examples.constructed "pirads").2.2.1
      [Examples.leftImage] Examples.rightImage [] (by decide) rfl rfl
      (by
        intro y hy
        simp only [List.mem_singleton] at hy
        subst hy
        decide),
    (removeImage_keeps_one { Examples.constructed with images := [Examples.leftImage] }
      "screenshot-1").1 rfl⟩

/-! ### Eraser -/

theorem keepPath_foldl (x y radius : ℚ) :
    ∀ (points : List Point) (keep : Bool),
      points.foldl
          (fun keep point =>
            if PIRADSPainter.distanceLt point x y radius then false else keep) keep
        = (keep && points.all fun pt => !PIRADSPainter.distanceLt pt x y radius)
  | [], keep => by simp
  | pt :: points, keep => by
    simp only [List.foldl_cons, List.all_cons]
    rw [keepPath_foldl x y radius points]
    cases PIRADSPainter.distanceLt pt x y radius <;> simp

theorem keepPath_eq (path : Path) (x y radius : ℚ) :
    PIRADSPainter.keepPath path x y radius
      = path.points.all fun pt => !PIRADSPainter.distanceLt pt x y radius := by
  unfold PIRADSPainter.keepPath
  rw [keepPath_foldl]
  simp

theorem scanPaths_foldl (x y radius : ℚ) :
    ∀ (paths : List Path) (acc : List Path × Bool),
      paths.foldl
          (fun acc path =>
            let keep := PIRADSPainter.keepPath path x y radius
            (if keep then acc.1 ++ [path] else acc.1, acc.2 || !keep)) acc
        = (acc.1 ++ paths.filter (fun path => PIRADSPainter.keepPath path x y radius),
           acc.2 || paths.any (fun path => !PIRADSPainter.keepPath path x y radius))
  | [], acc => by simp
  | path :: paths, acc => by
    simp only [List.foldl_cons]
    rw [scanPaths_foldl x y radius paths]
    cases hk : PIRADSPainter.keepPath path x y radius <;>
      simp [hk, List.filter_cons, Bool.or_assoc]

theorem removePathsAtPoint_eq_filter (paths : List Path) (x y radius : ℚ) :
    PIRADSPainter.removePathsAtPoint paths x y radius
      = paths.filter (fun path => PIRADSPainter.keepPath path x y radius) := by
  unfold PIRADSPainter.removePathsAtPoint PIRADSPainter.scanPaths
  rw [scanPaths_foldl]
  simp only [List.nil_append, Bool.false_or]
  split_ifs with hany
  · rfl
  · symm
    rw [List.filter_eq_self]
    intro a ha
    by_contra hk
    apply hany
    rw [List.any_eq_true]
    exact ⟨a, ha, by simpa using hk⟩

/-- The test `distanceLt` is the source's `Math.sqrt(...) < radius` over the
reals. -/
theorem distanceLt_iff_sqrt (point : Point) (x y radius : ℚ) :
    PIRADSPainter.distanceLt point x y radius = true
      ↔ Real.sqrt (((point.x : ℝ) - x) ^ 2 + ((point.y : ℝ) - y) ^ 2) < (radius : ℝ) := by
  unfold PIRADSPainter.distanceLt
  simp only [decide_eq_true_eq]
  constructor
  · rintro ⟨hr, hlt⟩
    have hr' : (0 : ℝ) < radius := by exact_mod_cast hr
    rw [Real.sqrt_lt' hr']
    exact_mod_cast hlt
  · intro h
    have hr' : (0 : ℝ) < radius := lt_of_le_of_lt (Real.sqrt_nonneg _) h
    refine ⟨by exact_mod_cast hr', ?_⟩
    rw [Real.sqrt_lt' hr'] at h
    exact_mod_cast h

/-- C6. The eraser removes whole strokes within the radius and nothing else,
"within distance R" being the source's test `distance < radius` (a point at
distance exactly R does not count). For every list of committed strokes, point
`(x, y)` and radius, `removePathsAtPoint` leaves the strokes none of whose points
passes that test, unchanged and in their original order, and drops every other
stroke; the test is the Euclidean one, `sqrt ((px - x)^2 + (py - y)^2) < radius`.
The stroke with points `(10, 10)` and `(50, 50)` is removed by the eraser at
`(12, 12)` with radius 10 and retained by the eraser at `(200, 200)` with
radius 10. -/
theorem removePathsAtPoint_removes_whole_strokes (paths : List Path) (x y radius : ℚ) :
    PIRADSPainter.removePathsAtPoint paths x y radius
        = paths.filter
            (fun path => path.points.all fun pt => !PIRADSPainter.distanceLt pt x y radius)
      ∧ (∀ pt : Point, PIRADSPainter.distanceLt pt x y radius = true
          ↔ Real.sqrt (((pt.x : ℝ) - x) ^ 2 + ((pt.y : ℝ) - y) ^ 2) < (radius : ℝ))
      ∧ (∀ path : Path, path ∈ PIRADSPainter.removePathsAtPoint paths x y radius
          ↔ path ∈ paths ∧ ∀ pt ∈ path.points,
              ¬ Real.sqrt (((pt.x : ℝ) - x) ^ 2 + ((pt.y : ℝ) - y) ^ 2) < (radius : ℝ))
      ∧ PIRADSPainter.removePathsAtPoint [Examples.stroke] 12 12 10 = []
      ∧ PIRADSPainter.removePathsAtPoint [Examples.stroke] 200 200 10 = [Examples.stroke] := by
  have hfilter : PIRADSPainter.removePathsAtPoint paths x y radius
      = paths.filter
          (fun path => path.points.all fun pt => !PIRADSPainter.distanceLt pt x y radius) := by
    rw [removePathsAtPoint_eq_filter]
    congr 1
    funext path
    exact keepPath_eq path x y radius
  refine ⟨hfilter, fun pt => distanceLt_iff_sqrt pt x y radius, ?_, ?_, ?_⟩
  · intro path
    rw [hfilter, List.mem_filter, List.all_eq_true]
    constructor
    · rintro ⟨hmem, hall⟩
      refine ⟨hmem, fun pt hpt hlt => ?_⟩
      have := hall pt hpt
      rw [(distanceLt_iff_sqrt pt x y radius).mpr hlt] at this
      simp at this
    · rintro ⟨hmem, hall⟩
      refine ⟨hmem, fun pt hpt => ?_⟩
      cases hd : PIRADSPainter.distanceLt pt x y radius with
      | false => rfl
      | true => exact absurd ((distanceLt_iff_sqrt pt x y radius).mp hd) (hall pt hpt)
  · rw [removePathsAtPoint_eq_filter]
    simp only [keepPath_eq, Examples.stroke, List.filter_cons, List.all_cons, List.all_nil,
      PIRADSPainter.distanceLt, List.filter_nil]
    norm_num
  · rw [removePathsAtPoint_eq_filter]
    simp only [keepPath_eq, Examples.stroke, List.filter_cons, List.all_cons, List.all_nil,
      PIRADSPainter.distanceLt, List.filter_nil]
    norm_num

/-! ### Image binding -/

theorem setImage_preSized_eq (r : ResizableImage) (img : Img)
    (hstarts : ResizableImage.startsWith r.id "screenshot-" = true)
    (hnotFirst : r.id ≠ "screenshot-1")
    (hw : |r.width - img.width| < 10) (hh : |r.height - img.height| < 10) :
    r.setImage img
      = ResizableImage.updateHandles
          { r with image := some img, naturalWidth := img.naturalWidth,
                   naturalHeight := img.naturalHeight,
                   aspectRatio := img.naturalWidth / img.naturalHeight } := by
  unfold ResizableImage.setImage ResizableImage.fitToCurrentBounds
  simp [ResizableImage.isPreSized, hstarts, hnotFirst, hw, hh]

theorem extraShot_preSized :
    ResizableImage.startsWith Examples.extraShot.id "screenshot-" = true
      ∧ Examples.extraShot.id ≠ "screenshot-1"
      ∧ |Examples.extraShot.width - Examples.img600x400.width| < 10
      ∧ |Examples.extraShot.height - Examples.img600x400.height| < 10 :=
  ⟨by decide, by decide,
    by norm_num [Examples.extraShot, Examples.img600x400, ResizableImage.new],
    by norm_num [Examples.extraShot, Examples.img600x400, ResizableImage.new]⟩

/-- C7. Binding an image to a pre-sized element leaves its rectangle untouched.
For an element whose id starts with `screenshot-` and is not `screenshot-1`, and
whose width and height each differ from the image's by less than 10, `setImage`
records the image, `naturalWidth`, `naturalHeight` and `aspectRatio`, refreshes
the handles from the unchanged rectangle and changes nothing else: `x`, `y`,
`width` and `height` are as before. The element `screenshot-2` at
`(0, 0, 600, 400)` with a 600 x 400 image stays at `(0, 0, 600, 400)`. -/
theorem setImage_preSized_keeps_rect (r : ResizableImage) (img : Img)
    (hstarts : ResizableImage.startsWith r.id "screenshot-" = true)
    (hnotFirst : r.id ≠ "screenshot-1")
    (hw : |r.width - img.width| < 10) (hh : |r.height - img.height| < 10) :
    r.setImage img
        = ResizableImage.updateHandles
            { r with image := some img, naturalWidth := img.naturalWidth,
                     naturalHeight := img.naturalHeight,
                     aspectRatio := img.naturalWidth / img.naturalHeight }
      ∧ (r.setImage img).x = r.x ∧ (r.setImage img).y = r.y
      ∧ (r.setImage img).width = r.width ∧ (r.setImage img).height = r.height
      ∧ rectOf (Examples.extraShot.setImage Examples.img600x400) = (0, 0, 600, 400) := by
  have hset := setImage_preSized_eq r img hstarts hnotFirst hw hh
  refine ⟨hset, ?_, ?_, ?_, ?_, ?_⟩
  · rw [hset]; rfl
  · rw [hset]; rfl
  · rw [hset]; rfl
  · rw [hset]; rfl
  · rw [setImage_preSized_eq Examples.extraShot Examples.img600x400 extraShot_preSized.1
      extraShot_preSized.2.1 extraShot_preSized.2.2.1 extraShot_preSized.2.2.2]
    rfl

/-- Witness of C7: `screenshot-2` at `(0, 0, 600, 400)` with a 600 x 400 image. -/
theorem setImage_preSized_keeps_rect_witness :
    (Examples.extraShot.setImage Examples.img600x400).x = Examples.extraShot.x
      ∧ (Examples.extraShot.setImage Examples.img600x400).y = Examples.extraShot.y
      ∧ (Examples.extraShot.setImage Examples.img600x400).width = Examples.extraShot.width
      ∧ (Examples.extraShot.setImage Examples.img600x400).height = Examples.extraShot.height
      ∧ rectOf (Examples.extraShot.setImage Examples.img600x400) = (0, 0, 600, 400) :=
  (setImage_preSized_keeps_rect Examples.extraShot Examples.img600x400 (by decide) (by decide)
    (by norm_num [Examples.extraShot, Examples.img600x400, ResizableImage.new])
    (by norm_num [Examples.extraShot, Examples.img600x400, ResizableImage.new])).2

theorem setImage_fit_eq (r : ResizableImage) (img : Img)
    (hnot : ResizableImage.isPreSized r img = false) :
    r.setImage img
      = if r.width / r.height > img.naturalWidth / img.naturalHeight then
          ResizableImage.updateHandles
            { r with image := some img, naturalWidth := img.naturalWidth,
                     naturalHeight := img.naturalHeight,
                     aspectRatio := img.naturalWidth / img.naturalHeight,
                     x := r.x + (r.width - r.height * (img.naturalWidth / img.naturalHeight)) / 2,
                     y := r.y + (r.height - r.height) / 2,
                     width := r.height * (img.naturalWidth / img.naturalHeight),
                     height := r.height }
        else
          ResizableImage.updateHandles
            { r with image := some img, naturalWidth := img.naturalWidth,
                     naturalHeight := img.naturalHeight,
                     aspectRatio := img.naturalWidth / img.naturalHeight,
                     x := r.x + (r.width - r.width) / 2,
                     y := r.y + (r.height - r.width / (img.naturalWidth / img.naturalHeight)) / 2,
                     width := r.width,
                     height := r.width / (img.naturalWidth / img.naturalHeight) } := by
  have hpre : ResizableImage.isPreSized
      { r with image := some img, naturalWidth := img.naturalWidth,
               naturalHeight := img.naturalHeight,
               aspectRatio := img.naturalWidth / img.naturalHeight } img = false := hnot
  unfold ResizableImage.setImage ResizableImage.fitToCurrentBounds
  simp only [hpre, Bool.false_eq_true, if_false]
  split_ifs <;> rfl

/-- C8. Binding an image to an element that is not pre-sized re-fits it inside
its prior bounds. For every element with positive width and height that fails the
pre-sized test and every image with positive natural width and height, after
`setImage` the element has `width / height = naturalWidth / naturalHeight`, its
rectangle lies inside the prior rectangle, has the same centre, and equals the
prior extent along at least one axis. The element `screenshot-1` at
`(0, 0, 600, 400)` with a 300 x 600 image becomes `(200, 0, 200, 400)`. -/
theorem setImage_refits_inside_bounds (r : ResizableImage) (img : Img)
    (hw : 0 < r.width) (hh : 0 < r.height)
    (hnw : 0 < img.naturalWidth) (hnh : 0 < img.naturalHeight)
    (hnot : ResizableImage.isPreSized r img = false) :
    (r.setImage img).width / (r.setImage img).height = img.naturalWidth / img.naturalHeight
      ∧ (r.x ≤ (r.setImage img).x ∧ r.y ≤ (r.setImage img).y
        ∧ (r.setImage img).x + (r.setImage img).width ≤ r.x + r.width
        ∧ (r.setImage img).y + (r.setImage img).height ≤ r.y + r.height)
      ∧ ((r.setImage img).x + (r.setImage img).width / 2 = r.x + r.width / 2
        ∧ (r.setImage img).y + (r.setImage img).height / 2 = r.y + r.height / 2)
      ∧ ((r.setImage img).width = r.width ∨ (r.setImage img).height = r.height)
      ∧ ((r.setImage img).image = some img
        ∧ (r.setImage img).aspectRatio = img.naturalWidth / img.naturalHeight)
      ∧ rectOf (Examples.firstShot.setImage Examples.img300x600) = (200, 0, 200, 400) := by
  have har : 0 < img.naturalWidth / img.naturalHeight := div_pos hnw hnh
  have hfit := setImage_fit_eq r img hnot
  have hex : rectOf (Examples.firstShot.setImage Examples.img300x600) = (200, 0, 200, 400) := by
    rw [setImage_fit_eq Examples.firstShot Examples.img300x600 (by decide)]
    norm_num [Examples.firstShot, Examples.img300x600, ResizableImage.new, rectOf,
      ResizableImage.updateHandles]
  by_cases hcmp : r.width / r.height > img.naturalWidth / img.naturalHeight
  · rw [if_pos hcmp] at hfit
    have hlt : r.height * (img.naturalWidth / img.naturalHeight) < r.width := by
      have := (lt_div_iff₀ hh).mp hcmp
      linarith
    rw [hfit]
    refine ⟨?_, ⟨?_, ?_, ?_, ?_⟩, ⟨?_, ?_⟩, Or.inr rfl, ⟨rfl, rfl⟩, hex⟩ <;>
      simp only [ResizableImage.updateHandles]
    · have hh' : r.height ≠ 0 := ne_of_gt hh
      have hnh' : img.naturalHeight ≠ 0 := ne_of_gt hnh
      field_simp
      ring
    · linarith
    · linarith
    · linarith
    · linarith
    · ring
    · ring
  · rw [if_neg hcmp] at hfit
    have hle : r.width / (img.naturalWidth / img.naturalHeight) ≤ r.height := by
      have h1 : r.width / r.height ≤ img.naturalWidth / img.naturalHeight := not_lt.mp hcmp
      have h2 : r.width ≤ img.naturalWidth / img.naturalHeight * r.height :=
        (div_le_iff₀ hh).mp h1
      rw [div_le_iff₀ har]
      linarith
    have hpos : 0 < r.width / (img.naturalWidth / img.naturalHeight) := div_pos hw har
    rw [hfit]
    refine ⟨?_, ⟨?_, ?_, ?_, ?_⟩, ⟨?_, ?_⟩, Or.inl rfl, ⟨rfl, rfl⟩, hex⟩ <;>
      simp only [ResizableImage.updateHandles]
    · have hw' : r.width ≠ 0 := ne_of_gt hw
      have hnw' : img.naturalWidth ≠ 0 := ne_of_gt hnw
      have hnh' : img.naturalHeight ≠ 0 := ne_of_gt hnh
      field_simp
      ring
    · linarith
    · linarith
    · linarith
    · linarith
    · ring
    · ring

/-- Witness of C8: `screenshot-1` at `(0, 0, 600, 400)` with a 300 x 600 image. -/
theorem setImage_refits_inside_bounds_witness :
    rectOf (Examples.firstShot.setImage Examples.img300x600) = (200, 0, 200, 400) :=
  (setImage_refits_inside_bounds Examples.firstShot Examples.img300x600
    (by norm_num [Examples.firstShot, ResizableImage.new])
    (by norm_num [Examples.firstShot, ResizableImage.new])
    (by norm_num [Examples.img300x600])
    (by norm_num [Examples.img300x600])
    (by decide)).2.2.2.2.2

/-! ### Pointer-down hit testing -/

theorem getCanvasHandleAtPoint_of_hit (c : ImageCombiner) (p : Point)
    (h : inCanvasHotspot c p = true) :
    ∃ handle, ImageCombiner.getCanvasHandleAtPoint c p.x p.y = some handle
      ∧ handle ∈ ImageCombiner.getCanvasResizeHandles c
      ∧ ImageCombiner.canvasHandleHit handle p.x p.y = true := by
  unfold inCanvasHotspot at h
  rw [List.any_eq_true] at h
  have hsome : ((ImageCombiner.getCanvasResizeHandles c).find?
      fun handle => ImageCombiner.canvasHandleHit handle p.x p.y).isSome = true := by
    rw [List.find?_isSome]
    obtain ⟨x, hx, hp⟩ := h
    exact ⟨x, hx, hp⟩
  obtain ⟨handle, hfind⟩ := Option.isSome_iff_exists.mp hsome
  have hhit : ImageCombiner.canvasHandleHit handle p.x p.y = true :=
    @List.find?_some _ (fun handle => ImageCombiner.canvasHandleHit handle p.x p.y) _ _ hfind
  exact ⟨handle, hfind, List.mem_of_find?_eq_some hfind, hhit⟩

theorem getCanvasHandleAtPoint_of_miss (c : ImageCombiner) (p : Point)
    (h : inCanvasHotspot c p = false) :
    ImageCombiner.getCanvasHandleAtPoint c p.x p.y = none := by
  unfold inCanvasHotspot at h
  unfold ImageCombiner.getCanvasHandleAtPoint
  rw [List.find?_eq_none]
  intro x hx hp
  have : ((ImageCombiner.getCanvasResizeHandles c).any fun handle =>
      ImageCombiner.canvasHandleHit handle p.x p.y) = true :=
    List.any_eq_true.mpr ⟨x, hx, hp⟩
  rw [h] at this
  exact Bool.false_ne_true this

theorem getHandleAtPoint_of_hit (p : Point) (r : ResizableImage)
    (h : inElementHotspot p r = true) :
    ∃ entry, r.getHandleAtPoint p.x p.y = some entry
      ∧ entry ∈ ResizableImage.handleEntries r.handles
      ∧ ResizableImage.handleHit entry.2 p.x p.y = true := by
  unfold inElementHotspot at h
  rw [List.any_eq_true] at h
  have hsome : ((ResizableImage.handleEntries r.handles).find?
      fun entry => ResizableImage.handleHit entry.2 p.x p.y).isSome = true := by
    rw [List.find?_isSome]
    obtain ⟨x, hx, hp⟩ := h
    exact ⟨x, hx, hp⟩
  obtain ⟨entry, hfind⟩ := Option.isSome_iff_exists.mp hsome
  have hhit : ResizableImage.handleHit entry.2 p.x p.y = true :=
    @List.find?_some _ (fun entry : HandleType × Handle =>
      ResizableImage.handleHit entry.2 p.x p.y) _ _ hfind
  exact ⟨entry, hfind, List.mem_of_find?_eq_some hfind, hhit⟩

theorem getHandleAtPoint_of_miss (p : Point) (r : ResizableImage)
    (h : inElementHotspot p r = false) :
    r.getHandleAtPoint p.x p.y = none := by
  unfold inElementHotspot at h
  unfold ResizableImage.getHandleAtPoint
  rw [List.find?_eq_none]
  intro x hx hp
  have : ((ResizableImage.handleEntries r.handles).any fun entry =>
      ResizableImage.handleHit entry.2 p.x p.y) = true :=
    List.any_eq_true.mpr ⟨x, hx, hp⟩
  rw [h] at this
  exact Bool.false_ne_true this

theorem firstWith_cons_zero (q : ResizableImage → Bool) (r : ResizableImage)
    (rest : List ResizableImage) (h : q r = true) : FirstWith q (r :: rest) 0 r :=
  ⟨rfl, h, fun j _ hj _ => absurd hj (Nat.not_lt_zero j)⟩

theorem firstWith_cons_succ (q : ResizableImage → Bool) (a r : ResizableImage)
    (rest : List ResizableImage) (i : Nat) (ha : q a = false)
    (h : FirstWith q rest i r) : FirstWith q (a :: rest) (i + 1) r := by
  obtain ⟨hget, hq, hfirst⟩ := h
  refine ⟨by simpa using hget, hq, ?_⟩
  intro j r' hj hget'
  cases j with
  | zero =>
    simp only [List.get?_cons_zero, Option.some.injEq] at hget'
    rw [← hget']
    exact ha
  | succ j =>
    simp only [List.get?_cons_succ] at hget'
    exact hfirst j r' (by omega) hget'

theorem findHandleHit_first (p : Point) :
    ∀ (images : List ResizableImage) (k : Nat),
      (∃ r ∈ images, inElementHotspot p r = true) →
      ∃ (i : Nat) (r : ResizableImage) (entry : HandleType × Handle),
        ImageCombiner.findHandleHit p.x p.y images k = some (k + i, r, entry)
          ∧ FirstWith (inElementHotspot p) images i r
          ∧ r.getHandleAtPoint p.x p.y = some entry
          ∧ entry ∈ ResizableImage.handleEntries r.handles
  | [], _, h => by
    obtain ⟨r, hr, -⟩ := h
    exact absurd hr (List.not_mem_nil r)
  | a :: rest, k, h => by
    cases ha : inElementHotspot p a with
    | true =>
      obtain ⟨entry, hentry, hmem, -⟩ := getHandleAtPoint_of_hit p a ha
      refine ⟨0, a, entry, ?_, firstWith_cons_zero _ a rest ha, hentry, hmem⟩
      simp [ImageCombiner.findHandleHit, hentry]
    | false =>
      have hrest : ∃ r ∈ rest, inElementHotspot p r = true := by
        obtain ⟨r, hr, hq⟩ := h
        rcases List.mem_cons.mp hr with rfl | hr'
        · rw [ha] at hq
          exact absurd hq Bool.false_ne_true
        · exact ⟨r, hr', hq⟩
      obtain ⟨i, r, entry, hfind, hfirst, hentry, hmem⟩ := findHandleHit_first p rest (k + 1) hrest
      refine ⟨i + 1, r, entry, ?_, firstWith_cons_succ _ a r rest i ha hfirst, hentry, hmem⟩
      simp only [ImageCombiner.findHandleHit, getHandleAtPoint_of_miss p a ha, hfind]
      congr 2
      omega

theorem findHandleHit_none (p : Point) :
    ∀ (images : List ResizableImage) (k : Nat),
      (∀ r ∈ images, inElementHotspot p r = false) →
      ImageCombiner.findHandleHit p.x p.y images k = none
  | [], _, _ => rfl
  | a :: rest, k, h => by
    have ha := h a (List.mem_cons_self a rest)
    simp only [ImageCombiner.findHandleHit, getHandleAtPoint_of_miss p a ha]
    exact findHandleHit_none p rest (k + 1) fun r hr => h r (List.mem_cons_of_mem a hr)

theorem findBodyHit_first (p : Point) :
    ∀ (images : List ResizableImage) (k : Nat),
      (∃ r ∈ images, inElementBody p r = true) →
      ∃ (i : Nat) (r : ResizableImage),
        ImageCombiner.findBodyHit p.x p.y images k = some (k + i, r)
          ∧ FirstWith (inElementBody p) images i r
  | [], _, h => by
    obtain ⟨r, hr, -⟩ := h
    exact absurd hr (List.not_mem_nil r)
  | a :: rest, k, h => by
    cases ha : inElementBody p a with
    | true =>
      refine ⟨0, a, ?_, firstWith_cons_zero _ a rest ha⟩
      have ha' : a.containsPoint p.x p.y = true := ha
      simp [ImageCombiner.findBodyHit, ha']
    | false =>
      have hrest : ∃ r ∈ rest, inElementBody p r = true := by
        obtain ⟨r, hr, hq⟩ := h
        rcases List.mem_cons.mp hr with rfl | hr'
        · rw [ha] at hq
          exact absurd hq Bool.false_ne_true
        · exact ⟨r, hr', hq⟩
      obtain ⟨i, r, hfind, hfirst⟩ := findBodyHit_first p rest (k + 1) hrest
      refine ⟨i + 1, r, ?_, firstWith_cons_succ _ a r rest i ha hfirst⟩
      have ha' : a.containsPoint p.x p.y = false := ha
      simp only [ImageCombiner.findBodyHit, ha', Bool.false_eq_true, if_false, hfind]
      congr 2
      omega

theorem findBodyHit_none (p : Point) :
    ∀ (images : List ResizableImage) (k : Nat),
      (∀ r ∈ images, inElementBody p r = false) →
      ImageCombiner.findBodyHit p.x p.y images k = none
  | [], _, _ => rfl
  | a :: rest, k, h => by
    have ha : a.containsPoint p.x p.y = false := h a (List.mem_cons_self a rest)
    simp only [ImageCombiner.findBodyHit, ha, Bool.false_eq_true, if_false]
    exact findBodyHit_none p rest (k + 1) fun r hr => h r (List.mem_cons_of_mem a hr)

/-- C9. Pointer-down hit-test priority, for every state and every left-button
pointer-down at `p`.
1. If `p` lies in a viewport resize hotspot, the state after is the state before
   with that hotspot grabbed, `isResizingCanvas` and `isDragging` set, the drag
   start at `p` and the viewport size recorded, whatever elements lie under `p`;
   the next pointer-move resizes the viewport.
2. Otherwise, if `p` lies in a handle hotspot of some element, the first such
   element in list order, at index `i`, has the handle `getHandleAtPoint`
   returns for it recorded in `selectedHandle` with a snapshot of the element;
   from an idle state the next pointer-move resizes element `i`.
3. Otherwise, if `p` lies in the rectangle of some element, the first such
   element, at index `i`, becomes the only selected element and is recorded in
   `selectedImage` with a snapshot; from an idle state the next pointer-move
   moves element `i`.
4. Otherwise nothing is grabbed, no element is selected and the next
   pointer-move applies no transform. -/
theorem handleMouseDown_priority (c : ImageCombiner) (e : MouseEvent)
    (hbutton : e.button = 0) :
    (inCanvasHotspot c e.pos = true →
        ∃ handle, handle ∈ ImageCombiner.getCanvasResizeHandles c
          ∧ ImageCombiner.canvasHandleHit handle e.pos.x e.pos.y = true
          ∧ ImageCombiner.handleMouseDown c e
            = { c with canvasResizeHandle := some handle, isResizingCanvas := true,
                       isDragging := true, dragStartPos := e.pos,
                       canvasResizeStartState := some c.canvas }
          ∧ ImageCombiner.activeTransform (ImageCombiner.handleMouseDown c e)
            = .viewportResizing handle)
      ∧ (inCanvasHotspot c e.pos = false →
          (∃ r ∈ c.images, inElementHotspot e.pos r = true) →
          ∃ (i : Nat) (r : ResizableImage) (entry : HandleType × Handle),
            FirstWith (inElementHotspot e.pos) c.images i r
              ∧ r.getHandleAtPoint e.pos.x e.pos.y = some entry
              ∧ entry ∈ ResizableImage.handleEntries r.handles
              ∧ ResizableImage.handleHit entry.2 e.pos.x e.pos.y = true
              ∧ ImageCombiner.handleMouseDown c e
                = { c with selectedHandle := some ⟨entry.1, entry.2, i⟩,
                           isDragging := true, dragStartPos := e.pos,
                           initialImageState := some r }
              ∧ (ImageCombiner.isIdle c = true →
                  ImageCombiner.activeTransform (ImageCombiner.handleMouseDown c e)
                    = .elementResizing ⟨entry.1, entry.2, i⟩))
      ∧ (inCanvasHotspot c e.pos = false →
          (∀ r ∈ c.images, inElementHotspot e.pos r = false) →
          (∃ r ∈ c.images, inElementBody e.pos r = true) →
          ∃ (i : Nat) (r : ResizableImage),
            FirstWith (inElementBody e.pos) c.images i r
              ∧ ImageCombiner.handleMouseDown c e
                = { c with selectedImage := some i,
                           images := (ImageCombiner.clearSelection c.images).set i
                                       { r with selected := true },
                           isDragging := true, dragStartPos := e.pos,
                           initialImageState := some { r with selected := true } }
              ∧ (ImageCombiner.isIdle c = true →
                  ImageCombiner.activeTransform (ImageCombiner.handleMouseDown c e)
                    = .elementMoving i))
      ∧ (inCanvasHotspot c e.pos = false →
          (∀ r ∈ c.images, inElementHotspot e.pos r = false) →
          (∀ r ∈ c.images, inElementBody e.pos r = false) →
          ImageCombiner.handleMouseDown c e
              = { c with selectedImage := none, selectedHandle := none,
                         canvasResizeHandle := none, isResizingCanvas := false,
                         images := ImageCombiner.clearSelection c.images }
            ∧ (∀ r ∈ (ImageCombiner.handleMouseDown c e).images, r.selected = false)
            ∧ ImageCombiner.activeTransform (ImageCombiner.handleMouseDown c e)
              = if c.isDragging then .dragOnly else .idle) := by
  have hb : ¬ e.button ≠ 0 := not_not.mpr hbutton
  refine ⟨?_, ?_, ?_, ?_⟩
  · intro hcanvas
    obtain ⟨handle, hfind, hmem, hhit⟩ := getCanvasHandleAtPoint_of_hit c e.pos hcanvas
    refine ⟨handle, hmem, hhit, ?_, ?_⟩
    · simp only [ImageCombiner.handleMouseDown, hb, if_false, hfind]
    · simp only [ImageCombiner.handleMouseDown, hb, if_false, hfind]
      simp [ImageCombiner.activeTransform]
  · intro hcanvas hsome
    have hnone := getCanvasHandleAtPoint_of_miss c e.pos hcanvas
    obtain ⟨i, r, entry, hfind, hfirst, hentry, hmem⟩ := findHandleHit_first e.pos c.images 0 hsome
    rw [Nat.zero_add] at hfind
    have hhit : ResizableImage.handleHit entry.2 e.pos.x e.pos.y = true :=
      @List.find?_some _ (fun entry : HandleType × Handle =>
        ResizableImage.handleHit entry.2 e.pos.x e.pos.y) _ _ hentry
    refine ⟨i, r, entry, hfirst, hentry, hmem, hhit, ?_, ?_⟩
    · simp only [ImageCombiner.handleMouseDown, hb, if_false, hnone, hfind]
    · intro hidle
      simp only [ImageCombiner.handleMouseDown, hb, if_false, hnone, hfind]
      simp only [ImageCombiner.isIdle, Bool.and_eq_true, Bool.not_eq_true',
        Option.isNone_iff_eq_none] at hidle
      obtain ⟨⟨⟨⟨-, h2⟩, -⟩, -⟩, -⟩ := hidle
      simp [ImageCombiner.activeTransform, h2]
  · intro hcanvas hnoHandle hsome
    have hnone := getCanvasHandleAtPoint_of_miss c e.pos hcanvas
    have hnone' := findHandleHit_none e.pos c.images 0 hnoHandle
    obtain ⟨i, r, hfind, hfirst⟩ := findBodyHit_first e.pos c.images 0 hsome
    rw [Nat.zero_add] at hfind
    refine ⟨i, r, hfirst, ?_, ?_⟩
    · simp only [ImageCombiner.handleMouseDown, hb, if_false, hnone, hnone', hfind]
    · intro hidle
      simp only [ImageCombiner.handleMouseDown, hb, if_false, hnone, hnone', hfind]
      simp only [ImageCombiner.isIdle, Bool.and_eq_true, Bool.not_eq_true',
        Option.isNone_iff_eq_none] at hidle
      obtain ⟨⟨⟨⟨-, h2⟩, -⟩, h4⟩, -⟩ := hidle
      simp [ImageCombiner.activeTransform, h2, h4]
  · intro hcanvas hnoHandle hnoBody
    have hnone := getCanvasHandleAtPoint_of_miss c e.pos hcanvas
    have hnone' := findHandleHit_none e.pos c.images 0 hnoHandle
    have hnone'' := findBodyHit_none e.pos c.images 0 hnoBody
    have heq : ImageCombiner.handleMouseDown c e
        = { c with selectedImage := none, selectedHandle := none,
                   canvasResizeHandle := none, isResizingCanvas := false,
                   images := ImageCombiner.clearSelection c.images } := by
      simp only [ImageCombiner.handleMouseDown, hb, if_false, hnone, hnone', hnone'']
    refine ⟨heq, ?_, ?_⟩
    · rw [heq]
      intro r hr
      simp only [ImageCombiner.clearSelection, List.mem_map] at hr
      obtain ⟨a, -, rfl⟩ := hr
      rfl
    · rw [heq]
      cases hd : c.isDragging <;> simp [ImageCombiner.activeTransform, hd]

theorem downAtCorner_overlap :
    inCanvasHotspot Examples.constructed Examples.downAtCorner.pos = true
      ∧ inElementHotspot Examples.downAtCorner.pos Examples.leftImage = true
      ∧ inElementBody Examples.downAtCorner.pos Examples.leftImage = true := by
  refine ⟨?_, ?_, ?_⟩
  · simp only [inCanvasHotspot, ImageCombiner.getCanvasResizeHandles, Examples.constructed,
      Examples.downAtCorner, List.any_cons, ImageCombiner.canvasHandleHit]
    norm_num
  · simp only [inElementHotspot, ResizableImage.handleEntries, Examples.leftImage,
      ResizableImage.new, ResizableImage.createHandlesAt, Examples.downAtCorner,
      List.any_cons, ResizableImage.handleHit]
    norm_num
  · simp only [inElementBody, ResizableImage.containsPoint, Examples.leftImage,
      ResizableImage.new, Examples.downAtCorner]
    norm_num

/-- Witness of C9: on the constructed scene a left-button pointer-down at
`(2, 2)`, which lies in the viewport's north-west hotspot, in the north-west
handle of the left element and in its body, grabs the viewport hotspot. -/
theorem handleMouseDown_priority_witness :
    (inCanvasHotspot Examples.constructed Examples.downAtCorner.pos = true
        ∧ inElementHotspot Examples.downAtCorner.pos Examples.leftImage = true
        ∧ inElementBody Examples.downAtCorner.pos Examples.leftImage = true)
      ∧ ∃ handle, handle ∈ ImageCombiner.getCanvasResizeHandles Examples.constructed
          ∧ ImageCombiner.canvasHandleHit handle Examples.downAtCorner.pos.x
              Examples.downAtCorner.pos.y = true
          ∧ ImageCombiner.handleMouseDown Examples.constructed Examples.downAtCorner
            = { Examples.constructed with
                canvasResizeHandle := some handle, isResizingCanvas := true,
                isDragging := true, dragStartPos := Examples.downAtCorner.pos,
                canvasResizeStartState := some Examples.constructed.canvas }
          ∧ ImageCombiner.activeTransform
              (ImageCombiner.handleMouseDown Examples.constructed Examples.downAtCorner)
            = .viewportResizing handle :=
  ⟨downAtCorner_overlap,
    (handleMouseDown_priority Examples.constructed Examples.downAtCorner rfl).1
      downAtCorner_overlap.1⟩

/-! ### Viewport resize arithmetic -/

theorem max_min_eq_clamp (v lo hi : ℚ) (h : lo ≤ hi) : max lo (min hi v) = clamp v lo hi := by
  unfold clamp
  split_ifs with h1 h2
  · rw [min_eq_right (by linarith), max_eq_left (le_of_lt h1)]
  · rw [min_eq_left (le_of_lt h2), max_eq_right h]
  · rw [min_eq_right (not_lt.mp h2), max_eq_right (not_lt.mp h1)]

theorem clamp_mem (v lo hi : ℚ) (h : lo ≤ hi) : lo ≤ clamp v lo hi ∧ clamp v lo hi ≤ hi := by
  unfold clamp
  split_ifs with h1 h2
  · exact ⟨le_refl lo, h⟩
  · exact ⟨h, le_refl hi⟩
  · exact ⟨not_lt.mp h1, not_lt.mp h2⟩

theorem canvasResizeTarget_eq (start : Canvas) (deltaX deltaY : ℚ) (handleName : HandleType) :
    ImageCombiner.canvasResizeTarget start deltaX deltaY handleName
      = (clamp (start.width + signX handleName * (3 / 10) * deltaX) 50 3000,
         clamp (start.height + signY handleName * (3 / 10) * deltaY) 50 2000) := by
  unfold ImageCombiner.canvasResizeTarget
  simp only
  rw [max_min_eq_clamp _ 50 3000 (by norm_num), max_min_eq_clamp _ 50 2000 (by norm_num)]
  cases handleName <;> simp only [signX, signY] <;> congr 2 <;> ring

theorem canvasDimension_intCast (z : ℤ) : canvasDimension (z : ℚ) = z := by
  unfold canvasDimension
  exact Int.floor_intCast z

theorem canvasDimension_ofNat (n : ℕ) [n.AtLeastTwo] :
    canvasDimension (no_index (OfNat.ofNat n : ℚ)) = OfNat.ofNat n := by
  unfold canvasDimension
  exact Int.floor_ofNat n

/-- A whole number clamped between whole bounds is whole: the canvas keeps it
as it is. -/
theorem canvasDimension_clamp_intCast (z lo hi : ℤ) :
    ((canvasDimension (clamp (z : ℚ) (lo : ℚ) (hi : ℚ)) : ℤ) : ℚ)
      = clamp (z : ℚ) (lo : ℚ) (hi : ℚ) := by
  unfold clamp canvasDimension
  split_ifs <;> simp

/-- The integer part of a number between two integers lies between them. -/
theorem canvasDimension_mem (v : ℚ) (lo hi : ℤ) (h1 : (lo : ℚ) ≤ v) (h2 : v ≤ (hi : ℚ)) :
    lo ≤ canvasDimension v ∧ canvasDimension v ≤ hi := by
  unfold canvasDimension
  refine ⟨Int.le_floor.mpr h1, ?_⟩
  have h3 : ((⌊v⌋ : ℤ) : ℚ) ≤ (hi : ℚ) := le_trans (Int.floor_le v) h2
  exact_mod_cast h3

/-- The integer part `n` of `v`: `n <= v < n + 1`. -/
theorem canvasDimension_spec (v : ℚ) :
    ((canvasDimension v : ℤ) : ℚ) ≤ v ∧ v < ((canvasDimension v : ℤ) : ℚ) + 1 := by
  unfold canvasDimension
  exact ⟨Int.floor_le v, Int.lt_floor_add_one v⟩

/-- The viewport after `handleCanvasResize` is the integer part of the computed
target, whether or not the call found anything to change. -/
theorem handleCanvasResize_canvas (c : ImageCombiner) (start : Canvas) (deltaX deltaY : ℚ)
    (handleName : HandleType) (hstart : c.canvasResizeStartState = some start) :
    ∃ c', ImageCombiner.handleCanvasResize c deltaX deltaY handleName = some c'
      ∧ c'.canvas.width
        = canvasDimension (ImageCombiner.canvasResizeTarget start deltaX deltaY handleName).1
      ∧ c'.canvas.height
        = canvasDimension (ImageCombiner.canvasResizeTarget start deltaX deltaY handleName).2 := by
  unfold ImageCombiner.handleCanvasResize
  rw [hstart]
  simp only
  split_ifs with hne
  · exact ⟨_, rfl, rfl, rfl⟩
  · refine ⟨c, rfl, ?_, ?_⟩
    · have hw : (ImageCombiner.canvasResizeTarget start deltaX deltaY handleName).1
          = (c.canvas.width : ℚ) := by
        by_contra hw
        exact hne (Or.inl hw)
      rw [hw, canvasDimension_intCast]
    · have hh : (ImageCombiner.canvasResizeTarget start deltaX deltaY handleName).2
          = (c.canvas.height : ℚ) := by
        by_contra hh
        exact hne (Or.inr hh)
      rw [hh, canvasDimension_intCast]

theorem resizingCanvas_se_target (deltaX deltaY : ℚ) :
    ImageCombiner.canvasResizeTarget { width := 1430, height := 680 } deltaX deltaY .se
      = (clamp (1430 + 3 / 10 * deltaX) 50 3000, clamp (680 + 3 / 10 * deltaY) 50 2000) := by
  rw [canvasResizeTarget_eq]
  simp only [signX, signY]
  norm_num

/-- C11, refuted as stated. On the constructed 1430 x 680 viewport grabbed at its
south-east hotspot, `handleCanvasResize(5, 5, 'se')` computes the size
`1431.5 x 681.5`, which is what the claim's formula gives, and assigns it to the
canvas element, which keeps the integer part: the viewport is left at
1431 x 681. -/
theorem handleCanvasResize_keeps_integer_part :
    clamp ((1430 : ℚ) + signX .se * (3 / 10) * 5) 50 3000 = 2863 / 2
      ∧ clamp ((680 : ℚ) + signY .se * (3 / 10) * 5) 50 2000 = 1363 / 2
      ∧ ∃ c', ImageCombiner.handleCanvasResize Examples.resizingCanvas 5 5 .se = some c'
          ∧ c'.canvas = { width := 1431, height := 681 }
          ∧ (c'.canvas.width : ℚ) ≠ clamp ((1430 : ℚ) + signX .se * (3 / 10) * 5) 50 3000
          ∧ (c'.canvas.height : ℚ) ≠ clamp ((680 : ℚ) + signY .se * (3 / 10) * 5) 50 2000 := by
  have h1 : clamp ((1430 : ℚ) + signX .se * (3 / 10) * 5) 50 3000 = 2863 / 2 := by
    simp only [signX, clamp]
    norm_num
  have h2 : clamp ((680 : ℚ) + signY .se * (3 / 10) * 5) 50 2000 = 1363 / 2 := by
    simp only [signY, clamp]
    norm_num
  obtain ⟨c', hrun, hw, hh⟩ := handleCanvasResize_canvas Examples.resizingCanvas
    { width := 1430, height := 680 } 5 5 .se rfl
  have ht : ImageCombiner.canvasResizeTarget { width := 1430, height := 680 } 5 5 .se
      = (2863 / 2, 1363 / 2) := by
    rw [resizingCanvas_se_target]
    simp only [clamp]
    norm_num
  have hw' : c'.canvas.width = 1431 := by
    rw [hw, ht]
    unfold canvasDimension
    rw [Int.floor_eq_iff]
    norm_num
  have hh' : c'.canvas.height = 681 := by
    rw [hh, ht]
    unfold canvasDimension
    rw [Int.floor_eq_iff]
    norm_num
  refine ⟨h1, h2, c', hrun, ?_, ?_, ?_⟩
  · cases hc : c'.canvas with
    | mk width height =>
      rw [hc] at hw' hh'
      simp only at hw' hh'
      rw [hw', hh']
  · rw [hw', h1]
    norm_num
  · rw [hh', h2]
    norm_num

/-- C11, amended. Viewport resize arithmetic. With the drag-start viewport size
`(w0, h0)` recorded, for every handle and cumulative delta `(dx, dy)`,
`handleCanvasResize` returns and leaves the viewport width the integer part of
`clamp(w0 + sx * 0.3 * dx, 50, 3000)` and the viewport height the integer part
of `clamp(h0 + sy * 0.3 * dy, 50, 2000)`, with `sx` and `sy` the signs `signX`
and `signY` of the handle: the width `w` is the integer with
`w <= clamp(...) < w + 1`, and likewise the height. The viewport is within
`[50, 3000] x [50, 2000]` after the call. -/
theorem handleCanvasResize_arithmetic_amended (c : ImageCombiner) (start : Canvas)
    (deltaX deltaY : ℚ) (handleName : HandleType)
    (hstart : c.canvasResizeStartState = some start) :
    ∃ c', ImageCombiner.handleCanvasResize c deltaX deltaY handleName = some c'
      ∧ c'.canvas.width
        = canvasDimension (clamp (start.width + signX handleName * (3 / 10) * deltaX) 50 3000)
      ∧ c'.canvas.height
        = canvasDimension (clamp (start.height + signY handleName * (3 / 10) * deltaY) 50 2000)
      ∧ ((c'.canvas.width : ℚ) ≤ clamp (start.width + signX handleName * (3 / 10) * deltaX) 50 3000
        ∧ clamp (start.width + signX handleName * (3 / 10) * deltaX) 50 3000
          < (c'.canvas.width : ℚ) + 1)
      ∧ ((c'.canvas.height : ℚ)
          ≤ clamp (start.height + signY handleName * (3 / 10) * deltaY) 50 2000
        ∧ clamp (start.height + signY handleName * (3 / 10) * deltaY) 50 2000
          < (c'.canvas.height : ℚ) + 1)
      ∧ ViewportInBounds c'.canvas := by
  obtain ⟨c', hrun, hw, hh⟩ := handleCanvasResize_canvas c start deltaX deltaY handleName hstart
  rw [canvasResizeTarget_eq] at hw hh
  have h1 := clamp_mem (start.width + signX handleName * (3 / 10) * deltaX) 50 3000 (by norm_num)
  have h2 := clamp_mem (start.height + signY handleName * (3 / 10) * deltaY) 50 2000
    (by norm_num)
  have b1 := canvasDimension_mem _ 50 3000 (by exact_mod_cast h1.1) (by exact_mod_cast h1.2)
  have b2 := canvasDimension_mem _ 50 2000 (by exact_mod_cast h2.1) (by exact_mod_cast h2.2)
  refine ⟨c', hrun, hw, hh, ?_, ?_, ?_⟩
  · rw [hw]
    exact canvasDimension_spec _
  · rw [hh]
    exact canvasDimension_spec _
  · unfold ViewportInBounds
    rw [hw, hh]
    exact ⟨b1.1, b1.2, b2.1, b2.2⟩

/-- Witness of C11, amended: the south-east viewport hotspot of the constructed
scene dragged by `(5, -50)` leaves the viewport at 1431 x 665. -/
theorem handleCanvasResize_arithmetic_amended_witness :
    ∃ c', ImageCombiner.handleCanvasResize Examples.resizingCanvas 5 (-50) .se = some c'
      ∧ c'.canvas.width = 1431 ∧ c'.canvas.height = 665
      ∧ ViewportInBounds c'.canvas := by
  obtain ⟨c', hrun, hw, hh, -, -, hb⟩ :=
    handleCanvasResize_arithmetic_amended Examples.resizingCanvas
      { width := 1430, height := 680 } 5 (-50) .se rfl
  refine ⟨c', hrun, ?_, ?_, hb⟩
  · rw [hw]
    unfold canvasDimension
    rw [Int.floor_eq_iff]
    simp only [signX, clamp]
    norm_num
  · rw [hh]
    unfold canvasDimension
    rw [Int.floor_eq_iff]
    simp only [signY, clamp]
    norm_num

/-! ### Pointer-up -/

/-- C20. Pointer-up returns to Idle and only clears transient state. From every
state, `handleMouseUp` sets `isDragging` and `isResizingCanvas` to false and
`selectedImage`, `selectedHandle`, `canvasResizeHandle`, `initialImageState` and
`canvasResizeStartState` to null; the state it leaves is Idle, the next
pointer-move applies no transform, and the element list (every element with its
rectangle, selected flag and all other fields) and the viewport are unchanged. -/
theorem handleMouseUp_clears_transient (c : ImageCombiner) :
    ((ImageCombiner.handleMouseUp c).isDragging = false
        ∧ (ImageCombiner.handleMouseUp c).isResizingCanvas = false
        ∧ (ImageCombiner.handleMouseUp c).selectedImage = none
        ∧ (ImageCombiner.handleMouseUp c).selectedHandle = none
        ∧ (ImageCombiner.handleMouseUp c).canvasResizeHandle = none
        ∧ (ImageCombiner.handleMouseUp c).initialImageState = none
        ∧ (ImageCombiner.handleMouseUp c).canvasResizeStartState = none)
      ∧ (ImageCombiner.isIdle (ImageCombiner.handleMouseUp c) = true
        ∧ ImageCombiner.activeTransform (ImageCombiner.handleMouseUp c) = .idle)
      ∧ ((ImageCombiner.handleMouseUp c).images = c.images
        ∧ (ImageCombiner.handleMouseUp c).canvas = c.canvas
        ∧ (ImageCombiner.handleMouseUp c).dragStartPos = c.dragStartPos
        ∧ (ImageCombiner.handleMouseUp c).isWindows = c.isWindows) :=
  ⟨⟨rfl, rfl, rfl, rfl, rfl, rfl, rfl⟩, ⟨rfl, rfl⟩, ⟨rfl, rfl, rfl, rfl⟩⟩

/-! ### Image binding and the size invariant -/

theorem setImage_flat_eq : Examples.leftImage.setImage Examples.flatImg = Examples.flatLeft := by
  rw [setImage_fit_eq Examples.leftImage Examples.flatImg (by decide)]
  simp only [Examples.leftImage, Examples.flatImg, Examples.flatLeft, ResizableImage.new,
    ResizableImage.updateHandles, ResizableImage.createHandlesAt]
  norm_num

/-- C13, refuted as stated: the constructed left element, `715 x 680` with both
minimums 50, bound to a 4000 x 100 image, is fitted to height `143/8`, below its
minimum height. -/
theorem setImage_breaks_min_height :
    (Examples.leftImage.minWidth ≤ Examples.leftImage.width
        ∧ Examples.leftImage.minHeight ≤ Examples.leftImage.height
        ∧ Examples.leftImage.minWidth = 50 ∧ Examples.leftImage.minHeight = 50)
      ∧ (0 < Examples.flatImg.naturalWidth ∧ 0 < Examples.flatImg.naturalHeight)
      ∧ (Examples.leftImage.setImage Examples.flatImg).height = 143 / 8
      ∧ ¬ ((Examples.leftImage.setImage Examples.flatImg).minHeight
            ≤ (Examples.leftImage.setImage Examples.flatImg).height) := by
  rw [setImage_flat_eq]
  simp only [Examples.leftImage, Examples.flatImg, Examples.flatLeft, ResizableImage.new]
  norm_num

/-- C13, amended. For every element with `width >= minWidth` and
`height >= minHeight` and every image with positive natural dimensions, after
`setImage` the element has the minimums it had and still has `width >= minWidth`
or `height >= minHeight`; it has both when it is pre-sized, and when the fitted
extents `height * r` and `width / r`, with `r = naturalWidth / naturalHeight`,
are at least `minWidth` and `minHeight`. -/
theorem setImage_min_size_amended (r : ResizableImage) (img : Img)
    (hw : r.minWidth ≤ r.width) (hh : r.minHeight ≤ r.height)
    (hnw : 0 < img.naturalWidth) (hnh : 0 < img.naturalHeight) :
    ((r.setImage img).minWidth = r.minWidth ∧ (r.setImage img).minHeight = r.minHeight)
      ∧ ((r.setImage img).minWidth ≤ (r.setImage img).width
        ∨ (r.setImage img).minHeight ≤ (r.setImage img).height)
      ∧ (ResizableImage.isPreSized r img = true →
          (r.setImage img).minWidth ≤ (r.setImage img).width
            ∧ (r.setImage img).minHeight ≤ (r.setImage img).height)
      ∧ (r.minWidth ≤ r.height * (img.naturalWidth / img.naturalHeight) →
          r.minHeight ≤ r.width / (img.naturalWidth / img.naturalHeight) →
          (r.setImage img).minWidth ≤ (r.setImage img).width
            ∧ (r.setImage img).minHeight ≤ (r.setImage img).height) := by
  have _hpos : 0 < img.naturalWidth / img.naturalHeight := div_pos hnw hnh
  cases hpre : ResizableImage.isPreSized r img with
  | true =>
    have hset : r.setImage img
        = ResizableImage.updateHandles
            { r with image := some img, naturalWidth := img.naturalWidth,
                     naturalHeight := img.naturalHeight,
                     aspectRatio := img.naturalWidth / img.naturalHeight } := by
      have hpre' : ResizableImage.isPreSized
          { r with image := some img, naturalWidth := img.naturalWidth,
                   naturalHeight := img.naturalHeight,
                   aspectRatio := img.naturalWidth / img.naturalHeight } img = true := hpre
      unfold ResizableImage.setImage ResizableImage.fitToCurrentBounds
      simp only [hpre', if_true]
    rw [hset]
    exact ⟨⟨rfl, rfl⟩, Or.inl hw, fun _ => ⟨hw, hh⟩, fun _ _ => ⟨hw, hh⟩⟩
  | false =>
    have hfit := setImage_fit_eq r img hpre
    by_cases hcmp : r.width / r.height > img.naturalWidth / img.naturalHeight
    · rw [if_pos hcmp] at hfit
      rw [hfit]
      exact ⟨⟨rfl, rfl⟩, Or.inr hh, fun h => absurd h Bool.false_ne_true,
        fun h1 _ => ⟨h1, hh⟩⟩
    · rw [if_neg hcmp] at hfit
      rw [hfit]
      exact ⟨⟨rfl, rfl⟩, Or.inl hw, fun h => absurd h Bool.false_ne_true,
        fun _ h2 => ⟨hw, h2⟩⟩

/-- Witness of C13, amended: the 400 x 200 image bound to the constructed left
element, whose fitted extents `680 * 2` and `715 / 2` are both at least 50. -/
theorem setImage_min_size_amended_witness :
    (Examples.leftImage.setImage Examples.wideImg).minWidth
        ≤ (Examples.leftImage.setImage Examples.wideImg).width
      ∧ (Examples.leftImage.setImage Examples.wideImg).minHeight
        ≤ (Examples.leftImage.setImage Examples.wideImg).height :=
  (setImage_min_size_amended Examples.leftImage Examples.wideImg
    (by norm_num [Examples.leftImage, ResizableImage.new])
    (by norm_num [Examples.leftImage, ResizableImage.new])
    (by norm_num [Examples.wideImg]) (by norm_num [Examples.wideImg])).2.2.2
    (by norm_num [Examples.leftImage, Examples.wideImg, ResizableImage.new])
    (by norm_num [Examples.leftImage, Examples.wideImg, ResizableImage.new])

/-! ### Element move -/

/-- The result of `moveImage` when a snapshot is recorded and the element
reference is in the list. -/
theorem moveImage_eq (c : ImageCombiner) (init img : ResizableImage) (i : Nat) (dx dy : ℚ)
    (hinit : c.initialImageState = some init) (himg : c.images.get? i = some img) :
    ImageCombiner.moveImage c i dx dy
        = some
          { c with
            images :=
              c.images.set i
                (if !c.isResizingCanvas then
                  ImageCombiner.constrainImageToCanvas c
                    { img with x := init.x + dx, y := init.y + dy }
                else { img with x := init.x + dx, y := init.y + dy }) }
      ∧ (c.images.set i
            (if !c.isResizingCanvas then
              ImageCombiner.constrainImageToCanvas c
                { img with x := init.x + dx, y := init.y + dy }
            else { img with x := init.x + dx, y := init.y + dy })).get? i
        = some
          (if !c.isResizingCanvas then
            ImageCombiner.constrainImageToCanvas c
              { img with x := init.x + dx, y := init.y + dy }
          else { img with x := init.x + dx, y := init.y + dy }) := by
  refine ⟨?_, get?_set_of_get? _ _ _ _ himg⟩
  unfold ImageCombiner.moveImage
  rw [hinit]
  simp only
  rw [himg]

/-- Inside the viewport `constrainImageToCanvas` leaves the position alone. -/
theorem constrainImageToCanvas_pos_inside (c : ImageCombiner) (image : ResizableImage)
    (hx : 0 ≤ image.x) (hy : 0 ≤ image.y)
    (hr : image.x + image.width ≤ c.canvas.width)
    (hb : image.y + image.height ≤ c.canvas.height) :
    (ImageCombiner.constrainImageToCanvas c image).x = image.x
      ∧ (ImageCombiner.constrainImageToCanvas c image).y = image.y := by
  unfold ImageCombiner.constrainImageToCanvas
  by_cases hc : c.isResizingCanvas = true
  · simp [hc]
  · simp only [hc, Bool.false_eq_true, if_false]
    have e1 : ImageCombiner.clampLeft image = image := by
      unfold ImageCombiner.clampLeft
      rw [if_neg (not_lt.mpr hx)]
    have e2 : ImageCombiner.clampTop image = image := by
      unfold ImageCombiner.clampTop
      rw [if_neg (not_lt.mpr hy)]
    have e3 : ImageCombiner.clampRight c image = image := by
      unfold ImageCombiner.clampRight
      rw [if_neg (not_lt.mpr hr)]
    have e4 : ImageCombiner.clampBottom c image = image := by
      unfold ImageCombiner.clampBottom
      rw [if_neg (not_lt.mpr hb)]
    rw [e1, e2, e3, e4]
    constructor
    · show (ImageCombiner.ensureMinHeight (ImageCombiner.ensureMinWidth image)).x = image.x
      unfold ImageCombiner.ensureMinHeight ImageCombiner.ensureMinWidth
      split_ifs <;> rfl
    · show (ImageCombiner.ensureMinHeight (ImageCombiner.ensureMinWidth image)).y = image.y
      unfold ImageCombiner.ensureMinHeight ImageCombiner.ensureMinWidth
      split_ifs <;> rfl

/-- C15, refuted as stated: `moveImage` on the element `Examples.flatLeft`, whose
height `143/8` is below its minimum, with delta `(10, 0)` raises the height
to 50. -/
theorem moveImage_changes_height :
    ∃ (c' : ImageCombiner) (before after : ResizableImage),
      Examples.movingFlat.images.get? 0 = some before
        ∧ ImageCombiner.moveImage Examples.movingFlat 0 10 0 = some c'
        ∧ c'.images.get? 0 = some after
        ∧ before.height = 143 / 8 ∧ after.height = 50 ∧ after.height ≠ before.height := by
  obtain ⟨heq, hget⟩ := moveImage_eq Examples.movingFlat
    { Examples.flatLeft with selected := true } { Examples.flatLeft with selected := true }
    0 10 0 rfl rfl
  refine ⟨_, _, _, rfl, heq, hget, ?_, ?_, ?_⟩
  · simp only [Examples.flatLeft, ResizableImage.new]
  · simp only [Examples.movingFlat, Examples.constructed, Bool.not_false, if_true,
      ImageCombiner.constrainImageToCanvas, Bool.false_eq_true, if_false,
      ImageCombiner.clampLeft, ImageCombiner.clampTop, ImageCombiner.clampRight,
      ImageCombiner.clampBottom, ImageCombiner.ensureMinWidth, ImageCombiner.ensureMinHeight,
      Examples.flatLeft, ResizableImage.new, ResizableImage.updateHandles]
    norm_num
  · simp only [Examples.movingFlat, Examples.constructed, Bool.not_false, if_true,
      ImageCombiner.constrainImageToCanvas, Bool.false_eq_true, if_false,
      ImageCombiner.clampLeft, ImageCombiner.clampTop, ImageCombiner.clampRight,
      ImageCombiner.clampBottom, ImageCombiner.ensureMinWidth, ImageCombiner.ensureMinHeight,
      Examples.flatLeft, ResizableImage.new, ResizableImage.updateHandles]
    norm_num

/-- C15, amended. With a drag-start snapshot `init` recorded, for every element
and cumulative delta `(dx, dy)`, `moveImage` returns; it leaves the width and
height of an element with `width >= minWidth` and `height >= minHeight`
unchanged (an element below a minimum is raised to it unless a viewport resize
is flagged); and whenever the translated rectangle
`(init.x + dx, init.y + dy, width, height)` lies inside the viewport the element
ends at exactly `x = init.x + dx` and `y = init.y + dy`. -/
theorem moveImage_translation_amended (c : ImageCombiner) (init img : ResizableImage)
    (i : Nat) (dx dy : ℚ)
    (hinit : c.initialImageState = some init) (himg : c.images.get? i = some img) :
    ∃ (c' : ImageCombiner) (r : ResizableImage),
      ImageCombiner.moveImage c i dx dy = some c'
        ∧ c'.images.get? i = some r
        ∧ (img.minWidth ≤ img.width → img.minHeight ≤ img.height →
            r.width = img.width ∧ r.height = img.height)
        ∧ (c.isResizingCanvas = true → r.width = img.width ∧ r.height = img.height)
        ∧ (0 ≤ init.x + dx → 0 ≤ init.y + dy →
            init.x + dx + img.width ≤ c.canvas.width →
            init.y + dy + img.height ≤ c.canvas.height →
            r.x = init.x + dx ∧ r.y = init.y + dy) := by
  obtain ⟨heq, hget⟩ := moveImage_eq c init img i dx dy hinit himg
  refine ⟨_, _, heq, hget, ?_, ?_, ?_⟩
  · intro hw hh
    cases hc : c.isResizingCanvas with
    | true => simp
    | false =>
      simp only [Bool.not_false, if_true]
      obtain ⟨e1, e2, -⟩ := constrainImageToCanvas_size c
        { img with x := init.x + dx, y := init.y + dy } hw hh
      exact ⟨e1, e2⟩
  · intro hc
    simp [hc]
  · intro hx hy hr hb
    cases hc : c.isResizingCanvas with
    | true => simp
    | false =>
      simp only [Bool.not_false, if_true]
      exact constrainImageToCanvas_pos_inside c
        { img with x := init.x + dx, y := init.y + dy } hx hy hr hb

/-- Witness of C15, amended: the element `Examples.boundLeft` moved by `(20, 10)`
from its snapshot. -/
theorem moveImage_translation_amended_witness :
    ∃ (c' : ImageCombiner) (r : ResizableImage),
      ImageCombiner.moveImage Examples.resizing 0 20 10 = some c'
        ∧ c'.images.get? 0 = some r
        ∧ (r.width = Examples.boundLeft.width ∧ r.height = Examples.boundLeft.height)
        ∧ (r.x = Examples.boundLeft.x + 20 ∧ r.y = Examples.boundLeft.y + 10) := by
  obtain ⟨c', r, h1, h2, h3, -, h5⟩ :=
    moveImage_translation_amended Examples.resizing Examples.boundLeft Examples.boundLeft
      0 20 10 rfl rfl
  refine ⟨c', r, h1, h2, h3 ?_ ?_, h5 ?_ ?_ ?_ ?_⟩ <;>
    norm_num [Examples.boundLeft, Examples.resizing, Examples.constructed, ResizableImage.new]

/-! ### Viewport bounds -/

/-- C12, refuted as stated: from the constructed 1430 x 680 viewport, four
`addScreenshotArea` calls leave the viewport height at 2380, above 2000, and one
`updateCanvasSize` with `10x10` leaves the viewport at 10 x 10, below 50. -/
theorem viewport_ops_leave_bounds :
    ViewportInBounds Examples.constructed.canvas
      ∧ (ImageCombiner.runViewportOps Examples.constructed
          Examples.fourScreenshotAreas).canvas.height = 2380
      ∧ ¬ ViewportInBounds
          (ImageCombiner.runViewportOps Examples.constructed Examples.fourScreenshotAreas).canvas
      ∧ (ImageCombiner.runViewportOps Examples.constructed [.canvasSize 10 10]).canvas
          = { width := 10, height := 10 }
      ∧ ¬ ViewportInBounds
          (ImageCombiner.runViewportOps Examples.constructed [.canvasSize 10 10]).canvas := by
  have hfour : (ImageCombiner.runViewportOps Examples.constructed
      Examples.fourScreenshotAreas).canvas.height = 2380 := by
    simp only [ImageCombiner.runViewportOps, Examples.fourScreenshotAreas, List.foldl_cons,
      List.foldl_nil, ImageCombiner.applyViewportOp, ImageCombiner.addScreenshotArea,
      ImageCombiner.addImage, ImageCombiner.lowestBottom, Examples.constructed,
      Examples.leftImage, Examples.rightImage, ResizableImage.new, List.length_cons,
      List.length_nil, List.cons_append, List.nil_append, List.length_append]
    norm_num [canvasDimension_ofNat]
  have hsize : (ImageCombiner.runViewportOps Examples.constructed [.canvasSize 10 10]).canvas
      = { width := 10, height := 10 } := by
    simp only [ImageCombiner.runViewportOps, List.foldl_cons, List.foldl_nil,
      ImageCombiner.applyViewportOp, ImageCombiner.updateCanvasSize]
    norm_num [canvasDimension_ofNat]
  refine ⟨?_, hfour, ?_, hsize, ?_⟩
  · norm_num [ViewportInBounds, Examples.constructed]
  · unfold ViewportInBounds
    rw [hfour]
    norm_num
  · rw [hsize]
    norm_num [ViewportInBounds]

theorem handleCanvasResize_inBounds (c c' : ImageCombiner) (deltaX deltaY : ℚ)
    (handleName : HandleType)
    (h : ImageCombiner.handleCanvasResize c deltaX deltaY handleName = some c') :
    ViewportInBounds c'.canvas := by
  cases hstart : c.canvasResizeStartState with
  | none =>
    unfold ImageCombiner.handleCanvasResize at h
    rw [hstart] at h
    simp at h
  | some start =>
    obtain ⟨c'', hrun, hw, hh⟩ :=
      handleCanvasResize_canvas c start deltaX deltaY handleName hstart
    rw [h] at hrun
    simp only [Option.some.injEq] at hrun
    subst hrun
    rw [canvasResizeTarget_eq] at hw hh
    unfold ViewportInBounds
    rw [hw, hh]
    have h1 := clamp_mem (start.width + signX handleName * (3 / 10) * deltaX) 50 3000
      (by norm_num)
    have h2 := clamp_mem (start.height + signY handleName * (3 / 10) * deltaY) 50 2000
      (by norm_num)
    have b1 := canvasDimension_mem _ 50 3000 (by exact_mod_cast h1.1) (by exact_mod_cast h1.2)
    have b2 := canvasDimension_mem _ 50 2000 (by exact_mod_cast h2.1) (by exact_mod_cast h2.2)
    exact ⟨b1.1, b1.2, b2.1, b2.2⟩

theorem runCanvasResizes_inBounds (calls : List ImageCombiner.CanvasResizeCall)
    (c : ImageCombiner) (h : ViewportInBounds c.canvas) :
    ViewportInBounds (ImageCombiner.runCanvasResizes c calls).canvas := by
  induction calls generalizing c with
  | nil => exact h
  | cons call rest ih =>
    simp only [ImageCombiner.runCanvasResizes, List.foldl_cons] at ih ⊢
    apply ih
    cases hrun : ImageCombiner.handleCanvasResize c call.deltaX call.deltaY call.handleName with
    | none => simpa [ImageCombiner.stateAfter] using h
    | some c' =>
      simpa [ImageCombiner.stateAfter] using
        handleCanvasResize_inBounds c c' _ _ _ hrun

/-- C12, amended. The viewport is within `[50, 3000] x [50, 2000]` in the
constructed state, after every `handleCanvasResize` call that returns (from any
state, so whatever operations came before it), and hence after every sequence
of pointer-driven `handleCanvasResize` calls from a state within the bounds, the
constructed one included. The other viewport-changing operations do not keep
the bounds: `updateCanvasSize` enforces only `width >= 1` and `height >= 1`
(the canvas keeps the integer part of `max(1, width)` and of
`max(1, height)`). -/
theorem viewport_bounds_amended :
    ViewportInBounds Examples.constructed.canvas
      ∧ (∀ (c c' : ImageCombiner) (deltaX deltaY : ℚ) (handleName : HandleType),
          ImageCombiner.handleCanvasResize c deltaX deltaY handleName = some c' →
          ViewportInBounds c'.canvas)
      ∧ (∀ (c : ImageCombiner) (calls : List ImageCombiner.CanvasResizeCall),
          ViewportInBounds c.canvas →
          ViewportInBounds (ImageCombiner.runCanvasResizes c calls).canvas)
      ∧ (∀ calls : List ImageCombiner.CanvasResizeCall,
          ViewportInBounds (ImageCombiner.runCanvasResizes Examples.constructed calls).canvas)
      ∧ (∀ (c : ImageCombiner) (width height : ℚ),
          (ImageCombiner.updateCanvasSize c width height).canvas.width
              = canvasDimension (max 1 width)
            ∧ (ImageCombiner.updateCanvasSize c width height).canvas.height
              = canvasDimension (max 1 height)
            ∧ 1 ≤ (ImageCombiner.updateCanvasSize c width height).canvas.width
            ∧ 1 ≤ (ImageCombiner.updateCanvasSize c width height).canvas.height) := by
  have h0 : ViewportInBounds Examples.constructed.canvas := by
    norm_num [ViewportInBounds, Examples.constructed]
  refine ⟨h0, handleCanvasResize_inBounds,
    fun c calls h => runCanvasResizes_inBounds calls c h,
    fun calls => runCanvasResizes_inBounds calls Examples.constructed h0,
    fun c width height => ⟨rfl, rfl, ?_, ?_⟩⟩
  · show (1 : ℤ) ≤ canvasDimension (max 1 width)
    unfold canvasDimension
    exact Int.le_floor.mpr (by exact_mod_cast le_max_left (1 : ℚ) width)
  · show (1 : ℤ) ≤ canvasDimension (max 1 height)
    unfold canvasDimension
    exact Int.le_floor.mpr (by exact_mod_cast le_max_left (1 : ℚ) height)

/-- Witness of C12, amended: a viewport resize of the constructed scene by
`(5000, 5000)` from the south-east hotspot stays within the bounds. -/
theorem viewport_bounds_amended_witness :
    ViewportInBounds
      (ImageCombiner.runCanvasResizes Examples.resizingCanvas
        [{ deltaX := 5000, deltaY := 5000, handleName := .se }]).canvas :=
  viewport_bounds_amended.2.2.1 Examples.resizingCanvas
    [{ deltaX := 5000, deltaY := 5000, handleName := .se }]
    (by norm_num [ViewportInBounds, Examples.resizingCanvas, Examples.constructed])

/-! ### Export of the composition -/

theorem exportDrawImages_foldl :
    ∀ (images : List ResizableImage) (acc : List DrawOp × Nat),
      (images.foldl
          (fun acc image =>
            match image.image with
            | some img =>
              (acc.1 ++ [DrawOp.drawImage img image.x image.y image.width image.height],
               acc.2 + 1)
            | none => acc) acc).1
        = acc.1 ++ images.filterMap fun el =>
            el.image.map fun img => DrawOp.drawImage img el.x el.y el.width el.height
  | [], acc => by simp
  | image :: rest, acc => by
    simp only [List.foldl_cons]
    rw [exportDrawImages_foldl rest]
    cases himg : image.image with
    | none => simp [List.filterMap_cons, himg]
    | some img => simp [List.filterMap_cons, himg]

theorem exportDrawImages_eq (images : List ResizableImage) :
    (ImageCombiner.exportDrawImages images).1
      = images.filterMap fun el =>
          el.image.map fun img => DrawOp.drawImage img el.x el.y el.width el.height := by
  unfold ImageCombiner.exportDrawImages
  rw [exportDrawImages_foldl]
  simp

theorem filterMap_drawImage_selected (images : List ResizableImage) :
    (images.map fun el => { el with selected := false }).filterMap
        (fun el => el.image.map fun img => DrawOp.drawImage img el.x el.y el.width el.height)
      = images.filterMap fun el =>
          el.image.map fun img => DrawOp.drawImage img el.x el.y el.width el.height := by
  rw [List.filterMap_map]
  rfl

/-- C14. Export paints content only. For every scene, the offscreen surface of
`exportCombinedImage` has the size of the viewport and the operations issued on
it are exactly: a `white` fill of the whole surface, then, for each element with
a bound image, in list order, that image drawn at the element's stored
`(x, y, width, height)`, then the rounded border. Nothing else is drawn (no
grid, handles, selection border or placeholder), so two scenes with the same
viewport whose elements differ only in their selected flags, whatever their
interaction state, yield the same surface and sequence. -/
theorem exportCombinedImage_paints_content (c : ImageCombiner) :
    (ImageCombiner.exportCombinedImage c).1 = c.canvas
      ∧ (ImageCombiner.exportCombinedImage c).2
        = [DrawOp.fillRect "white" 0 0 c.canvas.width c.canvas.height]
          ++ (c.images.filterMap fun el =>
                el.image.map fun img => DrawOp.drawImage img el.x el.y el.width el.height)
          ++ ImageCombiner.drawRoundedBorder c.canvas.width c.canvas.height
      ∧ (∀ c' : ImageCombiner, c'.canvas = c.canvas →
          (c'.images.map fun el => { el with selected := false })
            = (c.images.map fun el => { el with selected := false }) →
          ImageCombiner.exportCombinedImage c' = ImageCombiner.exportCombinedImage c) := by
  have hops : ∀ d : ImageCombiner, (ImageCombiner.exportCombinedImage d).2
      = [DrawOp.fillRect "white" 0 0 d.canvas.width d.canvas.height]
        ++ (d.images.filterMap fun el =>
              el.image.map fun img => DrawOp.drawImage img el.x el.y el.width el.height)
        ++ ImageCombiner.drawRoundedBorder d.canvas.width d.canvas.height := by
    intro d
    unfold ImageCombiner.exportCombinedImage
    simp only
    rw [exportDrawImages_eq]
  refine ⟨rfl, hops c, ?_⟩
  intro c' hcanvas himages
  have h1 : (ImageCombiner.exportCombinedImage c').1 = (ImageCombiner.exportCombinedImage c).1 :=
    hcanvas
  have h2 : (ImageCombiner.exportCombinedImage c').2 = (ImageCombiner.exportCombinedImage c).2 := by
    rw [hops c', hops c, hcanvas, ← filterMap_drawImage_selected c'.images,
      ← filterMap_drawImage_selected c.images, himages]
  exact Prod.ext h1 h2

/-- Witness of C14: the scene `Examples.selectedScene`, with its left element
selected and a drag in progress, exports as the same scene with no selection and
no interaction. -/
theorem exportCombinedImage_paints_content_witness :
    ImageCombiner.exportCombinedImage Examples.selectedScene
      = ImageCombiner.exportCombinedImage
          { Examples.constructed with
            images := [Examples.boundLeft,
                       { Examples.rightImage with image := some Examples.diagram }] } :=
  (exportCombinedImage_paints_content
    { Examples.constructed with
      images := [Examples.boundLeft,
                 { Examples.rightImage with image := some Examples.diagram }] }).2.2
    Examples.selectedScene rfl rfl

/-! ### Pen gesture -/

theorem onMouseMove_pen_foldl :
    ∀ (moves : List Point) (t : PIRADSPainter), t.drawing = true → t.currentTool = .pen →
      (moves.foldl PIRADSPainter.onMouseMove t).drawing = true
        ∧ (moves.foldl PIRADSPainter.onMouseMove t).currentTool = .pen
        ∧ (moves.foldl PIRADSPainter.onMouseMove t).paths = t.paths
        ∧ (moves.foldl PIRADSPainter.onMouseMove t).currentLesion = t.currentLesion
        ∧ (moves.foldl PIRADSPainter.onMouseMove t).currentPath = t.currentPath ++ moves
        ∧ (moves.foldl PIRADSPainter.onMouseMove t).lesions = t.lesions
  | [], t, hd, ht => by simp [hd, ht]
  | p :: moves, t, hd, ht => by
    have hstep : PIRADSPainter.onMouseMove t p
        = { t with currentPath := t.currentPath ++ [p], lastX := p.x, lastY := p.y } := by
      unfold PIRADSPainter.onMouseMove
      simp [hd, ht]
    simp only [List.foldl_cons]
    rw [hstep]
    obtain ⟨h1, h2, h3, h4, h5, h6⟩ := onMouseMove_pen_foldl moves
      { t with currentPath := t.currentPath ++ [p], lastX := p.x, lastY := p.y } hd ht
    refine ⟨h1, h2, h3, h4, ?_, h6⟩
    rw [h5]
    simp

/-- C17. Pen gesture commit. With the pen tool, after pointer-down at `p0`,
pointer-moves at `p1, ..., pn` and pointer-up, the committed stroke list is the
list before the gesture with exactly one stroke appended at the end, whose
points are `[p0, p1, ..., pn]` in that order and whose colour, width and lesion
number are those of the current lesion at pointer-down; every earlier stroke is
unchanged, the legend is unchanged and drawing has stopped. -/
theorem penGesture_commits_one_stroke (s : PIRADSPainter) (p0 : Point) (moves : List Point)
    (hpen : s.currentTool = .pen) :
    (PIRADSPainter.penGesture s p0 moves).paths
        = s.paths ++ [{ points := p0 :: moves, color := s.currentLesion.color,
                        lineWidth := s.currentLesion.lineWidth,
                        lesionNumber := s.currentLesion.number }]
      ∧ (PIRADSPainter.penGesture s p0 moves).drawing = false
      ∧ (PIRADSPainter.penGesture s p0 moves).lesions = s.lesions
      ∧ (PIRADSPainter.penGesture s p0 moves).currentLesion = s.currentLesion := by
  have hdown : PIRADSPainter.onMouseDown s p0
      = { s with drawing := true, lastX := p0.x, lastY := p0.y, currentPath := [p0] } := by
    unfold PIRADSPainter.onMouseDown
    simp [hpen]
  obtain ⟨h1, h2, h3, h4, h5, h6⟩ := onMouseMove_pen_foldl moves
    { s with drawing := true, lastX := p0.x, lastY := p0.y, currentPath := [p0] } rfl hpen
  unfold PIRADSPainter.penGesture
  rw [hdown]
  unfold PIRADSPainter.onMouseUp
  simp only [h1, h2, decide_True, Bool.and_self, if_true, h3, h4, h5, h6]
  simp

/-- Witness of C17: a pen gesture from `(5, 5)` through `(6, 7)` and `(9, 9)` on
the example painter. -/
theorem penGesture_commits_one_stroke_witness :
    (PIRADSPainter.penGesture Examples.painter { x := 5, y := 5 }
        [{ x := 6, y := 7 }, { x := 9, y := 9 }]).paths
      = [Examples.stroke,
         { points := [{ x := 5, y := 5 }, { x := 6, y := 7 }, { x := 9, y := 9 }],
           color := "#ff0000", lineWidth := 3, lesionNumber := 2 }] :=
  (penGesture_commits_one_stroke Examples.painter { x := 5, y := 5 }
    [{ x := 6, y := 7 }, { x := 9, y := 9 }] rfl).1

/-! ### Register lesion -/

/-- C18, refuted as stated: with no entry selected for edit, current lesion
number 2 and the number 7 typed into the lesion-number field, `addLesion`
registers lesion 2 and leaves the running lesion number at 8, not at 3. -/
theorem addLesion_number_from_field :
    Examples.painterEdited.selectedLesion = none
      ∧ Examples.painterEdited.currentLesion.number = 2
      ∧ (PIRADSPainter.addLesion Examples.painterEdited).lesions
        = Examples.painterEdited.lesions ++ [{ number := 2, color := "#ff0000", lineWidth := 3 }]
      ∧ (PIRADSPainter.addLesion Examples.painterEdited).currentLesion.number = 8
      ∧ (PIRADSPainter.addLesion Examples.painterEdited).currentLesion.number
        ≠ Examples.painterEdited.currentLesion.number + 1 := by
  refine ⟨rfl, rfl, rfl, ?_, ?_⟩
  · simp [PIRADSPainter.addLesion, PIRADSPainter.updateCurrentLesion, Examples.painterEdited,
      Examples.painter]
  · simp only [PIRADSPainter.addLesion, PIRADSPainter.updateCurrentLesion,
      Examples.painterEdited, Examples.painter]
    norm_num

/-- C18, amended. With no legend entry selected for edit, `addLesion` appends
exactly one entry whose number, colour and line width are the current ones,
leaves every earlier entry unchanged, and sets both the running lesion number
and the lesion-number field to the field's number plus one, which advances the
running number by one whenever the field shows it. With entry `i` selected for
edit, it overwrites entry `i` with the current values, leaves the list length,
every other entry and the running number unchanged, and clears the selection. -/
theorem addLesion_amended (s : PIRADSPainter) :
    (s.selectedLesion = none →
        (PIRADSPainter.addLesion s).lesions
            = s.lesions ++ [{ number := s.currentLesion.number, color := s.currentLesion.color,
                              lineWidth := s.currentLesion.lineWidth }]
          ∧ (PIRADSPainter.addLesion s).currentLesion.number = ((s.lesionNumberInput + 1 : Int) : ℚ)
          ∧ (PIRADSPainter.addLesion s).lesionNumberInput = s.lesionNumberInput + 1
          ∧ (s.currentLesion.number = (s.lesionNumberInput : ℚ) →
              (PIRADSPainter.addLesion s).currentLesion.number = s.currentLesion.number + 1)
          ∧ (PIRADSPainter.addLesion s).selectedLesion = none)
      ∧ (∀ i : Nat, s.selectedLesion = some i → i < s.lesions.length →
          (PIRADSPainter.addLesion s).lesions = s.lesions.set i s.currentLesion
            ∧ (PIRADSPainter.addLesion s).lesions.length = s.lesions.length
            ∧ (PIRADSPainter.addLesion s).lesions.get? i = some s.currentLesion
            ∧ (∀ j : Nat, j ≠ i →
                (PIRADSPainter.addLesion s).lesions.get? j = s.lesions.get? j)
            ∧ (PIRADSPainter.addLesion s).currentLesion.number = s.currentLesion.number
            ∧ (PIRADSPainter.addLesion s).selectedLesion = none) := by
  constructor
  · intro hsel
    have hrun : PIRADSPainter.addLesion s
        = PIRADSPainter.updateCurrentLesion
            { s with
              lesions :=
                s.lesions ++ [({ number := s.currentLesion.number,
                                 color := s.currentLesion.color,
                                 lineWidth := s.currentLesion.lineWidth } : Lesion)],
              currentLesion :=
                { s.currentLesion with number := ((s.lesionNumberInput + 1 : Int) : ℚ) },
              lesionNumberInput := s.lesionNumberInput + 1,
              colorInput :=
                { s.colorInput with
                  selectedIndex :=
                    (s.colorInput.selectedIndex + 1) % s.colorInput.options.length } } := by
      unfold PIRADSPainter.addLesion
      rw [hsel]
    rw [hrun]
    refine ⟨rfl, rfl, rfl, ?_, hsel⟩
    intro hsync
    simp only [PIRADSPainter.updateCurrentLesion]
    rw [hsync]
    push_cast
    ring
  · intro i hsel hi
    have hrun : PIRADSPainter.addLesion s
        = PIRADSPainter.updateCurrentLesion
            { s with lesions := s.lesions.set i s.currentLesion, selectedLesion := none } := by
      unfold PIRADSPainter.addLesion
      rw [hsel]
    rw [hrun]
    refine ⟨rfl, ?_, ?_, ?_, rfl, rfl⟩
    · simp [PIRADSPainter.updateCurrentLesion]
    · simp only [PIRADSPainter.updateCurrentLesion, List.get?_eq_getElem?]
      exact List.getElem?_set_self hi
    · intro j hj
      simp only [PIRADSPainter.updateCurrentLesion, List.get?_eq_getElem?]
      exact List.getElem?_set_ne (Ne.symm hj)

/-- Witness of C18, amended: the example painter, whose field shows the current
number 2, and the same painter with its entry selected for edit. -/
theorem addLesion_amended_witness :
    (PIRADSPainter.addLesion Examples.painter).currentLesion.number
        = Examples.painter.currentLesion.number + 1
      ∧ (PIRADSPainter.addLesion Examples.painterSelected).lesions
        = [Examples.painterSelected.currentLesion] :=
  ⟨((addLesion_amended Examples.painter).1 rfl).2.2.2.1
      (by norm_num [Examples.painter]),
    ((addLesion_amended Examples.painterSelected).2 0 rfl (by decide)).1⟩

/-! ### Export of the annotation layer -/

theorem drawLegend_painter :
    PIRADSPainter.drawLegend Examples.painter false = Examples.painterLegend := by
  simp only [PIRADSPainter.drawLegend, Examples.painter, Examples.diagram,
    Examples.painterLegend, PIRADSPainter.drawLegendItems, List.length_cons, List.length_nil]
  norm_num

theorem drawPaths_painter :
    PIRADSPainter.drawPaths Examples.painter.paths = [Examples.painterStroke] := by
  simp [PIRADSPainter.drawPaths, Examples.painter, Examples.stroke, Examples.painterStroke,
    PIRADSPainter.strokeCmds]

/-- C19, the code at the failing input `Examples.painter` (800 x 680 canvas,
800 x 600 diagram loaded, one stroke, one registered lesion), the background
load succeeding. After the white fill the export surface receives the diagram
stretched to `(0, 0, 800, 680)` and the stroke, and no legend: `drawLegend`
draws the legend on the live surface. After its background fill the live redraw
issues the diagram at `(0, 0)` in natural size, the stroke and the legend. For
every painter state the export surface receives only the fill, the stretched
background and the strokes. -/
theorem exportToClipboard_differs_from_redraw :
    (PIRADSPainter.exportToClipboard Examples.painter false (some Examples.diagram)).exportSurface
        = [.fillRect "#FFFFFF" 0 0 800 680, .drawImage Examples.diagram 0 0 800 680,
           Examples.painterStroke]
      ∧ (PIRADSPainter.exportToClipboard Examples.painter false
          (some Examples.diagram)).liveSurface = Examples.painterLegend
      ∧ (PIRADSPainter.redrawCanvas Examples.painter false).2
        = [.fillRect "#f8f8f8" 0 0 800 680, .drawImageAt Examples.diagram 0 0,
           Examples.painterStroke] ++ Examples.painterLegend
      ∧ (PIRADSPainter.exportToClipboard Examples.painter false
          (some Examples.diagram)).exportSurface.tail
        ≠ (PIRADSPainter.redrawCanvas Examples.painter false).2.tail
      ∧ (∀ (s : PIRADSPainter) (isDark : Bool) (backgroundImage : Img),
          (PIRADSPainter.exportToClipboard s isDark (some backgroundImage)).exportSurface
              = [.fillRect "#FFFFFF" 0 0 s.canvas.width s.canvas.height,
                 .drawImage backgroundImage 0 0 s.canvas.width s.canvas.height]
                ++ PIRADSPainter.drawPaths s.paths
            ∧ (PIRADSPainter.exportToClipboard s isDark (some backgroundImage)).liveSurface
              = PIRADSPainter.drawLegend s isDark) := by
  have hgen : ∀ (s : PIRADSPainter) (isDark : Bool) (backgroundImage : Img),
      (PIRADSPainter.exportToClipboard s isDark (some backgroundImage)).exportSurface
          = [.fillRect "#FFFFFF" 0 0 s.canvas.width s.canvas.height,
             .drawImage backgroundImage 0 0 s.canvas.width s.canvas.height]
            ++ PIRADSPainter.drawPaths s.paths
        ∧ (PIRADSPainter.exportToClipboard s isDark (some backgroundImage)).liveSurface
          = PIRADSPainter.drawLegend s isDark := by
    intro s isDark backgroundImage
    refine ⟨?_, rfl⟩
    unfold PIRADSPainter.exportToClipboard
    simp only
    cases hp : s.paths with
    | nil => simp [PIRADSPainter.drawPaths]
    | cons p ps => simp
  have hexport := (hgen Examples.painter false Examples.diagram).1
  rw [drawPaths_painter] at hexport
  have hredraw : (PIRADSPainter.redrawCanvas Examples.painter false).2
      = [.fillRect "#f8f8f8" 0 0 800 680, .drawImageAt Examples.diagram 0 0,
         Examples.painterStroke] ++ Examples.painterLegend := by
    have hlegend : PIRADSPainter.drawLegend (PIRADSPainter.setTheme Examples.painter false) false
        = Examples.painterLegend := drawLegend_painter
    have hpaths : PIRADSPainter.drawPaths (PIRADSPainter.setTheme Examples.painter false).paths
        = [Examples.painterStroke] := drawPaths_painter
    unfold PIRADSPainter.redrawCanvas
    simp only [hlegend, hpaths]
    simp [PIRADSPainter.setTheme, Examples.painter, Examples.diagram]
  refine ⟨?_, ?_, hredraw, ?_, hgen⟩
  · rw [hexport]
    rfl
  · rw [(hgen Examples.painter false Examples.diagram).2]
    exact drawLegend_painter
  · rw [hexport, hredraw]
    simp [Examples.painter, Examples.painterLegend]

/-! ### Gestures do not drift -/

theorem clampLeft_attrs (image : ResizableImage) :
    SameAttrs (ImageCombiner.clampLeft image) image := by
  unfold ImageCombiner.clampLeft
  split_ifs <;> exact ⟨rfl, rfl, rfl, rfl⟩

theorem clampTop_attrs (image : ResizableImage) :
    SameAttrs (ImageCombiner.clampTop image) image := by
  unfold ImageCombiner.clampTop
  split_ifs <;> exact ⟨rfl, rfl, rfl, rfl⟩

theorem clampRight_attrs (c : ImageCombiner) (image : ResizableImage) :
    SameAttrs (ImageCombiner.clampRight c image) image := by
  unfold ImageCombiner.clampRight
  split_ifs <;> exact ⟨rfl, rfl, rfl, rfl⟩

theorem clampBottom_attrs (c : ImageCombiner) (image : ResizableImage) :
    SameAttrs (ImageCombiner.clampBottom c image) image := by
  unfold ImageCombiner.clampBottom
  split_ifs <;> exact ⟨rfl, rfl, rfl, rfl⟩

theorem ensureMinWidth_attrs (image : ResizableImage) :
    SameAttrs (ImageCombiner.ensureMinWidth image) image := by
  unfold ImageCombiner.ensureMinWidth
  split_ifs <;> exact ⟨rfl, rfl, rfl, rfl⟩

theorem ensureMinHeight_attrs (image : ResizableImage) :
    SameAttrs (ImageCombiner.ensureMinHeight image) image := by
  unfold ImageCombiner.ensureMinHeight
  split_ifs <;> exact ⟨rfl, rfl, rfl, rfl⟩

theorem SameAttrs.trans {a b d : ResizableImage} (h1 : SameAttrs a b) (h2 : SameAttrs b d) :
    SameAttrs a d :=
  ⟨h1.1.trans h2.1, h1.2.1.trans h2.2.1, h1.2.2.1.trans h2.2.2.1, h1.2.2.2.trans h2.2.2.2⟩

theorem constrainImageToCanvas_attrs (c : ImageCombiner) (image : ResizableImage) :
    SameAttrs (ImageCombiner.constrainImageToCanvas c image) image := by
  unfold ImageCombiner.constrainImageToCanvas
  split_ifs
  · exact ⟨rfl, rfl, rfl, rfl⟩
  · have h : SameAttrs
        (ImageCombiner.ensureMinHeight (ImageCombiner.ensureMinWidth
          (ImageCombiner.clampBottom c (ImageCombiner.clampRight c
            (ImageCombiner.clampTop (ImageCombiner.clampLeft image)))))) image :=
      (ensureMinHeight_attrs _).trans ((ensureMinWidth_attrs _).trans
        ((clampBottom_attrs c _).trans ((clampRight_attrs c _).trans
          ((clampTop_attrs _).trans (clampLeft_attrs image)))))
    exact h

theorem clampLeft_sameRect {a b : ResizableImage} (h : SameRect a b) :
    SameRect (ImageCombiner.clampLeft a) (ImageCombiner.clampLeft b) := by
  obtain ⟨hx, hy, hw, hh, hmw, hmh⟩ := h
  unfold ImageCombiner.clampLeft
  by_cases hlt : b.x < 0
  · rw [if_pos (by rw [hx]; exact hlt), if_pos hlt]
    exact ⟨rfl, hy, hw, hh, hmw, hmh⟩
  · rw [if_neg (by rw [hx]; exact hlt), if_neg hlt]
    exact ⟨hx, hy, hw, hh, hmw, hmh⟩

theorem clampTop_sameRect {a b : ResizableImage} (h : SameRect a b) :
    SameRect (ImageCombiner.clampTop a) (ImageCombiner.clampTop b) := by
  obtain ⟨hx, hy, hw, hh, hmw, hmh⟩ := h
  unfold ImageCombiner.clampTop
  by_cases hlt : b.y < 0
  · rw [if_pos (by rw [hy]; exact hlt), if_pos hlt]
    exact ⟨hx, rfl, hw, hh, hmw, hmh⟩
  · rw [if_neg (by rw [hy]; exact hlt), if_neg hlt]
    exact ⟨hx, hy, hw, hh, hmw, hmh⟩

theorem clampRight_sameRect {c t : ImageCombiner} {a b : ResizableImage}
    (hc : c.canvas = t.canvas) (h : SameRect a b) :
    SameRect (ImageCombiner.clampRight c a) (ImageCombiner.clampRight t b) := by
  obtain ⟨hx, hy, hw, hh, hmw, hmh⟩ := h
  unfold ImageCombiner.clampRight
  by_cases hgt : b.x + b.width > t.canvas.width
  · rw [if_pos (by rw [hx, hw, hc]; exact hgt), if_pos hgt]
    exact ⟨by show c.canvas.width - a.width = t.canvas.width - b.width; rw [hc, hw],
      hy, hw, hh, hmw, hmh⟩
  · rw [if_neg (by rw [hx, hw, hc]; exact hgt), if_neg hgt]
    exact ⟨hx, hy, hw, hh, hmw, hmh⟩

theorem clampBottom_sameRect {c t : ImageCombiner} {a b : ResizableImage}
    (hc : c.canvas = t.canvas) (h : SameRect a b) :
    SameRect (ImageCombiner.clampBottom c a) (ImageCombiner.clampBottom t b) := by
  obtain ⟨hx, hy, hw, hh, hmw, hmh⟩ := h
  unfold ImageCombiner.clampBottom
  by_cases hgt : b.y + b.height > t.canvas.height
  · rw [if_pos (by rw [hy, hh, hc]; exact hgt), if_pos hgt]
    exact ⟨hx, by show c.canvas.height - a.height = t.canvas.height - b.height; rw [hc, hh],
      hw, hh, hmw, hmh⟩
  · rw [if_neg (by rw [hy, hh, hc]; exact hgt), if_neg hgt]
    exact ⟨hx, hy, hw, hh, hmw, hmh⟩

theorem ensureMinWidth_sameRect {a b : ResizableImage} (h : SameRect a b) :
    SameRect (ImageCombiner.ensureMinWidth a) (ImageCombiner.ensureMinWidth b) := by
  obtain ⟨hx, hy, hw, hh, hmw, hmh⟩ := h
  unfold ImageCombiner.ensureMinWidth
  by_cases hlt : b.width < b.minWidth
  · rw [if_pos (by rw [hw, hmw]; exact hlt), if_pos hlt]
    exact ⟨hx, hy, hmw, hh, hmw, hmh⟩
  · rw [if_neg (by rw [hw, hmw]; exact hlt), if_neg hlt]
    exact ⟨hx, hy, hw, hh, hmw, hmh⟩

theorem ensureMinHeight_sameRect {a b : ResizableImage} (h : SameRect a b) :
    SameRect (ImageCombiner.ensureMinHeight a) (ImageCombiner.ensureMinHeight b) := by
  obtain ⟨hx, hy, hw, hh, hmw, hmh⟩ := h
  unfold ImageCombiner.ensureMinHeight
  by_cases hlt : b.height < b.minHeight
  · rw [if_pos (by rw [hh, hmh]; exact hlt), if_pos hlt]
    exact ⟨hx, hy, hw, hmh, hmw, hmh⟩
  · rw [if_neg (by rw [hh, hmh]; exact hlt), if_neg hlt]
    exact ⟨hx, hy, hw, hh, hmw, hmh⟩

/-- The rectangle `constrainImageToCanvas` leaves depends only on the rectangle
and minimums it is given, the viewport and the viewport resize flag. -/
theorem constrainImageToCanvas_sameRect {c t : ImageCombiner} {a b : ResizableImage}
    (hc : c.canvas = t.canvas) (hf : c.isResizingCanvas = t.isResizingCanvas)
    (h : SameRect a b) :
    SameRect (ImageCombiner.constrainImageToCanvas c a)
      (ImageCombiner.constrainImageToCanvas t b) := by
  unfold ImageCombiner.constrainImageToCanvas
  rw [hf]
  split_ifs
  · exact h
  · exact ensureMinHeight_sameRect (ensureMinWidth_sameRect
      (clampBottom_sameRect hc (clampRight_sameRect hc
        (clampTop_sameRect (clampLeft_sameRect h)))))

theorem sameRect_rectOf {a b : ResizableImage} (h : SameRect a b) : rectOf a = rectOf b := by
  obtain ⟨hx, hy, hw, hh, -, -⟩ := h
  simp [rectOf, hx, hy, hw, hh]

theorem resizeTarget_congr (init a b : ResizableImage) (handleType : HandleType) (dx dy : ℚ)
    (h : SameAttrs a b) :
    ImageCombiner.resizeTarget init a handleType dx dy
      = ImageCombiner.resizeTarget init b handleType dx dy := by
  unfold ImageCombiner.resizeTarget
  rw [h.1, h.2.1]

theorem resizeElement_attrs (c : ImageCombiner) (init image : ResizableImage)
    (handleType : HandleType) (dx dy : ℚ) :
    SameAttrs (ImageCombiner.resizeElement c init image handleType dx dy) image := by
  unfold ImageCombiner.resizeElement
  simp only
  split_ifs
  · exact (constrainImageToCanvas_attrs c _).trans ⟨rfl, rfl, rfl, rfl⟩
  · exact ⟨rfl, rfl, rfl, rfl⟩
  · exact ⟨rfl, rfl, rfl, rfl⟩

/-- An accepted resize step leaves a rectangle that does not depend on the
rectangle the element had before the step. -/
theorem resizeElement_sameRect (c t : ImageCombiner) (init img b : ResizableImage)
    (handleType : HandleType) (dx dy : ℚ)
    (hc : c.canvas = t.canvas) (hf : c.isResizingCanvas = t.isResizingCanvas)
    (hattrs : SameAttrs b img)
    (hacc : ImageCombiner.resizeAccepted
      (ImageCombiner.resizeTarget init img handleType dx dy) = true) :
    SameRect (ImageCombiner.resizeElement t init b handleType dx dy)
      (ImageCombiner.resizeElement c init img handleType dx dy) := by
  have htarget := resizeTarget_congr init b img handleType dx dy hattrs
  unfold ImageCombiner.resizeElement
  simp only [htarget, hacc, if_true]
  rw [← hf]
  have hin : SameRect
      { b with x := (ImageCombiner.resizeTarget init img handleType dx dy).1,
               y := (ImageCombiner.resizeTarget init img handleType dx dy).2.1,
               width := (ImageCombiner.resizeTarget init img handleType dx dy).2.2.1,
               height := (ImageCombiner.resizeTarget init img handleType dx dy).2.2.2 }
      { img with x := (ImageCombiner.resizeTarget init img handleType dx dy).1,
                 y := (ImageCombiner.resizeTarget init img handleType dx dy).2.1,
                 width := (ImageCombiner.resizeTarget init img handleType dx dy).2.2.1,
                 height := (ImageCombiner.resizeTarget init img handleType dx dy).2.2.2 } :=
    ⟨rfl, rfl, rfl, rfl, hattrs.2.2.1, hattrs.2.2.2⟩
  split_ifs
  · exact constrainImageToCanvas_sameRect hc.symm hf.symm hin
  · exact hin

/-- Below the movement threshold `handleMouseMove` changes nothing. -/
theorem handleMouseMove_below (c : ImageCombiner) (e : MouseEvent)
    (hbelow : ¬ reachesThreshold c e) :
    ImageCombiner.handleMouseMove c e = some c := by
  unfold reachesThreshold at hbelow
  unfold ImageCombiner.handleMouseMove
  cases hd : c.isDragging with
  | false => simp
  | true =>
    simp only [Bool.not_true, Bool.false_eq_true, if_false]
    rw [if_pos (not_not.mp hbelow)]

/-- In a resize gesture a pointer-move that reaches the threshold runs
`resizeWithHandle` with the cumulative delta. -/
theorem handleMouseMove_resize (c : ImageCombiner) (handleInfo : HandleInfo) (e : MouseEvent)
    (hdrag : c.isDragging = true) (hflag : c.isResizingCanvas = false)
    (hsel : c.selectedHandle = some handleInfo) (hmoved : reachesThreshold c e) :
    ImageCombiner.handleMouseMove c e
      = ImageCombiner.resizeWithHandle c handleInfo
          (e.pos.x - c.dragStartPos.x) (e.pos.y - c.dragStartPos.y) := by
  unfold reachesThreshold at hmoved
  unfold ImageCombiner.handleMouseMove
  simp only [hdrag, Bool.not_true, Bool.false_eq_true, if_false, hflag, hsel]
  rw [if_neg hmoved]

/-- In a move gesture a pointer-move that reaches the threshold runs `moveImage`
with the cumulative delta. -/
theorem handleMouseMove_move (c : ImageCombiner) (i : Nat) (e : MouseEvent)
    (hdrag : c.isDragging = true) (hflag : c.isResizingCanvas = false)
    (hsel : c.selectedHandle = none) (himage : c.selectedImage = some i)
    (hmoved : reachesThreshold c e) :
    ImageCombiner.handleMouseMove c e
      = ImageCombiner.moveImage c i
          (e.pos.x - c.dragStartPos.x) (e.pos.y - c.dragStartPos.y) := by
  unfold reachesThreshold at hmoved
  unfold ImageCombiner.handleMouseMove
  simp only [hdrag, Bool.not_true, Bool.false_eq_true, if_false, hflag, hsel, himage]
  rw [if_neg hmoved]

theorem resize_gesture_step (c : ImageCombiner) (init img : ResizableImage)
    (handleInfo : HandleInfo) (hdrag : c.isDragging = true)
    (hflag : c.isResizingCanvas = false) (hsel : c.selectedHandle = some handleInfo)
    (hinit : c.initialImageState = some init)
    (l : List ResizableImage) (b : ResizableImage) (hb : l.get? handleInfo.image = some b)
    (hattrs : SameAttrs b img) (e : MouseEvent) :
    ∃ (l' : List ResizableImage) (b' : ResizableImage),
      ImageCombiner.stateAfter { c with images := l }
          (ImageCombiner.handleMouseMove { c with images := l } e)
        = { c with images := l' }
        ∧ l'.get? handleInfo.image = some b' ∧ SameAttrs b' img := by
  by_cases hmoved : reachesThreshold { c with images := l } e
  swap
  · rw [handleMouseMove_below _ e hmoved]
    exact ⟨l, b, rfl, hb, hattrs⟩
  · rw [handleMouseMove_resize { c with images := l } handleInfo e hdrag hflag hsel hmoved]
    obtain ⟨heq, hget⟩ := resizeWithHandle_eq { c with images := l } init b handleInfo
      (e.pos.x - c.dragStartPos.x) (e.pos.y - c.dragStartPos.y) hinit hb
    rw [heq]
    exact ⟨_, _, rfl, hget, (resizeElement_attrs _ _ _ _ _ _).trans hattrs⟩

theorem resize_gesture_run (c : ImageCombiner) (init img : ResizableImage)
    (handleInfo : HandleInfo) (hdrag : c.isDragging = true)
    (hflag : c.isResizingCanvas = false) (hsel : c.selectedHandle = some handleInfo)
    (hinit : c.initialImageState = some init) :
    ∀ (mid : List MouseEvent) (l : List ResizableImage) (b : ResizableImage),
      l.get? handleInfo.image = some b → SameAttrs b img →
      ∃ (l' : List ResizableImage) (b' : ResizableImage),
        ImageCombiner.runMouseMoves { c with images := l } mid = { c with images := l' }
          ∧ l'.get? handleInfo.image = some b' ∧ SameAttrs b' img
  | [], l, b, hb, hattrs => ⟨l, b, rfl, hb, hattrs⟩
  | e :: mid, l, b, hb, hattrs => by
    obtain ⟨l1, b1, hstep, hb1, hattrs1⟩ :=
      resize_gesture_step c init img handleInfo hdrag hflag hsel hinit l b hb hattrs e
    obtain ⟨l2, b2, hrun, hb2, hattrs2⟩ :=
      resize_gesture_run c init img handleInfo hdrag hflag hsel hinit mid l1 b1 hb1 hattrs1
    refine ⟨l2, b2, ?_, hb2, hattrs2⟩
    simp only [ImageCombiner.runMouseMoves, List.foldl_cons] at hrun ⊢
    rw [hstep]
    exact hrun

theorem move_gesture_element (c : ImageCombiner) (init img b : ResizableImage) (dx dy : ℚ)
    (hflag : c.isResizingCanvas = false) (hattrs : SameAttrs b img)
    (hwidth : b.width = img.width) (hheight : b.height = img.height)
    (hw : img.minWidth ≤ img.width) (hh : img.minHeight ≤ img.height) :
    SameAttrs
        (ImageCombiner.constrainImageToCanvas c { b with x := init.x + dx, y := init.y + dy })
        img
      ∧ (ImageCombiner.constrainImageToCanvas c
          { b with x := init.x + dx, y := init.y + dy }).width = img.width
      ∧ (ImageCombiner.constrainImageToCanvas c
          { b with x := init.x + dx, y := init.y + dy }).height = img.height
      ∧ SameRect
          (ImageCombiner.constrainImageToCanvas c
            { b with x := init.x + dx, y := init.y + dy })
          (ImageCombiner.constrainImageToCanvas c
            { img with x := init.x + dx, y := init.y + dy }) := by
  have _ := hflag
  obtain ⟨e1, e2, -⟩ := constrainImageToCanvas_size c
    { b with x := init.x + dx, y := init.y + dy }
    (by show b.minWidth ≤ b.width; rw [hattrs.2.2.1, hwidth]; exact hw)
    (by show b.minHeight ≤ b.height; rw [hattrs.2.2.2, hheight]; exact hh)
  refine ⟨(constrainImageToCanvas_attrs c _).trans ⟨hattrs.1, hattrs.2.1, hattrs.2.2.1,
    hattrs.2.2.2⟩, e1.trans hwidth, e2.trans hheight, ?_⟩
  exact constrainImageToCanvas_sameRect rfl rfl
    ⟨rfl, rfl, hwidth, hheight, hattrs.2.2.1, hattrs.2.2.2⟩

theorem move_gesture_step (c : ImageCombiner) (init img : ResizableImage) (i : Nat)
    (hdrag : c.isDragging = true) (hflag : c.isResizingCanvas = false)
    (hsel : c.selectedHandle = none) (himage : c.selectedImage = some i)
    (hinit : c.initialImageState = some init)
    (hw : img.minWidth ≤ img.width) (hh : img.minHeight ≤ img.height)
    (l : List ResizableImage) (b : ResizableImage) (hb : l.get? i = some b)
    (hattrs : SameAttrs b img) (hwidth : b.width = img.width) (hheight : b.height = img.height)
    (e : MouseEvent) :
    ∃ (l' : List ResizableImage) (b' : ResizableImage),
      ImageCombiner.stateAfter { c with images := l }
          (ImageCombiner.handleMouseMove { c with images := l } e)
        = { c with images := l' }
        ∧ l'.get? i = some b' ∧ SameAttrs b' img
        ∧ b'.width = img.width ∧ b'.height = img.height := by
  by_cases hmoved : reachesThreshold { c with images := l } e
  swap
  · rw [handleMouseMove_below _ e hmoved]
    exact ⟨l, b, rfl, hb, hattrs, hwidth, hheight⟩
  · rw [handleMouseMove_move { c with images := l } i e hdrag hflag hsel himage hmoved]
    obtain ⟨heq, hget⟩ := moveImage_eq { c with images := l } init b i
      (e.pos.x - c.dragStartPos.x) (e.pos.y - c.dragStartPos.y) hinit hb
    rw [heq]
    have hnot : (!({ c with images := l } : ImageCombiner).isResizingCanvas) = true := by
      show (!c.isResizingCanvas) = true
      rw [hflag]
      rfl
    rw [if_pos hnot] at hget ⊢
    obtain ⟨h1, h2, h3, -⟩ := move_gesture_element { c with images := l } init img b
      (e.pos.x - c.dragStartPos.x) (e.pos.y - c.dragStartPos.y) hflag hattrs hwidth hheight
      hw hh
    exact ⟨_, _, rfl, hget, h1, h2, h3⟩

theorem move_gesture_run (c : ImageCombiner) (init img : ResizableImage) (i : Nat)
    (hdrag : c.isDragging = true) (hflag : c.isResizingCanvas = false)
    (hsel : c.selectedHandle = none) (himage : c.selectedImage = some i)
    (hinit : c.initialImageState = some init)
    (hw : img.minWidth ≤ img.width) (hh : img.minHeight ≤ img.height) :
    ∀ (mid : List MouseEvent) (l : List ResizableImage) (b : ResizableImage),
      l.get? i = some b → SameAttrs b img → b.width = img.width → b.height = img.height →
      ∃ (l' : List ResizableImage) (b' : ResizableImage),
        ImageCombiner.runMouseMoves { c with images := l } mid = { c with images := l' }
          ∧ l'.get? i = some b' ∧ SameAttrs b' img
          ∧ b'.width = img.width ∧ b'.height = img.height
  | [], l, b, hb, hattrs, hwidth, hheight => ⟨l, b, rfl, hb, hattrs, hwidth, hheight⟩
  | e :: mid, l, b, hb, hattrs, hwidth, hheight => by
    obtain ⟨l1, b1, hstep, hb1, hattrs1, hwidth1, hheight1⟩ :=
      move_gesture_step c init img i hdrag hflag hsel himage hinit hw hh l b hb hattrs
        hwidth hheight e
    obtain ⟨l2, b2, hrun, hb2, hattrs2, hwidth2, hheight2⟩ :=
      move_gesture_run c init img i hdrag hflag hsel himage hinit hw hh mid l1 b1 hb1
        hattrs1 hwidth1 hheight1
    refine ⟨l2, b2, ?_, hb2, hattrs2, hwidth2, hheight2⟩
    simp only [ImageCombiner.runMouseMoves, List.foldl_cons] at hrun ⊢
    rw [hstep]
    exact hrun

theorem SameRect.trans_rect {a b d : ResizableImage} (h1 : SameRect a b) (h2 : SameRect b d) :
    SameRect a d :=
  ⟨h1.1.trans h2.1, h1.2.1.trans h2.2.1, h1.2.2.1.trans h2.2.2.1,
    h1.2.2.2.1.trans h2.2.2.2.1, h1.2.2.2.2.1.trans h2.2.2.2.2.1,
    h1.2.2.2.2.2.trans h2.2.2.2.2.2⟩

/-- C16, amended. During an element resize or element move gesture (a drag with
a recorded snapshot and no viewport resize flagged), a pointer-move whose
cumulative delta reaches the movement threshold, and, for a resize, whose
computed size is accepted (for a move, on an element not below its minimum
size), leaves element `i` with a rectangle that does not depend on the
intermediate pointer-moves `mid`: it is the rectangle the same pointer-move
leaves when it comes first, `resizeElement` respectively the clamped translation
of the element as it was at pointer-down. A pointer-move below the threshold
changes nothing, so it leaves the rectangle of the step before it. -/
theorem pointerMove_no_drift_amended (c : ImageCombiner) (init img : ResizableImage)
    (i : Nat) (mid : List MouseEvent) (e : MouseEvent)
    (hdrag : c.isDragging = true) (hflag : c.isResizingCanvas = false)
    (hinit : c.initialImageState = some init) (himg : c.images.get? i = some img)
    (hmoved : reachesThreshold c e) :
    (∀ handleInfo : HandleInfo, c.selectedHandle = some handleInfo → handleInfo.image = i →
        ImageCombiner.resizeAccepted
          (ImageCombiner.resizeTarget init img handleInfo.type
            (e.pos.x - c.dragStartPos.x) (e.pos.y - c.dragStartPos.y)) = true →
        ∃ r r' : ResizableImage,
          (ImageCombiner.stateAfter (ImageCombiner.runMouseMoves c mid)
              (ImageCombiner.handleMouseMove (ImageCombiner.runMouseMoves c mid) e)).images.get? i
            = some r
          ∧ (ImageCombiner.stateAfter c (ImageCombiner.handleMouseMove c e)).images.get? i
            = some r'
          ∧ rectOf r = rectOf r'
          ∧ r' = ImageCombiner.resizeElement c init img handleInfo.type
              (e.pos.x - c.dragStartPos.x) (e.pos.y - c.dragStartPos.y))
      ∧ (c.selectedHandle = none → c.selectedImage = some i →
          img.minWidth ≤ img.width → img.minHeight ≤ img.height →
          ∃ r r' : ResizableImage,
            (ImageCombiner.stateAfter (ImageCombiner.runMouseMoves c mid)
                (ImageCombiner.handleMouseMove (ImageCombiner.runMouseMoves c mid) e)).images.get?
                i
              = some r
            ∧ (ImageCombiner.stateAfter c (ImageCombiner.handleMouseMove c e)).images.get? i
              = some r'
            ∧ rectOf r = rectOf r'
            ∧ r' = ImageCombiner.constrainImageToCanvas c
                { img with x := init.x + (e.pos.x - c.dragStartPos.x),
                           y := init.y + (e.pos.y - c.dragStartPos.y) })
      ∧ (∀ (t : ImageCombiner) (e' : MouseEvent), ¬ reachesThreshold t e' →
          ImageCombiner.handleMouseMove t e' = some t) := by
  refine ⟨?_, ?_, fun t e' h => handleMouseMove_below t e' h⟩
  · intro handleInfo hsel hidx hacc
    subst hidx
    obtain ⟨l', b', hrun, hb', hattrs'⟩ := resize_gesture_run c init img handleInfo hdrag hflag
      hsel hinit mid c.images img himg ⟨rfl, rfl, rfl, rfl⟩
    have hrun' : ImageCombiner.runMouseMoves c mid = { c with images := l' } := hrun
    rw [hrun']
    rw [handleMouseMove_resize { c with images := l' } handleInfo e hdrag hflag hsel hmoved,
      handleMouseMove_resize c handleInfo e hdrag hflag hsel hmoved]
    obtain ⟨heq1, hget1⟩ := resizeWithHandle_eq { c with images := l' } init b' handleInfo
      (e.pos.x - c.dragStartPos.x) (e.pos.y - c.dragStartPos.y) hinit hb'
    obtain ⟨heq2, hget2⟩ := resizeWithHandle_eq c init img handleInfo
      (e.pos.x - c.dragStartPos.x) (e.pos.y - c.dragStartPos.y) hinit himg
    rw [heq1, heq2]
    refine ⟨_, _, hget1, hget2, ?_, rfl⟩
    exact sameRect_rectOf (resizeElement_sameRect c { c with images := l' } init img b'
      handleInfo.type _ _ rfl rfl hattrs' hacc)
  · intro hsel himage hw hh
    obtain ⟨l', b', hrun, hb', hattrs', hwidth', hheight'⟩ := move_gesture_run c init img i
      hdrag hflag hsel himage hinit hw hh mid c.images img himg ⟨rfl, rfl, rfl, rfl⟩ rfl rfl
    have hrun' : ImageCombiner.runMouseMoves c mid = { c with images := l' } := hrun
    rw [hrun']
    rw [handleMouseMove_move { c with images := l' } i e hdrag hflag hsel himage hmoved,
      handleMouseMove_move c i e hdrag hflag hsel himage hmoved]
    obtain ⟨heq1, hget1⟩ := moveImage_eq { c with images := l' } init b' i
      (e.pos.x - c.dragStartPos.x) (e.pos.y - c.dragStartPos.y) hinit hb'
    obtain ⟨heq2, hget2⟩ := moveImage_eq c init img i
      (e.pos.x - c.dragStartPos.x) (e.pos.y - c.dragStartPos.y) hinit himg
    rw [heq1, heq2]
    have hnot1 : (!({ c with images := l' } : ImageCombiner).isResizingCanvas) = true := by
      show (!c.isResizingCanvas) = true
      rw [hflag]
      rfl
    have hnot2 : (!c.isResizingCanvas) = true := by
      rw [hflag]
      rfl
    rw [if_pos hnot1] at hget1 ⊢
    rw [if_pos hnot2] at hget2 ⊢
    refine ⟨_, _, hget1, hget2, ?_, rfl⟩
    obtain ⟨-, -, -, hrect⟩ := move_gesture_element { c with images := l' } init img b'
      (e.pos.x - c.dragStartPos.x) (e.pos.y - c.dragStartPos.y) hflag hattrs' hwidth' hheight'
      hw hh
    exact sameRect_rectOf
      (hrect.trans_rect (constrainImageToCanvas_sameRect rfl rfl ⟨rfl, rfl, rfl, rfl, rfl, rfl⟩))

theorem handleMouseDown_boundScene :
    ImageCombiner.handleMouseDown Examples.boundScene Examples.downOnSe = Examples.resizing := by
  have hcanvas : inCanvasHotspot Examples.boundScene Examples.downOnSe.pos = false := by
    simp only [inCanvasHotspot, ImageCombiner.getCanvasResizeHandles, Examples.boundScene,
      Examples.constructed, Examples.downOnSe, List.any_cons, List.any_nil,
      ImageCombiner.canvasHandleHit]
    norm_num
  have hentry : Examples.boundLeft.getHandleAtPoint Examples.downOnSe.pos.x
      Examples.downOnSe.pos.y = some (.se, Examples.boundLeft.handles.se) := by
    simp only [ResizableImage.getHandleAtPoint, ResizableImage.handleEntries,
      Examples.boundLeft, ResizableImage.new, ResizableImage.createHandlesAt,
      Examples.downOnSe, ResizableImage.handleHit, List.find?_cons]
    norm_num
  have hfind : ImageCombiner.findHandleHit Examples.downOnSe.pos.x Examples.downOnSe.pos.y
      Examples.boundScene.images 0
      = some (0, Examples.boundLeft, .se, Examples.boundLeft.handles.se) := by
    simp only [Examples.boundScene, ImageCombiner.findHandleHit, hentry]
  have hb : ¬ Examples.downOnSe.button ≠ 0 := by decide
  simp only [ImageCombiner.handleMouseDown, hb, if_false,
    getCanvasHandleAtPoint_of_miss _ _ hcanvas, hfind]
  rfl

theorem moveNear_accepted :
    ImageCombiner.resizeAccepted
      (ImageCombiner.resizeTarget Examples.boundLeft Examples.boundLeft Examples.seInfo.type
        (Examples.moveNear.pos.x - Examples.resizing.dragStartPos.x)
        (Examples.moveNear.pos.y - Examples.resizing.dragStartPos.y)) = true
      ∧ (ImageCombiner.resizeTarget Examples.boundLeft Examples.boundLeft Examples.seInfo.type
          (Examples.moveNear.pos.x - Examples.resizing.dragStartPos.x)
          (Examples.moveNear.pos.y - Examples.resizing.dragStartPos.y)).2.2.1 = 615 := by
  simp only [ImageCombiner.resizeAccepted, ImageCombiner.resizeTarget, Examples.seInfo,
    Examples.boundLeft, ResizableImage.new, Examples.moveNear, Examples.resizing,
    reduceCtorEq, or_true, true_or, Option.isSome_some, and_self, if_true, if_false, or_false]
  norm_num

theorem moveFar_rejected :
    ImageCombiner.resizeAccepted
      (ImageCombiner.resizeTarget Examples.boundLeft Examples.boundLeft Examples.seInfo.type
        (Examples.moveFar.pos.x - Examples.resizing.dragStartPos.x)
        (Examples.moveFar.pos.y - Examples.resizing.dragStartPos.y)) = false := by
  simp only [ImageCombiner.resizeAccepted, ImageCombiner.resizeTarget, Examples.seInfo,
    Examples.boundLeft, ResizableImage.new, Examples.moveFar, Examples.resizing,
    reduceCtorEq, or_true, true_or, Option.isSome_some, and_self, if_true, if_false, or_false]
  norm_num

theorem moves_reach_threshold :
    reachesThreshold Examples.resizing Examples.moveNear
      ∧ reachesThreshold Examples.resizing Examples.moveFar := by
  constructor <;>
    simp only [reachesThreshold, Examples.resizing, Examples.constructed, Examples.moveNear,
      Examples.moveFar, Bool.false_eq_true, if_false] <;>
    norm_num

theorem handleMouseMove_near :
    ImageCombiner.handleMouseMove Examples.resizing Examples.moveNear
        = some Examples.resizingNear
      ∧ Examples.resizingNear.images.get? 0 = some Examples.nearLeft
      ∧ Examples.nearLeft.width = 615 := by
  obtain ⟨hnear, hnearGet⟩ := resizeWithHandle_eq Examples.resizing Examples.boundLeft
    Examples.boundLeft Examples.seInfo
    (Examples.moveNear.pos.x - Examples.resizing.dragStartPos.x)
    (Examples.moveNear.pos.y - Examples.resizing.dragStartPos.y) rfl rfl
  obtain ⟨hw, -⟩ := resizeElement_accepted Examples.resizing Examples.boundLeft
    Examples.boundLeft Examples.seInfo.type
    (Examples.moveNear.pos.x - Examples.resizing.dragStartPos.x)
    (Examples.moveNear.pos.y - Examples.resizing.dragStartPos.y) rfl rfl moveNear_accepted.1
  rw [moveNear_accepted.2] at hw
  refine ⟨?_, hnearGet, hw⟩
  rw [handleMouseMove_resize Examples.resizing Examples.seInfo Examples.moveNear rfl rfl rfl
    moves_reach_threshold.1]
  exact hnear

theorem handleMouseMove_far :
    ImageCombiner.handleMouseMove Examples.resizing Examples.moveFar = some Examples.resizing
      ∧ ImageCombiner.handleMouseMove Examples.resizingNear Examples.moveFar
        = some Examples.resizingNear := by
  constructor
  · rw [handleMouseMove_resize Examples.resizing Examples.seInfo Examples.moveFar rfl rfl rfl
      moves_reach_threshold.2]
    obtain ⟨heq, -⟩ := resizeWithHandle_eq Examples.resizing Examples.boundLeft
      Examples.boundLeft Examples.seInfo
      (Examples.moveFar.pos.x - Examples.resizing.dragStartPos.x)
      (Examples.moveFar.pos.y - Examples.resizing.dragStartPos.y) rfl rfl
    rw [heq, resizeElement_rejected _ _ _ _ _ _ moveFar_rejected]
    rfl
  · have hattrs : SameAttrs Examples.nearLeft Examples.boundLeft :=
      resizeElement_attrs Examples.resizing Examples.boundLeft Examples.boundLeft
        Examples.seInfo.type _ _
    have hrej : ImageCombiner.resizeAccepted
        (ImageCombiner.resizeTarget Examples.boundLeft Examples.nearLeft Examples.seInfo.type
          (Examples.moveFar.pos.x - Examples.resizingNear.dragStartPos.x)
          (Examples.moveFar.pos.y - Examples.resizingNear.dragStartPos.y)) = false := by
      rw [resizeTarget_congr _ _ _ _ _ _ hattrs]
      exact moveFar_rejected
    rw [handleMouseMove_resize Examples.resizingNear Examples.seInfo Examples.moveFar rfl rfl
      rfl moves_reach_threshold.2]
    obtain ⟨heq, -⟩ := resizeWithHandle_eq Examples.resizingNear Examples.boundLeft
      Examples.nearLeft Examples.seInfo
      (Examples.moveFar.pos.x - Examples.resizingNear.dragStartPos.x)
      (Examples.moveFar.pos.y - Examples.resizingNear.dragStartPos.y) rfl
      handleMouseMove_near.2.1
    have hset : Examples.resizingNear.images.set Examples.seInfo.image Examples.nearLeft
        = Examples.resizingNear.images :=
      set_eq_self_of_get? _ _ _ handleMouseMove_near.2.1
    rw [heq, resizeElement_rejected _ _ _ _ _ _ hrej, hset]

/-- C16, refuted as stated. After the pointer-down `Examples.downOnSe` on the
south-east handle of the 715-wide left element, the pointer-moves to
`(615, 2075/4)` and then to `(15, 2075/4)` leave the element 615 wide, and the
single pointer-move to `(15, 2075/4)` leaves it 715 wide: the step to
`(15, 2075/4)` computes a width of 15 and is rejected, so the rectangle of the
step before it stays. Both sequences end at the same pointer position. -/
theorem pointerMove_depends_on_path :
    ∃ a b : ResizableImage,
      (ImageCombiner.runMouseMoves
          (ImageCombiner.handleMouseDown Examples.boundScene Examples.downOnSe)
          [Examples.moveNear, Examples.moveFar]).images.get? 0 = some a
        ∧ (ImageCombiner.runMouseMoves
            (ImageCombiner.handleMouseDown Examples.boundScene Examples.downOnSe)
            [Examples.moveFar]).images.get? 0 = some b
        ∧ a.width = 615 ∧ b.width = 715 ∧ rectOf a ≠ rectOf b := by
  rw [handleMouseDown_boundScene]
  refine ⟨Examples.nearLeft, Examples.boundLeft, ?_, ?_, handleMouseMove_near.2.2, rfl, ?_⟩
  · simp only [ImageCombiner.runMouseMoves, List.foldl_cons, List.foldl_nil,
      handleMouseMove_near.1, ImageCombiner.stateAfter, Option.getD_some,
      handleMouseMove_far.2]
    exact handleMouseMove_near.2.1
  · simp only [ImageCombiner.runMouseMoves, List.foldl_cons, List.foldl_nil,
      handleMouseMove_far.1, ImageCombiner.stateAfter, Option.getD_some]
    rfl
  · intro hrect
    have hwidth : Examples.nearLeft.width = Examples.boundLeft.width := by
      have := congrArg (fun t : ℚ × ℚ × ℚ × ℚ => t.2.2.1) hrect
      simpa [rectOf] using this
    rw [handleMouseMove_near.2.2] at hwidth
    norm_num [Examples.boundLeft, ResizableImage.new] at hwidth

/-- Witness of C16, amended: in the resize gesture of `Examples.resizing` the
accepted pointer-move to `(615, 2075/4)` leaves the same rectangle after the
intermediate pointer-move to `(15, 2075/4)` as when it comes first. -/
theorem pointerMove_no_drift_amended_witness :
    ∃ r r' : ResizableImage,
      (ImageCombiner.stateAfter
          (ImageCombiner.runMouseMoves Examples.resizing [Examples.moveFar])
          (ImageCombiner.handleMouseMove
            (ImageCombiner.runMouseMoves Examples.resizing [Examples.moveFar])
            Examples.moveNear)).images.get? 0 = some r
        ∧ (ImageCombiner.stateAfter Examples.resizing
            (ImageCombiner.handleMouseMove Examples.resizing Examples.moveNear)).images.get? 0
          = some r'
        ∧ rectOf r = rectOf r'
        ∧ r' = ImageCombiner.resizeElement Examples.resizing Examples.boundLeft
            Examples.boundLeft Examples.seInfo.type
            (Examples.moveNear.pos.x - Examples.resizing.dragStartPos.x)
            (Examples.moveNear.pos.y - Examples.resizing.dragStartPos.y) :=
  (pointerMove_no_drift_amended Examples.resizing Examples.boundLeft Examples.boundLeft 0
    [Examples.moveFar] Examples.moveNear rfl rfl rfl rfl moves_reach_threshold.1).1
    Examples.seInfo rfl rfl moveNear_accepted.1

/-! ### Report form: measurement input -/

theorem replaceFirst_all (p : Char → Bool) (search replacement : Char)
    (hrep : p replacement = true) :
    ∀ value : List Char, value.all p = true →
      (BefundGenerator.replaceFirst value search replacement).all p = true
  | [], _ => by simp [BefundGenerator.replaceFirst]
  | ch :: rest, h => by
    simp only [List.all_cons, Bool.and_eq_true] at h
    unfold BefundGenerator.replaceFirst
    split_ifs
    · simp only [List.all_cons, Bool.and_eq_true]
      exact ⟨hrep, h.2⟩
    · simp only [List.all_cons, Bool.and_eq_true]
      exact ⟨h.1, replaceFirst_all p search replacement hrep rest h.2⟩

theorem substring_all (p : Char → Bool) (value : List Char) (start stop : Int)
    (h : value.all p = true) : (BefundGenerator.substring value start stop).all p = true := by
  simp only [List.all_eq_true] at h ⊢
  intro ch hch
  exact h ch (List.mem_of_mem_take (List.mem_of_mem_drop hch))

/-- What `handleMeasurementInput` writes back holds only digits, commas and
dots, whatever the input. -/
theorem handleMeasurementInput_allowed (value : String) :
    (BefundGenerator.handleMeasurementInput value).data.all BefundGenerator.isAllowedChar
      = true := by
  have h0 : (value.data.filter BefundGenerator.isAllowedChar).all BefundGenerator.isAllowedChar
      = true := by
    simp [List.all_eq_true]
  have h1 : (if (value.data.filter BefundGenerator.isAllowedChar).contains '.'
        && !(value.data.filter BefundGenerator.isAllowedChar).contains ','
      then BefundGenerator.replaceFirst (value.data.filter BefundGenerator.isAllowedChar) '.' ','
      else value.data.filter BefundGenerator.isAllowedChar).all BefundGenerator.isAllowedChar
      = true := by
    split_ifs
    · exact replaceFirst_all _ _ _ (by decide) _ h0
    · exact h0
  have h2 : ∀ v : List Char, v.all BefundGenerator.isAllowedChar = true →
      (if BefundGenerator.countOf v ',' > 1 then
          BefundGenerator.substring v 0 (BefundGenerator.lastIndexOf v ',')
        else v).all BefundGenerator.isAllowedChar = true := by
    intro v hv
    split_ifs
    · exact substring_all _ _ _ _ hv
    · exact hv
  exact h2 _ h1

theorem countOf_append_singleton (l : List Char) (a ch : Char) :
    BefundGenerator.countOf (l ++ [a]) ch
      = BefundGenerator.countOf l ch + (if a = ch then 1 else 0) := by
  unfold BefundGenerator.countOf
  rw [List.filter_append, List.length_append]
  by_cases h : a = ch
  · simp [h]
  · simp [h]

/-- What the fold of `lastIndexOf` has computed after a prefix `l`: the length of
the prefix and the last index of `ch` in it, before which all but one of the
occurrences of `ch` lie. -/
theorem lastIndexOf_fold (ch : Char) (l : List Char) :
    (l.foldl (fun (acc : Int × Int) c => (if c = ch then acc.2 else acc.1, acc.2 + 1))
        ((-1 : Int), (0 : Int))).2 = (l.length : Int)
      ∧ (l.foldl (fun (acc : Int × Int) c => (if c = ch then acc.2 else acc.1, acc.2 + 1))
          ((-1 : Int), (0 : Int))).1 < (l.length : Int)
      ∧ (0 < BefundGenerator.countOf l ch →
          0 ≤ (l.foldl (fun (acc : Int × Int) c => (if c = ch then acc.2 else acc.1, acc.2 + 1))
              ((-1 : Int), (0 : Int))).1
            ∧ BefundGenerator.countOf
                (l.take (l.foldl
                  (fun (acc : Int × Int) c => (if c = ch then acc.2 else acc.1, acc.2 + 1))
                  ((-1 : Int), (0 : Int))).1.toNat) ch
              = BefundGenerator.countOf l ch - 1) := by
  induction l using List.reverseRecOn with
  | nil =>
    refine ⟨rfl, ?_, fun h => ?_⟩
    · simp
    · simp [BefundGenerator.countOf] at h
  | append_singleton l a ih =>
    obtain ⟨h2, hlt, hpos⟩ := ih
    have hlen : (((l ++ [a]).length : Nat) : Int) = (l.length : Int) + 1 := by simp
    rw [List.foldl_append, List.foldl_cons, List.foldl_nil, countOf_append_singleton, hlen]
    simp only [h2]
    by_cases ha : a = ch
    · simp only [ha, if_true]
      refine ⟨trivial, by omega, fun _ => ⟨by omega, ?_⟩⟩
      rw [Int.toNat_ofNat, List.take_left']
      · omega
      · rfl
    · simp only [ha, if_false, add_zero]
      refine ⟨trivial, by omega, fun hc => ?_⟩
      obtain ⟨h0, hcount⟩ := hpos hc
      refine ⟨h0, ?_⟩
      rw [List.take_append_of_le_length (by omega)]
      exact hcount

theorem countOf_filter_allowed (value : List Char) :
    BefundGenerator.countOf (value.filter BefundGenerator.isAllowedChar) ','
      = BefundGenerator.countOf value ',' := by
  unfold BefundGenerator.countOf
  rw [List.filter_filter]
  congr 1
  apply List.filter_congr
  intro c _
  by_cases h : c = ','
  · subst h
    decide
  · simp [h]

/-- With two or more commas in the input, `handleMeasurementInput` writes back a
string with one comma fewer: it cuts at the last comma. -/
theorem handleMeasurementInput_drops_one_comma (value : String)
    (h : 2 ≤ BefundGenerator.countOf value.data ',') :
    BefundGenerator.countOf (BefundGenerator.handleMeasurementInput value).data ','
      = BefundGenerator.countOf value.data ',' - 1 := by
  have hk := countOf_filter_allowed value.data
  have hcontains : (value.data.filter BefundGenerator.isAllowedChar).contains ',' = true := by
    rw [List.contains_iff_exists_mem_beq]
    have hpos : 0 < ((value.data.filter BefundGenerator.isAllowedChar).filter
        (· == ',')).length := by
      have := hk
      unfold BefundGenerator.countOf at this h
      omega
    obtain ⟨c, hc⟩ := List.exists_mem_of_length_pos hpos
    rw [List.mem_filter] at hc
    have hceq : c = ',' := beq_iff_eq.mp hc.2
    exact ⟨c, hc.1, by rw [hceq]; decide⟩
  obtain ⟨-, -, hpos⟩ := lastIndexOf_fold ',' (value.data.filter BefundGenerator.isAllowedChar)
  obtain ⟨-, hcount⟩ := hpos (by omega)
  have hcond : ((value.data.filter BefundGenerator.isAllowedChar).contains '.'
      && !(value.data.filter BefundGenerator.isAllowedChar).contains ',') = false := by
    rw [hcontains]
    cases (value.data.filter BefundGenerator.isAllowedChar).contains '.' <;> rfl
  have hresult : (BefundGenerator.handleMeasurementInput value).data
      = (value.data.filter BefundGenerator.isAllowedChar).take
          (BefundGenerator.lastIndexOf
            (value.data.filter BefundGenerator.isAllowedChar) ',').toNat := by
    unfold BefundGenerator.handleMeasurementInput
    dsimp only
    rw [hcond, if_neg Bool.false_ne_true, if_pos (by omega)]
    unfold BefundGenerator.substring
    rw [Int.toNat_zero, List.drop_zero]
  rw [hresult]
  unfold BefundGenerator.lastIndexOf
  rw [hcount, hk]

/-- C26, a defect of the code. The input `1,2,3,4` comes back as `1,2,3`, which
holds two commas: with more than one comma the method cuts the string at the
last comma, which removes one comma, not all but one
(`handleMeasurementInput_drops_one_comma`). The other half of the claim holds:
what is written back holds only digits, commas and dots
(`handleMeasurementInput_allowed`). -/
theorem handleMeasurementInput_leaves_two_commas :
    BefundGenerator.handleMeasurementInput "1,2,3,4" = "1,2,3"
      ∧ BefundGenerator.countOf (BefundGenerator.handleMeasurementInput "1,2,3,4").data ',' = 2
      ∧ ¬ BefundGenerator.countOf
            (BefundGenerator.handleMeasurementInput "1,2,3,4").data ',' ≤ 1
      ∧ (BefundGenerator.handleMeasurementInput "1,2,3,4").data.all
            BefundGenerator.isAllowedChar = true := by
  decide

/-! ### Report form: volume and PSA density -/

/-- C30. After `calculateVolume` with parsed measurements `a`, `b`, `c` and
parsed PSA value `p`, `currentVolume` is `a * b * c * 0.52` when the three
measurements are positive and 0 otherwise; `currentPsaDensity` is
`p / currentVolume` when `p > 0` and `currentVolume > 0` and 0 otherwise; so
either the divisor is positive or the density is 0 with no division made. -/
theorem calculateVolume_volume_and_density (s : BefundGenerator) (a b c p : ℚ) :
    (BefundGenerator.calculateVolume s a b c p).currentVolume
        = (if 0 < a ∧ 0 < b ∧ 0 < c then a * b * c * (52 / 100) else 0)
      ∧ (BefundGenerator.calculateVolume s a b c p).currentPsaDensity
        = (if 0 < p ∧ 0 < (BefundGenerator.calculateVolume s a b c p).currentVolume then
            p / (BefundGenerator.calculateVolume s a b c p).currentVolume
          else 0)
      ∧ ((0 < p ∧ 0 < (BefundGenerator.calculateVolume s a b c p).currentVolume)
          ∨ (BefundGenerator.calculateVolume s a b c p).currentPsaDensity = 0)
      ∧ 0 ≤ (BefundGenerator.calculateVolume s a b c p).currentVolume
      ∧ ((0 < a ∧ 0 < b ∧ 0 < c)
          ↔ 0 < (BefundGenerator.calculateVolume s a b c p).currentVolume) := by
  by_cases habc : 0 < a ∧ 0 < b ∧ 0 < c
  · have hpos : 0 < a * b * c * (52 / 100 : ℚ) := by
      obtain ⟨ha, hb, hc⟩ := habc
      positivity
    have hvol : (BefundGenerator.calculateVolume s a b c p).currentVolume
        = a * b * c * (52 / 100) := by
      unfold BefundGenerator.calculateVolume BefundGenerator.calculatePsaDensity
      rw [if_pos habc]
      split_ifs <;> rfl
    rw [hvol, if_pos habc]
    refine ⟨rfl, ?_, ?_, le_of_lt hpos, ⟨fun _ => hpos, fun _ => habc⟩⟩
    · unfold BefundGenerator.calculateVolume BefundGenerator.calculatePsaDensity
      rw [if_pos habc]
      split_ifs <;> rfl
    · by_cases hp : 0 < p
      · exact Or.inl ⟨hp, hpos⟩
      · right
        unfold BefundGenerator.calculateVolume BefundGenerator.calculatePsaDensity
        rw [if_pos habc]
        rw [if_neg (fun h => hp h.1)]
  · have hvol : (BefundGenerator.calculateVolume s a b c p).currentVolume = 0 := by
      unfold BefundGenerator.calculateVolume BefundGenerator.calculatePsaDensity
      rw [if_neg habc]
      split_ifs <;> rfl
    have hdens : (BefundGenerator.calculateVolume s a b c p).currentPsaDensity = 0 := by
      unfold BefundGenerator.calculateVolume BefundGenerator.calculatePsaDensity
      rw [if_neg habc]
      rw [if_neg (fun h => lt_irrefl (0 : ℚ) h.2)]
    rw [hvol, if_neg habc, hdens]
    refine ⟨rfl, ?_, Or.inr rfl, le_refl _, ⟨fun h => absurd h habc, fun h => absurd h (lt_irrefl _)⟩⟩
    rw [if_neg (fun h => lt_irrefl (0 : ℚ) h.2)]

/-! ### Report form: lesion ids -/

/-- C29, a defect of the code. Three `addLesion` calls, `removeLesion` of
`lesion_2` and one more `addLesion` leave the list `lesion_1`, `lesion_3`,
`lesion_3`: the new id is made from the list length, which the removal lowered
to 2, so the id `lesion_3` is handed out a second time. -/
theorem addLesion_repeats_id :
    (BefundGenerator.runLesionCalls BefundGenerator.new
        [.add, .add, .add, .remove "lesion_2", .add]).lesions
        = ["lesion_1", "lesion_3", "lesion_3"]
      ∧ (BefundGenerator.runLesionCalls BefundGenerator.new
          [.add, .add, .add]).lesionItems = ["lesion_1", "lesion_2", "lesion_3"]
      ∧ ¬ (BefundGenerator.runLesionCalls BefundGenerator.new
          [.add, .add, .add, .remove "lesion_2", .add]).lesions.Nodup := by
  decide

/-! ### Viewport resize from an edge hotspot -/

/-- In a viewport resize gesture a pointer-move that reaches the threshold runs
`handleCanvasResize` with the cumulative delta and the name of the grabbed
hotspot. -/
theorem handleMouseMove_viewport (c : ImageCombiner) (handle : CanvasHandle) (e : MouseEvent)
    (hdrag : c.isDragging = true) (hflag : c.isResizingCanvas = true)
    (hgrab : c.canvasResizeHandle = some handle) (hmoved : reachesThreshold c e) :
    ImageCombiner.handleMouseMove c e
      = ImageCombiner.handleCanvasResize c
          (e.pos.x - c.dragStartPos.x) (e.pos.y - c.dragStartPos.y) handle.name := by
  unfold reachesThreshold at hmoved
  unfold ImageCombiner.handleMouseMove
  simp only [hdrag, Bool.not_true, Bool.false_eq_true, if_false, hflag, hgrab]
  rw [if_neg hmoved]

theorem clamp_of_mem (v lo hi : ℚ) (h1 : lo ≤ v) (h2 : v ≤ hi) : clamp v lo hi = v := by
  unfold clamp
  rw [if_neg (not_lt.mpr h1), if_neg (not_lt.mpr h2)]

theorem tallScene_canvas : Examples.tallScene.canvas = { width := 1430, height := 2380 } := by
  simp only [Examples.tallScene, ImageCombiner.runViewportOps, Examples.fourScreenshotAreas,
    List.foldl_cons, List.foldl_nil, ImageCombiner.applyViewportOp,
    ImageCombiner.addScreenshotArea, ImageCombiner.addImage, ImageCombiner.lowestBottom,
    Examples.constructed, Examples.leftImage, Examples.rightImage, ResizableImage.new,
    List.length_cons, List.length_nil, List.cons_append, List.nil_append, List.length_append]
  norm_num [canvasDimension_ofNat]

theorem handleMouseDown_tallScene :
    ImageCombiner.handleMouseDown Examples.tallScene Examples.downOnEast
      = { Examples.tallScene with
          canvasResizeHandle := some { name := .e, x := 1414, y := 1182, cursor := "ew-resize" },
          isResizingCanvas := true, isDragging := true, dragStartPos := { x := 1420, y := 1190 },
          canvasResizeStartState := some { width := 1430, height := 2380 } } := by
  have hfind : ImageCombiner.getCanvasHandleAtPoint Examples.tallScene
      Examples.downOnEast.pos.x Examples.downOnEast.pos.y
      = some { name := .e, x := 1414, y := 1182, cursor := "ew-resize" } := by
    simp only [ImageCombiner.getCanvasHandleAtPoint, ImageCombiner.getCanvasResizeHandles,
      tallScene_canvas, Examples.downOnEast, List.find?_cons, ImageCombiner.canvasHandleHit]
    norm_num
  have hb : ¬ Examples.downOnEast.button ≠ 0 := by decide
  simp only [ImageCombiner.handleMouseDown, hb, if_false, hfind, tallScene_canvas]
  rfl

/-- C25, refuted as stated. From the constructed scene, four `addScreenshotArea`
calls leave the viewport at 1430 x 2380. A pointer-down on its east hotspot
records that size, and the next pointer-move, 100 to the right, runs
`handleCanvasResize(100, 0, 'e')`, which leaves the viewport at 1460 x 2000:
the east handle changed the height, from 2380 to the clamped 2000. -/
theorem edge_handle_changes_height :
    Examples.tallScene.canvas = { width := 1430, height := 2380 }
      ∧ (ImageCombiner.handleMouseDown Examples.tallScene Examples.downOnEast).canvasResizeHandle
        = some { name := .e, x := 1414, y := 1182, cursor := "ew-resize" }
      ∧ (ImageCombiner.handleMouseDown Examples.tallScene Examples.downOnEast).canvas.height
        = 2380
      ∧ ∃ c', ImageCombiner.handleMouseMove
            (ImageCombiner.handleMouseDown Examples.tallScene Examples.downOnEast)
            Examples.moveEast = some c'
          ∧ ImageCombiner.handleCanvasResize
              (ImageCombiner.handleMouseDown Examples.tallScene Examples.downOnEast) 100 0 .e
            = some c'
          ∧ c'.canvas.width = 1460 ∧ c'.canvas.height = 2000
          ∧ c'.canvas.height
            ≠ (ImageCombiner.handleMouseDown Examples.tallScene
                Examples.downOnEast).canvas.height := by
  have hheight :
      (ImageCombiner.handleMouseDown Examples.tallScene Examples.downOnEast).canvas.height
        = 2380 := by
    rw [handleMouseDown_tallScene]
    show Examples.tallScene.canvas.height = 2380
    rw [tallScene_canvas]
  obtain ⟨c', hrun, hw, hh⟩ := handleCanvasResize_canvas
    (ImageCombiner.handleMouseDown Examples.tallScene Examples.downOnEast)
    { width := 1430, height := 2380 } 100 0 .e (by rw [handleMouseDown_tallScene])
  have hmove : ImageCombiner.handleMouseMove
      (ImageCombiner.handleMouseDown Examples.tallScene Examples.downOnEast) Examples.moveEast
      = ImageCombiner.handleCanvasResize
          (ImageCombiner.handleMouseDown Examples.tallScene Examples.downOnEast) 100 0 .e := by
    rw [handleMouseMove_viewport _ { name := .e, x := 1414, y := 1182, cursor := "ew-resize" }
      Examples.moveEast (by rw [handleMouseDown_tallScene]) (by rw [handleMouseDown_tallScene])
      (by rw [handleMouseDown_tallScene])
      (by
        rw [handleMouseDown_tallScene]
        simp only [reachesThreshold, Examples.moveEast, Examples.tallScene,
          ImageCombiner.runViewportOps, Examples.fourScreenshotAreas, List.foldl_cons,
          List.foldl_nil, ImageCombiner.applyViewportOp, ImageCombiner.addScreenshotArea,
          ImageCombiner.addImage, Examples.constructed, Bool.false_eq_true, if_false]
        norm_num)]
    rw [handleMouseDown_tallScene]
    norm_num [Examples.moveEast]
  have hw' : c'.canvas.width = 1460 := by
    rw [hw]
    norm_num [ImageCombiner.canvasResizeTarget, canvasDimension_ofNat]
  have hh' : c'.canvas.height = 2000 := by
    rw [hh]
    norm_num [ImageCombiner.canvasResizeTarget, canvasDimension_ofNat]
  refine ⟨tallScene_canvas, by rw [handleMouseDown_tallScene], hheight, c', ?_, hrun, hw', hh', ?_⟩
  · rw [hmove, hrun]
  · rw [hheight, hh']
    norm_num

/-- C25, amended. With the drag-start viewport size `start` recorded,
`handleCanvasResize` with handle n or s returns and sets the viewport width to
the drag-start width clamped into `[50, 3000]`, and with handle e or w sets the
viewport height to the drag-start height clamped into `[50, 2000]`. That is the
value before the call whenever the viewport still has its drag-start size on
that axis and that size is within the bounds. -/
theorem handleCanvasResize_edge_amended (c : ImageCombiner) (start : Canvas)
    (deltaX deltaY : ℚ) (handleName : HandleType)
    (hstart : c.canvasResizeStartState = some start) :
    ∃ c', ImageCombiner.handleCanvasResize c deltaX deltaY handleName = some c'
      ∧ (handleName = .n ∨ handleName = .s →
          c'.canvas.width = clamp start.width 50 3000
            ∧ (start.width = c.canvas.width → 50 ≤ c.canvas.width → c.canvas.width ≤ 3000 →
                c'.canvas.width = c.canvas.width))
      ∧ (handleName = .e ∨ handleName = .w →
          c'.canvas.height = clamp start.height 50 2000
            ∧ (start.height = c.canvas.height → 50 ≤ c.canvas.height →
                c.canvas.height ≤ 2000 → c'.canvas.height = c.canvas.height)) := by
  obtain ⟨c', hrun, hw, hh⟩ := handleCanvasResize_canvas c start deltaX deltaY handleName hstart
  rw [canvasResizeTarget_eq] at hw hh
  refine ⟨c', hrun, ?_, ?_⟩
  · intro hn
    have hkeep : ((canvasDimension (clamp (start.width : ℚ) 50 3000) : ℤ) : ℚ)
        = clamp (start.width : ℚ) 50 3000 := by
      exact_mod_cast canvasDimension_clamp_intCast start.width 50 3000
    have hwidth : c'.canvas.width = clamp start.width 50 3000 := by
      rw [hw]
      rcases hn with h | h
      · subst h
        simpa [signX] using hkeep
      · subst h
        simpa [signX] using hkeep
    refine ⟨hwidth, fun heq h1 h2 => ?_⟩
    have hq : (c'.canvas.width : ℚ) = (c.canvas.width : ℚ) := by
      rw [hwidth, heq]
      exact clamp_of_mem _ _ _ (by exact_mod_cast h1) (by exact_mod_cast h2)
    exact_mod_cast hq
  · intro he
    have hkeep : ((canvasDimension (clamp (start.height : ℚ) 50 2000) : ℤ) : ℚ)
        = clamp (start.height : ℚ) 50 2000 := by
      exact_mod_cast canvasDimension_clamp_intCast start.height 50 2000
    have hheight : c'.canvas.height = clamp start.height 50 2000 := by
      rw [hh]
      rcases he with h | h
      · subst h
        simpa [signY] using hkeep
      · subst h
        simpa [signY] using hkeep
    refine ⟨hheight, fun heq h1 h2 => ?_⟩
    have hq : (c'.canvas.height : ℚ) = (c.canvas.height : ℚ) := by
      rw [hheight, heq]
      exact clamp_of_mem _ _ _ (by exact_mod_cast h1) (by exact_mod_cast h2)
    exact_mod_cast hq

/-- Witness of C25, amended: on the constructed scene with the drag-start size
1430 x 680 recorded, the north handle dragged by `(30, -50)` leaves the width
at 1430 and the east handle dragged by `(30, -50)` leaves the height at 680. -/
theorem handleCanvasResize_edge_amended_witness :
    (∃ c', ImageCombiner.handleCanvasResize Examples.resizingCanvas 30 (-50) .n = some c'
        ∧ c'.canvas.width = Examples.resizingCanvas.canvas.width)
      ∧ ∃ c', ImageCombiner.handleCanvasResize Examples.resizingCanvas 30 (-50) .e = some c'
        ∧ c'.canvas.height = Examples.resizingCanvas.canvas.height := by
  constructor
  · obtain ⟨c', hrun, hn, -⟩ := handleCanvasResize_edge_amended Examples.resizingCanvas
      { width := 1430, height := 680 } 30 (-50) .n rfl
    exact ⟨c', hrun, (hn (Or.inl rfl)).2 rfl
      (by norm_num [Examples.resizingCanvas, Examples.constructed])
      (by norm_num [Examples.resizingCanvas, Examples.constructed])⟩
  · obtain ⟨c', hrun, -, he⟩ := handleCanvasResize_edge_amended Examples.resizingCanvas
      { width := 1430, height := 680 } 30 (-50) .e rfl
    exact ⟨c', hrun, (he (Or.inl rfl)).2 rfl
      (by norm_num [Examples.resizingCanvas, Examples.constructed])
      (by norm_num [Examples.resizingCanvas, Examples.constructed])⟩

/-! ### Containment in the viewport -/

theorem clampLeft_pos (image : ResizableImage) :
    (ImageCombiner.clampLeft image).x = (if image.x < 0 then 0 else image.x)
      ∧ (ImageCombiner.clampLeft image).y = image.y := by
  unfold ImageCombiner.clampLeft
  split_ifs <;> exact ⟨rfl, rfl⟩

theorem clampTop_pos (image : ResizableImage) :
    (ImageCombiner.clampTop image).x = image.x
      ∧ (ImageCombiner.clampTop image).y = (if image.y < 0 then 0 else image.y) := by
  unfold ImageCombiner.clampTop
  split_ifs <;> exact ⟨rfl, rfl⟩

theorem clampRight_pos (c : ImageCombiner) (image : ResizableImage) :
    (ImageCombiner.clampRight c image).x
        = (if image.x + image.width > c.canvas.width then c.canvas.width - image.width
           else image.x)
      ∧ (ImageCombiner.clampRight c image).y = image.y := by
  unfold ImageCombiner.clampRight
  split_ifs <;> exact ⟨rfl, rfl⟩

theorem clampBottom_pos (c : ImageCombiner) (image : ResizableImage) :
    (ImageCombiner.clampBottom c image).x = image.x
      ∧ (ImageCombiner.clampBottom c image).y
        = (if image.y + image.height > c.canvas.height then c.canvas.height - image.height
           else image.y) := by
  unfold ImageCombiner.clampBottom
  split_ifs <;> exact ⟨rfl, rfl⟩

/-- The position `constrainImageToCanvas` leaves is the one its four clamping
statements compute: the minimum-size statements and `updateHandles` do not move
the element. -/
theorem constrainImageToCanvas_pos (c : ImageCombiner) (image : ResizableImage)
    (hc : c.isResizingCanvas = false) :
    (ImageCombiner.constrainImageToCanvas c image).x
        = (ImageCombiner.clampBottom c (ImageCombiner.clampRight c
            (ImageCombiner.clampTop (ImageCombiner.clampLeft image)))).x
      ∧ (ImageCombiner.constrainImageToCanvas c image).y
        = (ImageCombiner.clampBottom c (ImageCombiner.clampRight c
            (ImageCombiner.clampTop (ImageCombiner.clampLeft image)))).y := by
  unfold ImageCombiner.constrainImageToCanvas
  simp only [hc, Bool.false_eq_true, if_false]
  unfold ImageCombiner.ensureMinHeight ImageCombiner.ensureMinWidth
  split_ifs <;> exact ⟨rfl, rfl⟩

/-- Where `constrainImageToCanvas` leaves an element that is at least its
minimum size: the right and bottom edges are inside the viewport, and the left
(top) edge is inside exactly when the element is no wider (higher) than the
viewport. -/
theorem constrainImageToCanvas_edges (c : ImageCombiner) (image : ResizableImage)
    (hc : c.isResizingCanvas = false)
    (hw : image.minWidth ≤ image.width) (hh : image.minHeight ≤ image.height) :
    (ImageCombiner.constrainImageToCanvas c image).width = image.width
      ∧ (ImageCombiner.constrainImageToCanvas c image).height = image.height
      ∧ (ImageCombiner.constrainImageToCanvas c image).x
          + (ImageCombiner.constrainImageToCanvas c image).width ≤ c.canvas.width
      ∧ (ImageCombiner.constrainImageToCanvas c image).y
          + (ImageCombiner.constrainImageToCanvas c image).height ≤ c.canvas.height
      ∧ (0 ≤ (ImageCombiner.constrainImageToCanvas c image).x
          ↔ (ImageCombiner.constrainImageToCanvas c image).width ≤ c.canvas.width)
      ∧ (0 ≤ (ImageCombiner.constrainImageToCanvas c image).y
          ↔ (ImageCombiner.constrainImageToCanvas c image).height ≤ c.canvas.height) := by
  obtain ⟨ew, eh, -⟩ := constrainImageToCanvas_size c image hw hh
  obtain ⟨ex, ey⟩ := constrainImageToCanvas_pos c image hc
  obtain ⟨a1, a2, -⟩ := clampLeft_frame image
  obtain ⟨b1, b2, -⟩ := clampTop_frame (ImageCombiner.clampLeft image)
  obtain ⟨c1, c2, -⟩ :=
    clampRight_frame c (ImageCombiner.clampTop (ImageCombiner.clampLeft image))
  obtain ⟨ax, ay⟩ := clampLeft_pos image
  obtain ⟨bx, bY⟩ := clampTop_pos (ImageCombiner.clampLeft image)
  obtain ⟨cx, cy⟩ := clampRight_pos c (ImageCombiner.clampTop (ImageCombiner.clampLeft image))
  obtain ⟨dx, dy⟩ := clampBottom_pos c
    (ImageCombiner.clampRight c (ImageCombiner.clampTop (ImageCombiner.clampLeft image)))
  rw [ew, eh, ex, ey, dx, dy, cx, cy, c2, bx, bY, b1, b2, ax, ay, a1, a2]
  refine ⟨rfl, rfl, ?_, ?_, ?_, ?_⟩
  · split_ifs <;> linarith
  · split_ifs <;> linarith
  · split_ifs <;> constructor <;> intro h <;> linarith
  · split_ifs <;> constructor <;> intro h <;> linarith

/-- C21, a defect of the code. On the scene `Examples.resizing` (viewport
1430 x 680, no viewport resize in progress) the accepted step
`resizeWithHandle` with the east handle of the left element and delta
`(785, 0)` makes the element 1500 wide and leaves it at `x = -70`, outside the
viewport. `constrainImageToCanvas`, which the step calls and whose comment reads
`Ensure image doesn't go outside canvas bounds`, clamps the left edge to 0
before it moves the right edge onto the viewport's, and never shrinks the
element. -/
theorem resizeWithHandle_leaves_viewport :
    Examples.resizing.isResizingCanvas = false
      ∧ ImageCombiner.resizeAccepted
          (ImageCombiner.resizeTarget Examples.boundLeft Examples.boundLeft .e 785 0) = true
      ∧ ∃ (c' : ImageCombiner) (r : ResizableImage),
          ImageCombiner.resizeWithHandle Examples.resizing Examples.eInfo 785 0 = some c'
            ∧ c'.images.get? 0 = some r
            ∧ c'.canvas = { width := 1430, height := 680 }
            ∧ rectOf r = (-70, 645 / 4, 1500, 715 / 2)
            ∧ ¬ InsideViewport c'.canvas r := by
  obtain ⟨heq, hget⟩ := resizeWithHandle_eq Examples.resizing Examples.boundLeft
    Examples.boundLeft Examples.eInfo 785 0 rfl rfl
  have hacc : ImageCombiner.resizeAccepted
      (ImageCombiner.resizeTarget Examples.boundLeft Examples.boundLeft .e 785 0) = true := by
    simp only [ImageCombiner.resizeAccepted, ImageCombiner.resizeTarget, Examples.boundLeft,
      ResizableImage.new, reduceCtorEq, or_self, false_and, if_false]
    norm_num
  have hrect : rectOf (ImageCombiner.resizeElement Examples.resizing Examples.boundLeft
      Examples.boundLeft Examples.eInfo.type 785 0) = (-70, 645 / 4, 1500, 715 / 2) := by
    have hacc' : ImageCombiner.resizeAccepted
        (ImageCombiner.resizeTarget Examples.boundLeft Examples.boundLeft
          Examples.eInfo.type 785 0) = true := hacc
    unfold ImageCombiner.resizeElement
    simp only [hacc', if_true]
    simp only [rectOf, Examples.resizing, Examples.constructed, Bool.not_false, if_true,
      ImageCombiner.constrainImageToCanvas, Bool.false_eq_true, if_false,
      ImageCombiner.clampLeft, ImageCombiner.clampTop, ImageCombiner.clampRight,
      ImageCombiner.clampBottom, ImageCombiner.ensureMinWidth, ImageCombiner.ensureMinHeight,
      ImageCombiner.resizeTarget, Examples.eInfo, Examples.boundLeft, ResizableImage.new,
      ResizableImage.updateHandles, reduceCtorEq, or_self, false_and]
    norm_num
  refine ⟨rfl, hacc, _, _, heq, hget, rfl, hrect, ?_⟩
  intro hin
  have hx : (ImageCombiner.resizeElement Examples.resizing Examples.boundLeft
      Examples.boundLeft Examples.eInfo.type 785 0).x = -70 := by
    have := congrArg (fun t : ℚ × ℚ × ℚ × ℚ => t.1) hrect
    simpa [rectOf] using this
  have h0 := hin.1
  rw [hx] at h0
  norm_num at h0

/-- What the clamping statements of `constrainImageToCanvas` do achieve. With no
viewport resize in progress and a drag-start snapshot recorded: after
`moveImage` on an element that is at least its minimum size, and after an
accepted `resizeWithHandle` step on an element with minimums 50, the element's
right and bottom edges lie inside the viewport, its left edge does exactly when
it is no wider than the viewport and its top edge exactly when it is no
higher. -/
theorem transform_edges_after_clamping (c : ImageCombiner) (init img : ResizableImage)
    (hc : c.isResizingCanvas = false) (hinit : c.initialImageState = some init) :
    (∀ (i : Nat) (dx dy : ℚ), c.images.get? i = some img →
        img.minWidth ≤ img.width → img.minHeight ≤ img.height →
        ∃ (c' : ImageCombiner) (r : ResizableImage),
          ImageCombiner.moveImage c i dx dy = some c' ∧ c'.images.get? i = some r
            ∧ c'.canvas = c.canvas
            ∧ r.width = img.width ∧ r.height = img.height
            ∧ r.x + r.width ≤ c.canvas.width ∧ r.y + r.height ≤ c.canvas.height
            ∧ (0 ≤ r.x ↔ r.width ≤ c.canvas.width)
            ∧ (0 ≤ r.y ↔ r.height ≤ c.canvas.height)
            ∧ (r.width ≤ c.canvas.width → r.height ≤ c.canvas.height →
                InsideViewport c'.canvas r))
      ∧ (∀ (handleInfo : HandleInfo) (dx dy : ℚ),
          c.images.get? handleInfo.image = some img →
          img.minWidth = 50 → img.minHeight = 50 →
          ImageCombiner.resizeAccepted
            (ImageCombiner.resizeTarget init img handleInfo.type dx dy) = true →
          ∃ (c' : ImageCombiner) (r : ResizableImage),
            ImageCombiner.resizeWithHandle c handleInfo dx dy = some c'
              ∧ c'.images.get? handleInfo.image = some r
              ∧ c'.canvas = c.canvas
              ∧ r.width = (ImageCombiner.resizeTarget init img handleInfo.type dx dy).2.2.1
              ∧ r.height = (ImageCombiner.resizeTarget init img handleInfo.type dx dy).2.2.2
              ∧ r.x + r.width ≤ c.canvas.width ∧ r.y + r.height ≤ c.canvas.height
              ∧ (0 ≤ r.x ↔ r.width ≤ c.canvas.width)
              ∧ (0 ≤ r.y ↔ r.height ≤ c.canvas.height)
              ∧ (r.width ≤ c.canvas.width → r.height ≤ c.canvas.height →
                  InsideViewport c'.canvas r)) := by
  constructor
  · intro i dx dy himg hw hh
    obtain ⟨heq, hget⟩ := moveImage_eq c init img i dx dy hinit himg
    simp only [hc, Bool.not_false, if_true] at heq hget
    obtain ⟨e1, e2, e3, e4, e5, e6⟩ := constrainImageToCanvas_edges c
      { img with x := init.x + dx, y := init.y + dy } hc hw hh
    exact ⟨_, _, heq, hget, rfl, e1, e2, e3, e4, e5, e6,
      fun h1 h2 => ⟨e5.mpr h1, e6.mpr h2, e3, e4⟩⟩
  · intro handleInfo dx dy himg hmw hmh hacc
    obtain ⟨heq, hget⟩ := resizeWithHandle_eq c init img handleInfo dx dy hinit himg
    have hb := (resizeAccepted_iff _).mp hacc
    have hel : ImageCombiner.resizeElement c init img handleInfo.type dx dy
        = ImageCombiner.constrainImageToCanvas c
            { img with x := (ImageCombiner.resizeTarget init img handleInfo.type dx dy).1,
                       y := (ImageCombiner.resizeTarget init img handleInfo.type dx dy).2.1,
                       width := (ImageCombiner.resizeTarget init img handleInfo.type dx dy).2.2.1,
                       height :=
                         (ImageCombiner.resizeTarget init img handleInfo.type dx dy).2.2.2 } := by
      unfold ImageCombiner.resizeElement
      simp only [hacc, if_true, hc, Bool.not_false]
    obtain ⟨e1, e2, e3, e4, e5, e6⟩ := constrainImageToCanvas_edges c
      { img with x := (ImageCombiner.resizeTarget init img handleInfo.type dx dy).1,
                 y := (ImageCombiner.resizeTarget init img handleInfo.type dx dy).2.1,
                 width := (ImageCombiner.resizeTarget init img handleInfo.type dx dy).2.2.1,
                 height := (ImageCombiner.resizeTarget init img handleInfo.type dx dy).2.2.2 }
      hc (by simpa [hmw] using hb.1) (by simpa [hmh] using hb.2)
    rw [← hel] at e1 e2 e3 e4 e5 e6
    exact ⟨_, _, heq, hget, rfl, e1, e2, e3, e4, e5, e6,
      fun h1 h2 => ⟨e5.mpr h1, e6.mpr h2, e3, e4⟩⟩

theorem moveNearTarget_accepted :
    ImageCombiner.resizeAccepted
      (ImageCombiner.resizeTarget Examples.boundLeft Examples.boundLeft Examples.seInfo.type
        (-100) 0) = true := by
  simp only [ImageCombiner.resizeAccepted, ImageCombiner.resizeTarget, Examples.seInfo,
    Examples.boundLeft, ResizableImage.new, reduceCtorEq, or_true, true_or,
    Option.isSome_some, and_self, if_true, if_false, or_false]
  norm_num

/-- On the scene `Examples.resizing` the left element, 715 x 357.5 in a
1430 x 680 viewport, moved by `(2000, 10)` ends inside the viewport, and so does
its accepted resize by `(-100, 0)` from the south-east handle. -/
theorem transform_edges_after_clamping_example :
    (∃ (c' : ImageCombiner) (r : ResizableImage),
        ImageCombiner.moveImage Examples.resizing 0 2000 10 = some c'
          ∧ c'.images.get? 0 = some r ∧ InsideViewport c'.canvas r)
      ∧ ∃ (c' : ImageCombiner) (r : ResizableImage),
          ImageCombiner.resizeWithHandle Examples.resizing Examples.seInfo (-100) 0 = some c'
            ∧ c'.images.get? 0 = some r ∧ InsideViewport c'.canvas r := by
  have h := transform_edges_after_clamping Examples.resizing Examples.boundLeft Examples.boundLeft rfl rfl
  constructor
  · obtain ⟨c', r, h1, h2, -, hw, hh, -, -, -, -, hin⟩ := h.1 0 2000 10 rfl
      (by norm_num [Examples.boundLeft, ResizableImage.new])
      (by norm_num [Examples.boundLeft, ResizableImage.new])
    refine ⟨c', r, h1, h2, hin ?_ ?_⟩
    · rw [hw]
      norm_num [Examples.boundLeft, ResizableImage.new, Examples.resizing, Examples.constructed]
    · rw [hh]
      norm_num [Examples.boundLeft, ResizableImage.new, Examples.resizing, Examples.constructed]
  · obtain ⟨c', r, h1, h2, -, hw, hh, -, -, -, -, hin⟩ := h.2 Examples.seInfo (-100) 0 rfl
      rfl rfl moveNearTarget_accepted
    refine ⟨c', r, h1, h2, hin ?_ ?_⟩
    · rw [hw]
      simp only [ImageCombiner.resizeTarget, Examples.seInfo, Examples.boundLeft,
        ResizableImage.new, Examples.resizing, Examples.constructed, reduceCtorEq, or_true,
        true_or, Option.isSome_some, and_self, if_true, if_false, or_false]
      norm_num
    · rw [hh]
      simp only [ImageCombiner.resizeTarget, Examples.seInfo, Examples.boundLeft,
        ResizableImage.new, Examples.resizing, Examples.constructed, reduceCtorEq, or_true,
        true_or, Option.isSome_some, and_self, if_true, if_false, or_false]
      norm_num

/-! ### Corner resize and the opposite corner -/

/-- For the corner handles nw, ne and se of an element with a bound image, the
rectangle `resizeWithHandle` computes keeps the opposite corner of the
snapshot: nw the bottom-right corner, ne the bottom-left, se the top-left. -/
theorem resizeTarget_keeps_opposite_corner (init image : ResizableImage) (dx dy : ℚ)
    (hbound : image.image.isSome = true) :
    ((ImageCombiner.resizeTarget init image .nw dx dy).1
          + (ImageCombiner.resizeTarget init image .nw dx dy).2.2.1 = init.x + init.width
        ∧ (ImageCombiner.resizeTarget init image .nw dx dy).2.1
          + (ImageCombiner.resizeTarget init image .nw dx dy).2.2.2 = init.y + init.height)
      ∧ ((ImageCombiner.resizeTarget init image .ne dx dy).1 = init.x
        ∧ (ImageCombiner.resizeTarget init image .ne dx dy).2.1
          + (ImageCombiner.resizeTarget init image .ne dx dy).2.2.2 = init.y + init.height)
      ∧ ((ImageCombiner.resizeTarget init image .se dx dy).1 = init.x
        ∧ (ImageCombiner.resizeTarget init image .se dx dy).2.1 = init.y) := by
  refine ⟨⟨?_, ?_⟩, ⟨?_, ?_⟩, ?_, ?_⟩ <;>
    simp only [ImageCombiner.resizeTarget, hbound, true_or, or_true, and_self, if_true,
      reduceCtorEq, or_self, if_false, or_false, false_or] <;>
    ring

/-- What `resizeWithHandle` computes for the south-west handle of an element with
a bound image: the width is derived from the new height, and `newX` stays
`originalX + dx`, so the right edge moves by `dx + dy * aspectRatio` when the
snapshot has the aspect ratio of the image. -/
theorem resizeTarget_sw (init image : ResizableImage) (dx dy : ℚ)
    (hbound : image.image.isSome = true) :
    ImageCombiner.resizeTarget init image .sw dx dy
      = (init.x + dx, init.y, (init.height + dy) * image.aspectRatio, init.height + dy) := by
  simp only [ImageCombiner.resizeTarget, hbound, true_or, or_true, and_self, if_true,
    reduceCtorEq, or_self, if_false, or_false, false_or]

/-- C28, a defect of the code. On the scene `Examples.resizing` (left element at
`(0, 161.25, 715, 357.5)` with a bound image of aspect ratio 2, viewport
1430 x 680) the step `resizeWithHandle` with the south-west handle and delta
`(50, 0)` is accepted and leaves the element at `(50, 161.25, 715, 357.5)`,
inside the viewport: the top-right corner, which the snapshot had at
`(715, 161.25)`, is now at `(765, 161.25)`. The branch derives the width from
the height and never recomputes `newX`. -/
theorem resizeWithHandle_sw_moves_opposite_corner :
    Examples.boundLeft.image.isSome = true
      ∧ ImageCombiner.resizeAccepted
          (ImageCombiner.resizeTarget Examples.boundLeft Examples.boundLeft .sw 50 0) = true
      ∧ (Examples.boundLeft.x + Examples.boundLeft.width = 715
          ∧ Examples.boundLeft.y = 645 / 4)
      ∧ ∃ (c' : ImageCombiner) (r : ResizableImage),
          ImageCombiner.resizeWithHandle Examples.resizing Examples.swInfo 50 0 = some c'
            ∧ c'.images.get? 0 = some r
            ∧ rectOf r = (50, 645 / 4, 715, 715 / 2)
            ∧ InsideViewport c'.canvas r
            ∧ r.x + r.width = 765 ∧ r.y = 645 / 4
            ∧ r.x + r.width ≠ Examples.boundLeft.x + Examples.boundLeft.width := by
  obtain ⟨heq, hget⟩ := resizeWithHandle_eq Examples.resizing Examples.boundLeft
    Examples.boundLeft Examples.swInfo 50 0 rfl rfl
  have htarget : ImageCombiner.resizeTarget Examples.boundLeft Examples.boundLeft .sw 50 0
      = (50, 645 / 4, 715, 715 / 2) := by
    rw [resizeTarget_sw Examples.boundLeft Examples.boundLeft 50 0 rfl]
    norm_num [Examples.boundLeft, ResizableImage.new]
  have hacc : ImageCombiner.resizeAccepted
      (ImageCombiner.resizeTarget Examples.boundLeft Examples.boundLeft .sw 50 0) = true := by
    rw [htarget]
    norm_num [ImageCombiner.resizeAccepted]
  have hrect : rectOf (ImageCombiner.resizeElement Examples.resizing Examples.boundLeft
      Examples.boundLeft Examples.swInfo.type 50 0) = (50, 645 / 4, 715, 715 / 2) := by
    have hacc' : ImageCombiner.resizeAccepted
        (ImageCombiner.resizeTarget Examples.boundLeft Examples.boundLeft
          Examples.swInfo.type 50 0) = true := hacc
    have htarget' : ImageCombiner.resizeTarget Examples.boundLeft Examples.boundLeft
        Examples.swInfo.type 50 0 = (50, 645 / 4, 715, 715 / 2) := htarget
    unfold ImageCombiner.resizeElement
    simp only [hacc', if_true]
    simp only [htarget']
    simp only [rectOf, Examples.resizing, Examples.constructed, Bool.not_false, if_true,
      ImageCombiner.constrainImageToCanvas, Bool.false_eq_true, if_false,
      ImageCombiner.clampLeft, ImageCombiner.clampTop, ImageCombiner.clampRight,
      ImageCombiner.clampBottom, ImageCombiner.ensureMinWidth, ImageCombiner.ensureMinHeight,
      Examples.boundLeft, ResizableImage.new, ResizableImage.updateHandles]
    norm_num
  have hfields : (ImageCombiner.resizeElement Examples.resizing Examples.boundLeft
        Examples.boundLeft Examples.swInfo.type 50 0).x = 50
      ∧ (ImageCombiner.resizeElement Examples.resizing Examples.boundLeft
        Examples.boundLeft Examples.swInfo.type 50 0).y = 645 / 4
      ∧ (ImageCombiner.resizeElement Examples.resizing Examples.boundLeft
        Examples.boundLeft Examples.swInfo.type 50 0).width = 715
      ∧ (ImageCombiner.resizeElement Examples.resizing Examples.boundLeft
        Examples.boundLeft Examples.swInfo.type 50 0).height = 715 / 2 := by
    simpa [rectOf] using hrect
  obtain ⟨hx, hy, hw, hh⟩ := hfields
  refine ⟨rfl, hacc, ⟨?_, ?_⟩, _, _, heq, hget, hrect, ?_, ?_, hy, ?_⟩
  · norm_num [Examples.boundLeft, ResizableImage.new]
  · norm_num [Examples.boundLeft, ResizableImage.new]
  · unfold InsideViewport
    rw [hx, hy, hw, hh]
    norm_num [Examples.resizing, Examples.constructed]
  · rw [hx, hw]
    norm_num
  · rw [hx, hw]
    norm_num [Examples.boundLeft, ResizableImage.new]

/-! ### Pointer event sequences -/

theorem findBodyHit_get? (x y : ℚ) :
    ∀ (images : List ResizableImage) (k index : Nat) (image : ResizableImage),
      ImageCombiner.findBodyHit x y images k = some (index, image) →
      ∃ j, index = k + j ∧ images.get? j = some image
  | [], _, _, _, h => by simp [ImageCombiner.findBodyHit] at h
  | a :: rest, k, index, image, h => by
    unfold ImageCombiner.findBodyHit at h
    split_ifs at h with hhit
    · simp only [Option.some.injEq, Prod.mk.injEq] at h
      exact ⟨0, by omega, by simp [h.2]⟩
    · obtain ⟨j, hj, hget⟩ := findBodyHit_get? x y rest (k + 1) index image h
      exact ⟨j + 1, by omega, by simpa using hget⟩

/-- The five outcomes of `handleMouseDown`: ignored button, viewport hotspot,
element handle, element body, empty canvas. -/
theorem handleMouseDown_cases (c : ImageCombiner) (e : MouseEvent) :
    ImageCombiner.handleMouseDown c e = c
      ∨ (∃ handle : CanvasHandle,
          ImageCombiner.handleMouseDown c e
            = { c with canvasResizeHandle := some handle, isResizingCanvas := true,
                       isDragging := true, dragStartPos := e.pos,
                       canvasResizeStartState :=
                         some { width := c.canvas.width, height := c.canvas.height } })
      ∨ (∃ (info : HandleInfo) (image : ResizableImage),
          ImageCombiner.handleMouseDown c e
            = { c with selectedHandle := some info, isDragging := true, dragStartPos := e.pos,
                       initialImageState := some image })
      ∨ (∃ (index : Nat) (image : ResizableImage),
          c.images.get? index = some image
            ∧ ImageCombiner.handleMouseDown c e
              = { c with selectedImage := some index,
                         images := (ImageCombiner.clearSelection c.images).set index
                                     { image with selected := true },
                         isDragging := true, dragStartPos := e.pos,
                         initialImageState := some { image with selected := true } })
      ∨ ImageCombiner.handleMouseDown c e
          = { c with selectedImage := none, selectedHandle := none,
                     canvasResizeHandle := none, isResizingCanvas := false,
                     images := ImageCombiner.clearSelection c.images } := by
  by_cases hb : e.button ≠ 0
  · left
    unfold ImageCombiner.handleMouseDown
    exact if_pos hb
  · right
    cases hcanvas : ImageCombiner.getCanvasHandleAtPoint c e.pos.x e.pos.y with
    | some handle =>
      left
      exact ⟨handle, by simp only [ImageCombiner.handleMouseDown, hb, if_false, hcanvas]⟩
    | none =>
      right
      cases hhandle : ImageCombiner.findHandleHit e.pos.x e.pos.y c.images 0 with
      | some hit =>
        left
        obtain ⟨index, image, handle⟩ := hit
        exact ⟨{ type := handle.1, handle := handle.2, image := index }, image,
          by simp only [ImageCombiner.handleMouseDown, hb, if_false, hcanvas, hhandle]⟩
      | none =>
        right
        cases hbody : ImageCombiner.findBodyHit e.pos.x e.pos.y c.images 0 with
        | some hit =>
          left
          obtain ⟨index, image⟩ := hit
          obtain ⟨j, hj, hget⟩ := findBodyHit_get? _ _ _ _ _ _ hbody
          have hindex : index = j := by omega
          subst hindex
          exact ⟨index, image, hget,
            by simp only [ImageCombiner.handleMouseDown, hb, if_false, hcanvas, hhandle, hbody]⟩
        | none =>
          right
          simp only [ImageCombiner.handleMouseDown, hb, if_false, hcanvas, hhandle, hbody]

theorem handleCanvasResize_frame (c : ImageCombiner) (deltaX deltaY : ℚ)
    (handleName : HandleType) :
    ∃ (canvas : Canvas) (images : List ResizableImage),
      ImageCombiner.stateAfter c (ImageCombiner.handleCanvasResize c deltaX deltaY handleName)
        = { c with canvas := canvas, images := images } := by
  unfold ImageCombiner.handleCanvasResize ImageCombiner.stateAfter
  split
  · exact ⟨c.canvas, c.images, rfl⟩
  · simp only
    split_ifs
    · exact ⟨_, _, rfl⟩
    · exact ⟨c.canvas, c.images, rfl⟩

theorem resizeWithHandle_frame (c : ImageCombiner) (handleInfo : HandleInfo) (dx dy : ℚ) :
    ∃ (canvas : Canvas) (images : List ResizableImage),
      ImageCombiner.stateAfter c (ImageCombiner.resizeWithHandle c handleInfo dx dy)
        = { c with canvas := canvas, images := images } := by
  unfold ImageCombiner.resizeWithHandle ImageCombiner.stateAfter
  split
  · exact ⟨c.canvas, c.images, rfl⟩
  · split
    · exact ⟨c.canvas, c.images, rfl⟩
    · exact ⟨c.canvas, _, rfl⟩

theorem moveImage_frame (c : ImageCombiner) (image : Nat) (dx dy : ℚ) :
    ∃ (canvas : Canvas) (images : List ResizableImage),
      ImageCombiner.stateAfter c (ImageCombiner.moveImage c image dx dy)
        = { c with canvas := canvas, images := images } := by
  unfold ImageCombiner.moveImage ImageCombiner.stateAfter
  split
  · exact ⟨c.canvas, c.images, rfl⟩
  · split
    · exact ⟨c.canvas, c.images, rfl⟩
    · exact ⟨c.canvas, _, rfl⟩

theorem handleMouseMove_released (c : ImageCombiner) (e : MouseEvent)
    (hdrag : c.isDragging = false) : ImageCombiner.handleMouseMove c e = some c := by
  unfold ImageCombiner.handleMouseMove
  simp [hdrag]

/-- A pointer-move that reaches the threshold during a drag runs the dispatch of
`handleMouseMove`. -/
theorem handleMouseMove_dispatch (c : ImageCombiner) (e : MouseEvent)
    (hdrag : c.isDragging = true) (hmoved : reachesThreshold c e) :
    ImageCombiner.handleMouseMove c e
      = (match c.isResizingCanvas, c.canvasResizeHandle, c.selectedHandle, c.selectedImage with
        | true, some handle, _, _ =>
          ImageCombiner.handleCanvasResize c (e.pos.x - c.dragStartPos.x)
            (e.pos.y - c.dragStartPos.y) handle.name
        | _, _, some handleInfo, _ =>
          ImageCombiner.resizeWithHandle c handleInfo (e.pos.x - c.dragStartPos.x)
            (e.pos.y - c.dragStartPos.y)
        | _, _, _, some image =>
          ImageCombiner.moveImage c image (e.pos.x - c.dragStartPos.x)
            (e.pos.y - c.dragStartPos.y)
        | _, _, _, _ => some c) := by
  unfold reachesThreshold at hmoved
  unfold ImageCombiner.handleMouseMove
  simp only [hdrag, Bool.not_true, Bool.false_eq_true, if_false]
  rw [if_neg hmoved]

/-- A pointer-move changes nothing but the viewport and the element list. -/
theorem handleMouseMove_frame (c : ImageCombiner) (e : MouseEvent) :
    ∃ (canvas : Canvas) (images : List ResizableImage),
      ImageCombiner.stateAfter c (ImageCombiner.handleMouseMove c e)
        = { c with canvas := canvas, images := images } := by
  by_cases hdrag : c.isDragging = true
  · by_cases hmoved : reachesThreshold c e
    · rw [handleMouseMove_dispatch c e hdrag hmoved]
      split
      · exact handleCanvasResize_frame c _ _ _
      · exact resizeWithHandle_frame c _ _ _
      · exact moveImage_frame c _ _ _
      · exact ⟨c.canvas, c.images, rfl⟩
    · rw [handleMouseMove_below c e hmoved]
      exact ⟨c.canvas, c.images, rfl⟩
  · rw [handleMouseMove_released c e ((Bool.not_eq_true _).mp hdrag)]
    exact ⟨c.canvas, c.images, rfl⟩

theorem snapshotsRecorded_step (c : ImageCombiner) (event : ImageCombiner.PointerEvent)
    (h : SnapshotsRecorded c) : SnapshotsRecorded (ImageCombiner.handlePointerEvent c event) := by
  obtain ⟨h1, h2, h3⟩ := h
  cases event with
  | down e =>
    show SnapshotsRecorded (ImageCombiner.handleMouseDown c e)
    rcases handleMouseDown_cases c e with hc | ⟨handle, hc⟩ | ⟨info, image, hc⟩
      | ⟨index, image, -, hc⟩ | hc <;> rw [hc]
    · exact ⟨h1, h2, h3⟩
    · exact ⟨fun _ => rfl, h2, h3⟩
    · exact ⟨h1, fun _ => rfl, fun _ => rfl⟩
    · exact ⟨h1, fun _ => rfl, fun _ => rfl⟩
    · exact ⟨fun hf => Bool.noConfusion hf, fun hf => Bool.noConfusion hf,
        fun hf => Bool.noConfusion hf⟩
  | move e =>
    show SnapshotsRecorded (ImageCombiner.stateAfter c (ImageCombiner.handleMouseMove c e))
    obtain ⟨canvas, images, hc⟩ := handleMouseMove_frame c e
    rw [hc]
    exact ⟨h1, h2, h3⟩
  | up =>
    exact ⟨fun hf => Bool.noConfusion hf, fun hf => Bool.noConfusion hf,
      fun hf => Bool.noConfusion hf⟩

theorem snapshotsRecorded_run (events : List ImageCombiner.PointerEvent) (c : ImageCombiner)
    (h : SnapshotsRecorded c) : SnapshotsRecorded (ImageCombiner.runPointerEvents c events) := by
  induction events generalizing c with
  | nil => exact h
  | cons event rest ih =>
    simp only [ImageCombiner.runPointerEvents, List.foldl_cons] at ih ⊢
    exact ih _ (snapshotsRecorded_step c event h)

theorem handleCanvasResize_isSome (c : ImageCombiner) (deltaX deltaY : ℚ)
    (handleName : HandleType) (h : c.canvasResizeStartState.isSome = true) :
    (ImageCombiner.handleCanvasResize c deltaX deltaY handleName).isSome = true := by
  unfold ImageCombiner.handleCanvasResize
  split
  · rename_i hnone
    rw [hnone] at h
    exact Bool.noConfusion h
  · simp only
    split_ifs <;> rfl

theorem resizeWithHandle_isSome (c : ImageCombiner) (handleInfo : HandleInfo) (dx dy : ℚ)
    (h : c.initialImageState.isSome = true) :
    (ImageCombiner.resizeWithHandle c handleInfo dx dy).isSome = true := by
  unfold ImageCombiner.resizeWithHandle
  split
  · rename_i hnone
    rw [hnone] at h
    exact Bool.noConfusion h
  · split <;> rfl

theorem moveImage_isSome (c : ImageCombiner) (image : Nat) (dx dy : ℚ)
    (h : c.initialImageState.isSome = true) :
    (ImageCombiner.moveImage c image dx dy).isSome = true := by
  unfold ImageCombiner.moveImage
  split
  · rename_i hnone
    rw [hnone] at h
    exact Bool.noConfusion h
  · split <;> rfl

/-- With the snapshots recorded no pointer-move throws. -/
theorem handleMouseMove_isSome (c : ImageCombiner) (e : MouseEvent)
    (h : SnapshotsRecorded c) : (ImageCombiner.handleMouseMove c e).isSome = true := by
  obtain ⟨h1, h2, h3⟩ := h
  cases hdrag : c.isDragging with
  | false =>
    rw [handleMouseMove_released c e hdrag]
    rfl
  | true =>
    by_cases hmoved : reachesThreshold c e
    · rw [handleMouseMove_dispatch c e hdrag hmoved]
      split
      · rename_i hflag hgrab
        exact handleCanvasResize_isSome c _ _ _ (h1 hflag)
      · rename_i hsel hneg
        exact resizeWithHandle_isSome c _ _ _ (h2 (by rw [hsel]; rfl))
      · rename_i himage hneg1 hneg2
        exact moveImage_isSome c _ _ _ (h3 (by rw [himage]; rfl))
      · rfl
    · rw [handleMouseMove_below c e hmoved]
      rfl

theorem activeTransform_viewport (c : ImageCombiner) (handle : CanvasHandle)
    (h : ImageCombiner.activeTransform c = .viewportResizing handle) :
    c.isDragging = true ∧ c.isResizingCanvas = true ∧ c.canvasResizeHandle = some handle := by
  unfold ImageCombiner.activeTransform at h
  cases hdrag : c.isDragging with
  | false => simp [hdrag] at h
  | true =>
    simp only [hdrag, Bool.not_true, Bool.false_eq_true, if_false] at h
    split at h
    · rename_i hflag hgrab
      simp only [ImageCombiner.Transform.viewportResizing.injEq] at h
      exact ⟨rfl, hflag, by rw [hgrab, h]⟩
    · simp at h
    · simp at h
    · simp at h

theorem activeTransform_resizing (c : ImageCombiner) (info : HandleInfo)
    (h : ImageCombiner.activeTransform c = .elementResizing info) :
    c.isDragging = true ∧ c.selectedHandle = some info := by
  unfold ImageCombiner.activeTransform at h
  cases hdrag : c.isDragging with
  | false => simp [hdrag] at h
  | true =>
    simp only [hdrag, Bool.not_true, Bool.false_eq_true, if_false] at h
    split at h
    · simp at h
    · rename_i hsel hneg
      simp only [ImageCombiner.Transform.elementResizing.injEq] at h
      exact ⟨rfl, by rw [hsel, h]⟩
    · simp at h
    · simp at h

theorem activeTransform_moving (c : ImageCombiner) (image : Nat)
    (h : ImageCombiner.activeTransform c = .elementMoving image) :
    c.isDragging = true ∧ c.selectedImage = some image := by
  unfold ImageCombiner.activeTransform at h
  cases hdrag : c.isDragging with
  | false => simp [hdrag] at h
  | true =>
    simp only [hdrag, Bool.not_true, Bool.false_eq_true, if_false] at h
    split at h
    · simp at h
    · simp at h
    · rename_i himage hneg1 hneg2
      simp only [ImageCombiner.Transform.elementMoving.injEq] at h
      exact ⟨rfl, by rw [himage, h]⟩
    · simp at h

/-- C27. No pointer-move reads a missing snapshot. From every Idle state, the
constructed canvas included, after every sequence of pointer-down, pointer-move
and pointer-up events: the drag-start viewport size is recorded whenever the
dispatch of `handleMouseMove` is a viewport resize, the drag-start element state
is recorded whenever it is an element resize or an element move, and
`handleMouseMove` returns for every pointer position. -/
theorem pointerMove_reads_recorded_snapshot (c : ImageCombiner)
    (hidle : ImageCombiner.isIdle c = true) (events : List ImageCombiner.PointerEvent) :
    SnapshotsRecorded (ImageCombiner.runPointerEvents c events)
      ∧ (∀ handle : CanvasHandle,
          ImageCombiner.activeTransform (ImageCombiner.runPointerEvents c events)
              = .viewportResizing handle →
          (ImageCombiner.runPointerEvents c events).canvasResizeStartState.isSome = true)
      ∧ (∀ info : HandleInfo,
          ImageCombiner.activeTransform (ImageCombiner.runPointerEvents c events)
              = .elementResizing info →
          (ImageCombiner.runPointerEvents c events).initialImageState.isSome = true)
      ∧ (∀ image : Nat,
          ImageCombiner.activeTransform (ImageCombiner.runPointerEvents c events)
              = .elementMoving image →
          (ImageCombiner.runPointerEvents c events).initialImageState.isSome = true)
      ∧ ∀ e : MouseEvent,
          (ImageCombiner.handleMouseMove (ImageCombiner.runPointerEvents c events) e).isSome
            = true := by
  simp only [ImageCombiner.isIdle, Bool.and_eq_true, Bool.not_eq_true',
    Option.isNone_iff_eq_none] at hidle
  obtain ⟨⟨⟨⟨-, hflag⟩, -⟩, hsel⟩, himage⟩ := hidle
  have h0 : SnapshotsRecorded c := by
    refine ⟨fun h => ?_, fun h => ?_, fun h => ?_⟩
    · rw [hflag] at h
      exact Bool.noConfusion h
    · rw [hsel] at h
      exact Bool.noConfusion h
    · rw [himage] at h
      exact Bool.noConfusion h
  have hrun := snapshotsRecorded_run events c h0
  refine ⟨hrun, fun handle h => ?_, fun info h => ?_, fun image h => ?_,
    fun e => handleMouseMove_isSome _ e hrun⟩
  · exact hrun.1 (activeTransform_viewport _ handle h).2.1
  · exact hrun.2.1 (by rw [(activeTransform_resizing _ info h).2]; rfl)
  · exact hrun.2.2 (by rw [(activeTransform_moving _ image h).2]; rfl)

/-- Witness of C27: the constructed canvas after two pointer-downs in a row, on
the east handle of the left element and on its body; the next pointer-move
returns. -/
theorem pointerMove_reads_recorded_snapshot_witness :
    ImageCombiner.isIdle Examples.constructed = true
      ∧ SnapshotsRecorded
          (ImageCombiner.runPointerEvents Examples.constructed
            [.down Examples.downOnLeftEast, .down Examples.downOnBody])
      ∧ ∀ e : MouseEvent,
          (ImageCombiner.handleMouseMove
            (ImageCombiner.runPointerEvents Examples.constructed
              [.down Examples.downOnLeftEast, .down Examples.downOnBody]) e).isSome = true :=
  ⟨rfl,
    (pointerMove_reads_recorded_snapshot Examples.constructed rfl
      [.down Examples.downOnLeftEast, .down Examples.downOnBody]).1,
    (pointerMove_reads_recorded_snapshot Examples.constructed rfl
      [.down Examples.downOnLeftEast, .down Examples.downOnBody]).2.2.2.2⟩

/-! ### One transform at a time -/

theorem handleMouseDown_grabbedEast :
    ImageCombiner.handleMouseDown Examples.constructed Examples.downOnLeftEast
      = Examples.grabbedEast := by
  have hcanvas : inCanvasHotspot Examples.constructed Examples.downOnLeftEast.pos = false := by
    simp only [inCanvasHotspot, ImageCombiner.getCanvasResizeHandles, Examples.constructed,
      Examples.downOnLeftEast, List.any_cons, List.any_nil, ImageCombiner.canvasHandleHit]
    norm_num
  have hentry : Examples.leftImage.getHandleAtPoint Examples.downOnLeftEast.pos.x
      Examples.downOnLeftEast.pos.y = some (.e, Examples.leftImage.handles.e) := by
    simp only [ResizableImage.getHandleAtPoint, ResizableImage.handleEntries,
      Examples.leftImage, ResizableImage.new, ResizableImage.createHandlesAt,
      Examples.downOnLeftEast, ResizableImage.handleHit, List.find?_cons]
    norm_num
  have hfind : ImageCombiner.findHandleHit Examples.downOnLeftEast.pos.x
      Examples.downOnLeftEast.pos.y Examples.constructed.images 0
      = some (0, Examples.leftImage, .e, Examples.leftImage.handles.e) := by
    simp only [Examples.constructed, ImageCombiner.findHandleHit, hentry]
  have hb : ¬ Examples.downOnLeftEast.button ≠ 0 := by decide
  simp only [ImageCombiner.handleMouseDown, hb, if_false,
    getCanvasHandleAtPoint_of_miss _ _ hcanvas, hfind]
  rfl

theorem handleMouseDown_grabbedEast_body :
    ImageCombiner.handleMouseDown Examples.grabbedEast Examples.downOnBody
      = { Examples.grabbedEast with
          selectedImage := some 0,
          images := (ImageCombiner.clearSelection Examples.grabbedEast.images).set 0
                      { Examples.leftImage with selected := true },
          isDragging := true, dragStartPos := Examples.downOnBody.pos,
          initialImageState := some { Examples.leftImage with selected := true } } := by
  have hcanvas : inCanvasHotspot Examples.grabbedEast Examples.downOnBody.pos = false := by
    simp only [inCanvasHotspot, ImageCombiner.getCanvasResizeHandles, Examples.grabbedEast,
      Examples.constructed, Examples.downOnBody, List.any_cons, List.any_nil,
      ImageCombiner.canvasHandleHit]
    norm_num
  have hnoHandle : ∀ r ∈ Examples.grabbedEast.images,
      inElementHotspot Examples.downOnBody.pos r = false := by
    intro r hr
    simp only [Examples.grabbedEast, Examples.constructed, List.mem_cons, List.mem_singleton,
      List.not_mem_nil, or_false] at hr
    rcases hr with rfl | rfl
    · simp only [inElementHotspot, ResizableImage.handleEntries, Examples.leftImage,
        ResizableImage.new, ResizableImage.createHandlesAt, Examples.downOnBody,
        List.any_cons, List.any_nil, ResizableImage.handleHit]
      norm_num
    · simp only [inElementHotspot, ResizableImage.handleEntries, Examples.rightImage,
        ResizableImage.new, ResizableImage.createHandlesAt, Examples.downOnBody,
        List.any_cons, List.any_nil, ResizableImage.handleHit]
      norm_num
  have hbody : ImageCombiner.findBodyHit Examples.downOnBody.pos.x Examples.downOnBody.pos.y
      Examples.grabbedEast.images 0 = some (0, Examples.leftImage) := by
    have hin : Examples.leftImage.containsPoint Examples.downOnBody.pos.x
        Examples.downOnBody.pos.y = true := by
      simp only [ResizableImage.containsPoint, Examples.leftImage, ResizableImage.new,
        Examples.downOnBody]
      norm_num
    simp only [Examples.grabbedEast, Examples.constructed, ImageCombiner.findBodyHit, hin,
      if_true]
  have hb : ¬ Examples.downOnBody.button ≠ 0 := by decide
  simp only [ImageCombiner.handleMouseDown, hb, if_false,
    getCanvasHandleAtPoint_of_miss _ _ hcanvas,
    findHandleHit_none _ _ _ hnoHandle, hbody]

/-- C23, refuted as stated. From the constructed canvas, which is Idle, a
pointer-down on the east handle of the left element followed, with no
pointer-up in between, by a pointer-down on the body of that element leaves
`selectedHandle` and `selectedImage` both set: `handleMouseDown` sets the field
of the transform it starts and does not clear the others. -/
theorem two_transforms_after_two_downs :
    ImageCombiner.isIdle Examples.constructed = true
      ∧ (ImageCombiner.runPointerEvents Examples.constructed
          [.down Examples.downOnLeftEast, .down Examples.downOnBody]).selectedHandle
        = some { type := .e, handle := Examples.leftImage.handles.e, image := 0 }
      ∧ (ImageCombiner.runPointerEvents Examples.constructed
          [.down Examples.downOnLeftEast, .down Examples.downOnBody]).selectedImage = some 0
      ∧ ¬ AtMostOneTransform
          (ImageCombiner.runPointerEvents Examples.constructed
            [.down Examples.downOnLeftEast, .down Examples.downOnBody]) := by
  have hrun : ImageCombiner.runPointerEvents Examples.constructed
      [.down Examples.downOnLeftEast, .down Examples.downOnBody]
      = ImageCombiner.handleMouseDown Examples.grabbedEast Examples.downOnBody := by
    simp only [ImageCombiner.runPointerEvents, List.foldl_cons, List.foldl_nil,
      ImageCombiner.handlePointerEvent, handleMouseDown_grabbedEast]
  rw [hrun, handleMouseDown_grabbedEast_body]
  refine ⟨rfl, rfl, rfl, ?_⟩
  intro h
  exact h.2.2 ⟨rfl, rfl⟩

theorem oneTransform_step (c : ImageCombiner) (event : ImageCombiner.PointerEvent)
    (h1 : AtMostOneTransform c) (h2 : c.isDragging = false → ImageCombiner.isIdle c = true)
    (hdown : match event with
      | .down e => e.button = 0 → c.isDragging = false
      | _ => True) :
    AtMostOneTransform (ImageCombiner.handlePointerEvent c event)
      ∧ ((ImageCombiner.handlePointerEvent c event).isDragging = false →
          ImageCombiner.isIdle (ImageCombiner.handlePointerEvent c event) = true) := by
  cases event with
  | down e =>
    show AtMostOneTransform (ImageCombiner.handleMouseDown c e)
      ∧ ((ImageCombiner.handleMouseDown c e).isDragging = false →
          ImageCombiner.isIdle (ImageCombiner.handleMouseDown c e) = true)
    by_cases hb : e.button = 0
    · have hrel : c.isDragging = false := hdown hb
      have hidle := h2 hrel
      simp only [ImageCombiner.isIdle, Bool.and_eq_true, Bool.not_eq_true',
        Option.isNone_iff_eq_none] at hidle
      obtain ⟨⟨⟨⟨-, hflag⟩, hgrab⟩, hsel⟩, himage⟩ := hidle
      rcases handleMouseDown_cases c e with hc | ⟨handle, hc⟩ | ⟨info, image, hc⟩
        | ⟨index, image, -, hc⟩ | hc <;> rw [hc]
      · exact ⟨h1, h2⟩
      · simp [AtMostOneTransform, hsel, himage]
      · simp [AtMostOneTransform, hflag, himage]
      · simp [AtMostOneTransform, hflag, hsel]
      · simp [AtMostOneTransform, ImageCombiner.isIdle]
    · have hsame : ImageCombiner.handleMouseDown c e = c := by
        unfold ImageCombiner.handleMouseDown
        exact if_pos hb
      rw [hsame]
      exact ⟨h1, h2⟩
  | move e =>
    show AtMostOneTransform (ImageCombiner.stateAfter c (ImageCombiner.handleMouseMove c e))
      ∧ ((ImageCombiner.stateAfter c (ImageCombiner.handleMouseMove c e)).isDragging = false →
          ImageCombiner.isIdle
            (ImageCombiner.stateAfter c (ImageCombiner.handleMouseMove c e)) = true)
    obtain ⟨canvas, images, hc⟩ := handleMouseMove_frame c e
    rw [hc]
    exact ⟨h1, h2⟩
  | up =>
    show AtMostOneTransform (ImageCombiner.handleMouseUp c)
      ∧ ((ImageCombiner.handleMouseUp c).isDragging = false →
          ImageCombiner.isIdle (ImageCombiner.handleMouseUp c) = true)
    simp [AtMostOneTransform, ImageCombiner.isIdle, ImageCombiner.handleMouseUp]

theorem oneTransform_run (events : List ImageCombiner.PointerEvent) (c : ImageCombiner)
    (h1 : AtMostOneTransform c) (h2 : c.isDragging = false → ImageCombiner.isIdle c = true)
    (hdowns : DownsWhenReleased c events) :
    AtMostOneTransform (ImageCombiner.runPointerEvents c events)
      ∧ ((ImageCombiner.runPointerEvents c events).isDragging = false →
          ImageCombiner.isIdle (ImageCombiner.runPointerEvents c events) = true) := by
  induction events generalizing c with
  | nil => exact ⟨h1, h2⟩
  | cons event rest ih =>
    simp only [ImageCombiner.runPointerEvents, List.foldl_cons] at ih ⊢
    obtain ⟨hdown, hrest⟩ := hdowns
    obtain ⟨s1, s2⟩ := oneTransform_step c event h1 h2 hdown
    exact ih _ s1 s2 hrest

/-- C23, amended. From every Idle state, after every sequence of pointer-down,
pointer-move and pointer-up events in which each left-button pointer-down
arrives while no drag is in progress, no two of the three conditions
`isResizingCanvas` is true, `selectedHandle` is not null and `selectedImage` is
not null hold together, and the state is Idle whenever no drag is in
progress. -/
theorem one_transform_amended (c : ImageCombiner) (hidle : ImageCombiner.isIdle c = true)
    (events : List ImageCombiner.PointerEvent) (hdowns : DownsWhenReleased c events) :
    AtMostOneTransform (ImageCombiner.runPointerEvents c events)
      ∧ ((ImageCombiner.runPointerEvents c events).isDragging = false →
          ImageCombiner.isIdle (ImageCombiner.runPointerEvents c events) = true) := by
  have h0 : AtMostOneTransform c := by
    have hidle' := hidle
    simp only [ImageCombiner.isIdle, Bool.and_eq_true, Bool.not_eq_true',
      Option.isNone_iff_eq_none] at hidle'
    obtain ⟨⟨⟨⟨-, hflag⟩, -⟩, hsel⟩, himage⟩ := hidle'
    simp [AtMostOneTransform, hflag, hsel, himage]
  exact oneTransform_run events c h0 (fun _ => hidle) hdowns

/-- Witness of C23, amended: on the scene `Examples.boundScene` a pointer-down on
the south-east handle of the left element and a pointer-move, after which the
element resize is the one transform in progress. -/
theorem one_transform_amended_witness :
    ImageCombiner.isIdle Examples.boundScene = true
      ∧ DownsWhenReleased Examples.boundScene
          [.down Examples.downOnSe, .move Examples.moveNear]
      ∧ AtMostOneTransform
          (ImageCombiner.runPointerEvents Examples.boundScene
            [.down Examples.downOnSe, .move Examples.moveNear]) :=
  ⟨rfl, ⟨fun _ => rfl, trivial, trivial⟩,
    (one_transform_amended Examples.boundScene rfl
      [.down Examples.downOnSe, .move Examples.moveNear] ⟨fun _ => rfl, trivial, trivial⟩).1⟩

/-! ### Handles are derived from the rectangle -/

/-- After `updateHandles` the handles are those of the current rectangle, provided
they were created by `createHandles` for some rectangle (so that their sizes and
cursors are the standard ones). -/
theorem updateHandles_derived (r : ResizableImage) (x y width height : ℚ)
    (hr : r.handles = ResizableImage.createHandlesAt x y width height) :
    HandlesDerived (ResizableImage.updateHandles r) := by
  simp [HandlesDerived, ResizableImage.updateHandles, ResizableImage.createHandles,
    ResizableImage.createHandlesAt, hr]

theorem clampLeft_handles (image : ResizableImage) :
    (ImageCombiner.clampLeft image).handles = image.handles := by
  unfold ImageCombiner.clampLeft
  split_ifs <;> rfl

theorem clampTop_handles (image : ResizableImage) :
    (ImageCombiner.clampTop image).handles = image.handles := by
  unfold ImageCombiner.clampTop
  split_ifs <;> rfl

theorem clampRight_handles (c : ImageCombiner) (image : ResizableImage) :
    (ImageCombiner.clampRight c image).handles = image.handles := by
  unfold ImageCombiner.clampRight
  split_ifs <;> rfl

theorem clampBottom_handles (c : ImageCombiner) (image : ResizableImage) :
    (ImageCombiner.clampBottom c image).handles = image.handles := by
  unfold ImageCombiner.clampBottom
  split_ifs <;> rfl

theorem ensureMinWidth_handles (image : ResizableImage) :
    (ImageCombiner.ensureMinWidth image).handles = image.handles := by
  unfold ImageCombiner.ensureMinWidth
  split_ifs <;> rfl

theorem ensureMinHeight_handles (image : ResizableImage) :
    (ImageCombiner.ensureMinHeight image).handles = image.handles := by
  unfold ImageCombiner.ensureMinHeight
  split_ifs <;> rfl

theorem constrainImageToCanvas_derived (c : ImageCombiner) (image : ResizableImage)
    (hc : c.isResizingCanvas = false) (x y width height : ℚ)
    (hstd : image.handles = ResizableImage.createHandlesAt x y width height) :
    HandlesDerived (ImageCombiner.constrainImageToCanvas c image) := by
  unfold ImageCombiner.constrainImageToCanvas
  simp only [hc, Bool.false_eq_true, if_false]
  apply updateHandles_derived _ x y width height
  rw [ensureMinHeight_handles, ensureMinWidth_handles, clampBottom_handles, clampRight_handles,
    clampTop_handles, clampLeft_handles]
  exact hstd

theorem resizeElement_derived (c : ImageCombiner) (init image : ResizableImage)
    (handleType : HandleType) (dx dy : ℚ) (hc : c.isResizingCanvas = false)
    (hD : HandlesDerived image) :
    HandlesDerived (ImageCombiner.resizeElement c init image handleType dx dy) := by
  unfold ImageCombiner.resizeElement
  simp only [hc, Bool.not_false, if_true]
  split_ifs
  · exact constrainImageToCanvas_derived c _ hc image.x image.y image.width image.height hD
  · exact hD

theorem derived_set (l : List ResizableImage) (i : Nat) (r : ResizableImage)
    (hD : ∀ a ∈ l, HandlesDerived a) (hr : HandlesDerived r) :
    ∀ a ∈ l.set i r, HandlesDerived a := by
  intro a ha
  rcases List.mem_or_eq_of_mem_set ha with hmem | heq
  · exact hD a hmem
  · rw [heq]
    exact hr

theorem resizeWithHandle_derived (c : ImageCombiner) (handleInfo : HandleInfo) (dx dy : ℚ)
    (hc : c.isResizingCanvas = false) (hD : ∀ r ∈ c.images, HandlesDerived r) :
    ∀ r ∈ (ImageCombiner.stateAfter c
        (ImageCombiner.resizeWithHandle c handleInfo dx dy)).images, HandlesDerived r := by
  unfold ImageCombiner.resizeWithHandle ImageCombiner.stateAfter
  split
  · exact hD
  · split
    · exact hD
    · rename_i image hget
      exact derived_set _ _ _ hD
        (resizeElement_derived c _ image _ _ _ hc (hD image (List.get?_mem hget)))

theorem moveImage_derived (c : ImageCombiner) (image : Nat) (dx dy : ℚ)
    (hc : c.isResizingCanvas = false) (hD : ∀ r ∈ c.images, HandlesDerived r) :
    ∀ r ∈ (ImageCombiner.stateAfter c (ImageCombiner.moveImage c image dx dy)).images,
      HandlesDerived r := by
  unfold ImageCombiner.moveImage ImageCombiner.stateAfter
  split
  · exact hD
  · split
    · exact hD
    · rename_i img hget
      simp only [hc, Bool.not_false, if_true]
      exact derived_set _ _ _ hD
        (constrainImageToCanvas_derived c _ hc img.x img.y img.width img.height
          (hD img (List.get?_mem hget)))

theorem restoreImages_derived :
    ∀ (preserved : List ImageCombiner.Preserved) (images : List ResizableImage),
      (∀ r ∈ images, HandlesDerived r) →
      ∀ r ∈ ImageCombiner.restoreImages preserved images, HandlesDerived r
  | [], images, hD => by
    simpa [ImageCombiner.restoreImages] using hD
  | _ :: _, [], _ => by
    simp [ImageCombiner.restoreImages]
  | p :: ps, img :: imgs, hD => by
    intro r hr
    simp only [ImageCombiner.restoreImages, List.mem_cons] at hr
    rcases hr with rfl | hr
    · exact updateHandles_derived _ img.x img.y img.width img.height
        (hD img (List.mem_cons_self _ _))
    · exact restoreImages_derived ps imgs
        (fun a ha => hD a (List.mem_cons_of_mem _ ha)) r hr

theorem handleCanvasResize_derived (c : ImageCombiner) (deltaX deltaY : ℚ)
    (handleName : HandleType) (hD : ∀ r ∈ c.images, HandlesDerived r) :
    ∀ r ∈ (ImageCombiner.stateAfter c
        (ImageCombiner.handleCanvasResize c deltaX deltaY handleName)).images,
      HandlesDerived r := by
  unfold ImageCombiner.handleCanvasResize ImageCombiner.stateAfter
  split
  · exact hD
  · simp only
    split_ifs
    · exact restoreImages_derived _ _ hD
    · exact hD

theorem handleMouseMove_derived (c : ImageCombiner) (e : MouseEvent)
    (hL : c.isResizingCanvas = true → c.canvasResizeHandle.isSome = true)
    (hD : ∀ r ∈ c.images, HandlesDerived r) :
    ∀ r ∈ (ImageCombiner.stateAfter c (ImageCombiner.handleMouseMove c e)).images,
      HandlesDerived r := by
  have hflag : (∀ handle : CanvasHandle, c.isResizingCanvas = true →
      c.canvasResizeHandle = some handle → False) → c.isResizingCanvas = false := by
    intro hneg
    by_contra hf
    have ht : c.isResizingCanvas = true := (Bool.not_eq_false _).mp hf
    obtain ⟨handle, hh⟩ := Option.isSome_iff_exists.mp (hL ht)
    exact hneg handle ht hh
  by_cases hdrag : c.isDragging = true
  · by_cases hmoved : reachesThreshold c e
    · rw [handleMouseMove_dispatch c e hdrag hmoved]
      split
      · exact handleCanvasResize_derived c _ _ _ hD
      · rename_i hsel hneg
        exact resizeWithHandle_derived c _ _ _ (hflag hneg) hD
      · rename_i himage hneg hneg2
        exact moveImage_derived c _ _ _ (hflag hneg) hD
      · exact hD
    · rw [handleMouseMove_below c e hmoved]
      exact hD
  · rw [handleMouseMove_released c e ((Bool.not_eq_true _).mp hdrag)]
    exact hD

theorem clearSelection_derived (images : List ResizableImage)
    (hD : ∀ r ∈ images, HandlesDerived r) :
    ∀ r ∈ ImageCombiner.clearSelection images, HandlesDerived r := by
  intro r hr
  simp only [ImageCombiner.clearSelection, List.mem_map] at hr
  obtain ⟨a, ha, rfl⟩ := hr
  exact hD a ha

theorem handlePointerEvent_derived (c : ImageCombiner) (event : ImageCombiner.PointerEvent)
    (hD : ∀ r ∈ c.images, HandlesDerived r)
    (hL : c.isResizingCanvas = true → c.canvasResizeHandle.isSome = true) :
    (∀ r ∈ (ImageCombiner.handlePointerEvent c event).images, HandlesDerived r)
      ∧ ((ImageCombiner.handlePointerEvent c event).isResizingCanvas = true →
          (ImageCombiner.handlePointerEvent c event).canvasResizeHandle.isSome = true) := by
  cases event with
  | down e =>
    show (∀ r ∈ (ImageCombiner.handleMouseDown c e).images, HandlesDerived r)
      ∧ ((ImageCombiner.handleMouseDown c e).isResizingCanvas = true →
          (ImageCombiner.handleMouseDown c e).canvasResizeHandle.isSome = true)
    rcases handleMouseDown_cases c e with hc | ⟨handle, hc⟩ | ⟨info, image, hc⟩
      | ⟨index, image, hget, hc⟩ | hc <;> rw [hc]
    · exact ⟨hD, hL⟩
    · exact ⟨hD, fun _ => rfl⟩
    · exact ⟨hD, hL⟩
    · exact ⟨derived_set _ _ _ (clearSelection_derived _ hD) (hD image (List.get?_mem hget)),
        hL⟩
    · exact ⟨clearSelection_derived _ hD, fun hf => Bool.noConfusion hf⟩
  | move e =>
    refine ⟨handleMouseMove_derived c e hL hD, ?_⟩
    show (ImageCombiner.stateAfter c (ImageCombiner.handleMouseMove c e)).isResizingCanvas = true →
      (ImageCombiner.stateAfter c (ImageCombiner.handleMouseMove c e)).canvasResizeHandle.isSome
        = true
    obtain ⟨canvas, images, hc⟩ := handleMouseMove_frame c e
    rw [hc]
    exact hL
  | up =>
    exact ⟨hD, fun hf => Bool.noConfusion hf⟩

theorem setImage_element_derived (r : ResizableImage) (img : Img) (x y width height : ℚ)
    (hstd : r.handles = ResizableImage.createHandlesAt x y width height) :
    HandlesDerived (r.setImage img) := by
  unfold ResizableImage.setImage ResizableImage.fitToCurrentBounds
  simp only
  split_ifs <;> exact updateHandles_derived _ x y width height hstd

theorem addImage_derived (c : ImageCombiner) (id : String) (x y width height : ℚ)
    (hD : ∀ r ∈ c.images, HandlesDerived r) :
    ∀ r ∈ (ImageCombiner.addImage c id x y width height).images, HandlesDerived r := by
  intro r hr
  simp only [ImageCombiner.addImage, List.mem_append, List.mem_singleton] at hr
  rcases hr with hr | rfl
  · exact hD r hr
  · rfl

theorem addScreenshotArea_derived (c : ImageCombiner) (newId : String)
    (hD : ∀ r ∈ c.images, HandlesDerived r) :
    ∀ r ∈ (ImageCombiner.addScreenshotArea c newId).images, HandlesDerived r := by
  unfold ImageCombiner.addScreenshotArea
  exact addImage_derived _ _ _ _ _ _ hD

theorem removeImage_derived (c : ImageCombiner) (imageId : String)
    (hD : ∀ r ∈ c.images, HandlesDerived r) :
    ∀ r ∈ (ImageCombiner.removeImage c imageId).images, HandlesDerived r := by
  unfold ImageCombiner.removeImage
  split
  · split_ifs
    · intro r hr
      exact hD r ((List.eraseIdx_sublist _ _).subset hr)
    · exact hD
  · exact hD

/-- The state `setImage` works on after choosing its target: the state it started
from, or that state with a new screenshot area. -/
theorem setImageTarget_state (c : ImageCombiner) (side newId : String) :
    (ImageCombiner.setImageTarget c side newId).1 = c
      ∨ (ImageCombiner.setImageTarget c side newId).1
        = ImageCombiner.addScreenshotArea c newId := by
  unfold ImageCombiner.setImageTarget
  by_cases h1 : side = "left"
  · rw [if_pos h1]
    exact Or.inl rfl
  · rw [if_neg h1]
    by_cases h2 : side = "right"
    · rw [if_pos h2]
      exact Or.inl rfl
    · rw [if_neg h2]
      by_cases h3 : ResizableImage.startsWith side "screenshot-" = true
      · rw [if_pos h3]
        exact Or.inl rfl
      · rw [if_neg h3]
        split
        · exact Or.inl rfl
        · exact Or.inr rfl

theorem setImageTarget_derived (c : ImageCombiner) (side newId : String)
    (hD : ∀ r ∈ c.images, HandlesDerived r) :
    ∀ r ∈ (ImageCombiner.setImageTarget c side newId).1.images, HandlesDerived r := by
  rcases setImageTarget_state c side newId with h | h <;> rw [h]
  · exact hD
  · exact addScreenshotArea_derived c newId hD

theorem setImage_derived (c : ImageCombiner) (img : Img) (side newId : String)
    (hD : ∀ r ∈ c.images, HandlesDerived r) :
    ∀ r ∈ (ImageCombiner.setImage c img side newId).images, HandlesDerived r := by
  have ht := setImageTarget_derived c side newId hD
  unfold ImageCombiner.setImage
  simp only
  split
  · exact ht
  · split
    · exact ht
    · rename_i targetImage hget
      have htarget := ht targetImage (List.get?_mem hget)
      split_ifs <;>
        exact derived_set _ _ _ ht
          (setImage_element_derived _ img targetImage.x targetImage.y targetImage.width
            targetImage.height htarget)

/-- The operations other than pointer events leave the viewport-resize flag and
the grabbed viewport hotspot alone. -/
theorem applyCanvasOp_flags (c : ImageCombiner) (op : ImageCombiner.CanvasOp)
    (hop : ∀ event, op ≠ .pointer event) :
    (ImageCombiner.applyCanvasOp c op).isResizingCanvas = c.isResizingCanvas
      ∧ (ImageCombiner.applyCanvasOp c op).canvasResizeHandle = c.canvasResizeHandle := by
  cases op with
  | pointer event => exact absurd rfl (hop event)
  | setImage img side newId =>
    show (ImageCombiner.setImage c img side newId).isResizingCanvas = c.isResizingCanvas
      ∧ (ImageCombiner.setImage c img side newId).canvasResizeHandle = c.canvasResizeHandle
    have ht : (ImageCombiner.setImageTarget c side newId).1.isResizingCanvas
          = c.isResizingCanvas
        ∧ (ImageCombiner.setImageTarget c side newId).1.canvasResizeHandle
          = c.canvasResizeHandle := by
      rcases setImageTarget_state c side newId with h | h <;> rw [h] <;> exact ⟨rfl, rfl⟩
    unfold ImageCombiner.setImage
    simp only
    split
    · exact ht
    · split
      · exact ht
      · split_ifs <;> exact ht
  | addImage id x y width height => exact ⟨rfl, rfl⟩
  | addScreenshotArea newId => exact ⟨rfl, rfl⟩
  | removeImage imageId =>
    show (ImageCombiner.removeImage c imageId).isResizingCanvas = c.isResizingCanvas
      ∧ (ImageCombiner.removeImage c imageId).canvasResizeHandle = c.canvasResizeHandle
    unfold ImageCombiner.removeImage
    split
    · split_ifs
      · exact ⟨rfl, rfl⟩
      · exact ⟨rfl, rfl⟩
    · exact ⟨rfl, rfl⟩

theorem applyCanvasOp_derived (c : ImageCombiner) (op : ImageCombiner.CanvasOp)
    (hD : ∀ r ∈ c.images, HandlesDerived r)
    (hL : c.isResizingCanvas = true → c.canvasResizeHandle.isSome = true) :
    (∀ r ∈ (ImageCombiner.applyCanvasOp c op).images, HandlesDerived r)
      ∧ ((ImageCombiner.applyCanvasOp c op).isResizingCanvas = true →
          (ImageCombiner.applyCanvasOp c op).canvasResizeHandle.isSome = true) := by
  cases op with
  | pointer event => exact handlePointerEvent_derived c event hD hL
  | setImage img side newId =>
    obtain ⟨f1, f2⟩ := applyCanvasOp_flags c (.setImage img side newId)
      (fun _ h => ImageCombiner.CanvasOp.noConfusion h)
    refine ⟨setImage_derived c img side newId hD, ?_⟩
    rw [f1, f2]
    exact hL
  | addImage id x y width height =>
    exact ⟨addImage_derived c id x y width height hD, hL⟩
  | addScreenshotArea newId =>
    exact ⟨addScreenshotArea_derived c newId hD, hL⟩
  | removeImage imageId =>
    obtain ⟨f1, f2⟩ := applyCanvasOp_flags c (.removeImage imageId)
      (fun _ h => ImageCombiner.CanvasOp.noConfusion h)
    refine ⟨removeImage_derived c imageId hD, ?_⟩
    rw [f1, f2]
    exact hL

theorem runCanvasOps_derived (ops : List ImageCombiner.CanvasOp) (c : ImageCombiner)
    (hD : ∀ r ∈ c.images, HandlesDerived r)
    (hL : c.isResizingCanvas = true → c.canvasResizeHandle.isSome = true) :
    ∀ r ∈ (ImageCombiner.runCanvasOps c ops).images, HandlesDerived r := by
  induction ops generalizing c with
  | nil => exact hD
  | cons op rest ih =>
    simp only [ImageCombiner.runCanvasOps, List.foldl_cons] at ih ⊢
    obtain ⟨s1, s2⟩ := applyCanvasOp_derived c op hD hL
    exact ih _ s1 s2

/-- The hotspots `createHandles` computes are the 8 x 8 squares centred on the
corners and edge midpoints of the rectangle. -/
theorem derived_centred (r : ResizableImage) (hD : HandlesDerived r) :
    ∀ entry ∈ ResizableImage.handleEntries r.handles,
      entry.2.size = 8 ∧ entry.2.x + entry.2.size / 2 = (handleAnchor r entry.1).x
        ∧ entry.2.y + entry.2.size / 2 = (handleAnchor r entry.1).y := by
  intro entry hmem
  unfold HandlesDerived at hD
  rw [hD] at hmem
  simp only [ResizableImage.handleEntries, ResizableImage.createHandles,
    ResizableImage.createHandlesAt, List.mem_cons, List.mem_singleton, List.not_mem_nil,
    or_false] at hmem
  rcases hmem with rfl | rfl | rfl | rfl | rfl | rfl | rfl | rfl <;>
    refine ⟨rfl, ?_, ?_⟩ <;> simp only [handleAnchor] <;> ring

/-- C22. Handle hotspots are always derived from the rectangle. In every state
reachable from the constructed canvas by pointer events and by `setImage`,
`addImage`, `addScreenshotArea` and `removeImage`, the handles of every element
equal what `createHandles` computes from its current `(x, y, width, height)`:
each of the 8 hotspots is the 8 x 8 square centred on the corner or edge
midpoint it is named after. -/
theorem handles_derived_from_rectangle (ops : List ImageCombiner.CanvasOp) :
    ∀ r ∈ (ImageCombiner.runCanvasOps Examples.constructed ops).images,
      r.handles = r.createHandles
        ∧ ∀ entry ∈ ResizableImage.handleEntries r.handles,
            entry.2.size = 8 ∧ entry.2.x + entry.2.size / 2 = (handleAnchor r entry.1).x
              ∧ entry.2.y + entry.2.size / 2 = (handleAnchor r entry.1).y := by
  intro r hr
  have h0 : ∀ a ∈ Examples.constructed.images, HandlesDerived a := by
    intro a ha
    simp only [Examples.constructed, List.mem_cons, List.mem_singleton, List.not_mem_nil,
      or_false] at ha
    rcases ha with rfl | rfl <;> rfl
  have hD := runCanvasOps_derived ops Examples.constructed h0
    (fun hf => Bool.noConfusion hf) r hr
  exact ⟨hD, derived_centred r hD⟩

/-- Witness of C22: the constructed canvas after a pointer-down on the east
handle of the left element and a pointer-move 100 to the left; the left element
is then 615 wide and its handles are those of its new rectangle. -/
theorem handles_derived_from_rectangle_witness :
    ∃ r : ResizableImage,
      (ImageCombiner.runCanvasOps Examples.constructed
          [.pointer (.down Examples.downOnLeftEast),
           .pointer (.move Examples.moveLeft100)]).images.get? 0 = some r
        ∧ r.width = 615 ∧ r.handles = r.createHandles := by
  obtain ⟨heq, hget⟩ := resizeWithHandle_eq Examples.grabbedEast Examples.leftImage
    Examples.leftImage { type := .e, handle := Examples.leftImage.handles.e, image := 0 }
    (-100) 0 rfl rfl
  have hmoved : reachesThreshold Examples.grabbedEast Examples.moveLeft100 := by
    simp only [reachesThreshold, Examples.grabbedEast, Examples.constructed,
      Examples.moveLeft100, Bool.false_eq_true, if_false]
    norm_num
  have hmove : ImageCombiner.handleMouseMove Examples.grabbedEast Examples.moveLeft100
      = ImageCombiner.resizeWithHandle Examples.grabbedEast
          { type := .e, handle := Examples.leftImage.handles.e, image := 0 } (-100) 0 := by
    rw [handleMouseMove_resize Examples.grabbedEast
      { type := .e, handle := Examples.leftImage.handles.e, image := 0 } Examples.moveLeft100
      rfl rfl rfl hmoved]
    norm_num [Examples.moveLeft100, Examples.grabbedEast]
  have hrun : ImageCombiner.runCanvasOps Examples.constructed
      [.pointer (.down Examples.downOnLeftEast), .pointer (.move Examples.moveLeft100)]
      = { Examples.grabbedEast with
          images :=
            Examples.grabbedEast.images.set 0
              (ImageCombiner.resizeElement Examples.grabbedEast Examples.leftImage
                Examples.leftImage .e (-100) 0) } := by
    simp only [ImageCombiner.runCanvasOps, List.foldl_cons, List.foldl_nil,
      ImageCombiner.applyCanvasOp, ImageCombiner.handlePointerEvent,
      handleMouseDown_grabbedEast, hmove, heq, ImageCombiner.stateAfter, Option.getD_some]
  have hget' : (ImageCombiner.runCanvasOps Examples.constructed
      [.pointer (.down Examples.downOnLeftEast),
       .pointer (.move Examples.moveLeft100)]).images.get? 0
      = some (ImageCombiner.resizeElement Examples.grabbedEast Examples.leftImage
          Examples.leftImage .e (-100) 0) := by
    rw [hrun]
    exact hget
  have hacc : ImageCombiner.resizeAccepted
      (ImageCombiner.resizeTarget Examples.leftImage Examples.leftImage .e (-100) 0) = true := by
    simp only [ImageCombiner.resizeAccepted, ImageCombiner.resizeTarget, Examples.leftImage,
      ResizableImage.new, reduceCtorEq, or_self, false_and, if_false]
    norm_num
  obtain ⟨hw, -⟩ := resizeElement_accepted Examples.grabbedEast Examples.leftImage
    Examples.leftImage .e (-100) 0 rfl rfl hacc
  refine ⟨_, hget', ?_,
    (handles_derived_from_rectangle
      [.pointer (.down Examples.downOnLeftEast), .pointer (.move Examples.moveLeft100)]
      _ (List.get?_mem hget')).1⟩
  rw [hw]
  simp only [ImageCombiner.resizeTarget, Examples.leftImage, ResizableImage.new, reduceCtorEq,
    or_self, false_and, if_false]
  norm_num

/-! ### Redraw scheduling -/

theorem redraw_paints (s : ImageCombiner.RedrawState) :
    (ImageCombiner.redraw s).paints = s.paints := by
  unfold ImageCombiner.redraw ImageCombiner.scheduleRedraw
  split_ifs <;> rfl

/-- With at most one callback waiting, and one exactly when the flag is set,
`redraw()` keeps it so. -/
theorem redraw_pending (s : ImageCombiner.RedrawState)
    (h : (s.pendingRedraw = true ∧ s.frameCallbacks = 1)
      ∨ (s.pendingRedraw = false ∧ s.frameCallbacks = 0)) :
    (ImageCombiner.redraw s).pendingRedraw = true
      ∧ (ImageCombiner.redraw s).frameCallbacks = 1 := by
  unfold ImageCombiner.redraw ImageCombiner.scheduleRedraw
  rcases h with ⟨h1, h2⟩ | ⟨h1, h2⟩
  · rw [if_pos h1]
    exact ⟨h1, h2⟩
  · rw [if_neg (by rw [h1]; exact Bool.false_ne_true)]
    exact ⟨rfl, by show s.frameCallbacks + 1 = 1; rw [h2]⟩

/-- The three outcomes of a pointer-move for the redraw bookkeeping: nothing, a
redraw request, or a paint at once followed by a redraw request; the last only
during a viewport resize. -/
theorem mouseMoveRedraw_cases (c : ImageCombiner) (s : ImageCombiner.RedrawState)
    (e : MouseEvent) :
    ImageCombiner.mouseMoveRedraw c s e = s
      ∨ ImageCombiner.mouseMoveRedraw c s e = ImageCombiner.redraw s
      ∨ (c.isResizingCanvas = true
        ∧ ImageCombiner.mouseMoveRedraw c s e
          = ImageCombiner.redraw (ImageCombiner.performRedraw s)) := by
  unfold ImageCombiner.mouseMoveRedraw
  by_cases hdrag : c.isDragging = true
  · simp only [hdrag, Bool.not_true, Bool.false_eq_true, if_false]
    by_cases hmoved : reachesThreshold c e
    · unfold reachesThreshold at hmoved
      rw [if_neg hmoved]
      split
      · rename_i hflag hgrab
        split
        · exact Or.inl rfl
        · split_ifs
          · exact Or.inr (Or.inr ⟨hflag, rfl⟩)
          · exact Or.inr (Or.inl rfl)
      · split
        · exact Or.inl rfl
        · exact Or.inr (Or.inl rfl)
      · split
        · exact Or.inl rfl
        · exact Or.inr (Or.inl rfl)
      · exact Or.inr (Or.inl rfl)
    · unfold reachesThreshold at hmoved
      rw [if_pos (not_not.mp hmoved)]
      exact Or.inl rfl
  · left
    simp [hdrag]

theorem handleDisplayEvent_redraw (st : ImageCombiner × ImageCombiner.RedrawState)
    (event : ImageCombiner.DisplayEvent)
    (h : (st.2.pendingRedraw = true ∧ st.2.frameCallbacks = 1)
      ∨ (st.2.pendingRedraw = false ∧ st.2.frameCallbacks = 0)) :
    (((ImageCombiner.handleDisplayEvent st event).2.pendingRedraw = true
          ∧ (ImageCombiner.handleDisplayEvent st event).2.frameCallbacks = 1)
        ∨ ((ImageCombiner.handleDisplayEvent st event).2.pendingRedraw = false
          ∧ (ImageCombiner.handleDisplayEvent st event).2.frameCallbacks = 0))
      ∧ (ImageCombiner.handleDisplayEvent st event).2.paints
        ≤ st.2.paints + ImageCombiner.pointerMoves [event] := by
  cases event with
  | redrawRequest =>
    exact ⟨Or.inl (redraw_pending st.2 h), le_of_eq (redraw_paints st.2)⟩
  | pointer event =>
    cases event with
    | up => exact ⟨h, le_refl _⟩
    | down e =>
      show (((if ImageCombiner.mouseDownRedraws st.1 e then ImageCombiner.redraw st.2
              else st.2).pendingRedraw = true
            ∧ (if ImageCombiner.mouseDownRedraws st.1 e then ImageCombiner.redraw st.2
                else st.2).frameCallbacks = 1)
          ∨ ((if ImageCombiner.mouseDownRedraws st.1 e then ImageCombiner.redraw st.2
                else st.2).pendingRedraw = false
            ∧ (if ImageCombiner.mouseDownRedraws st.1 e then ImageCombiner.redraw st.2
                else st.2).frameCallbacks = 0))
        ∧ (if ImageCombiner.mouseDownRedraws st.1 e then ImageCombiner.redraw st.2
            else st.2).paints ≤ st.2.paints + 0
      split_ifs
      · exact ⟨Or.inl (redraw_pending st.2 h), le_of_eq (redraw_paints st.2)⟩
      · exact ⟨h, le_refl _⟩
    | move e =>
      show (((ImageCombiner.mouseMoveRedraw st.1 st.2 e).pendingRedraw = true
            ∧ (ImageCombiner.mouseMoveRedraw st.1 st.2 e).frameCallbacks = 1)
          ∨ ((ImageCombiner.mouseMoveRedraw st.1 st.2 e).pendingRedraw = false
            ∧ (ImageCombiner.mouseMoveRedraw st.1 st.2 e).frameCallbacks = 0))
        ∧ (ImageCombiner.mouseMoveRedraw st.1 st.2 e).paints ≤ st.2.paints + 1
      rcases mouseMoveRedraw_cases st.1 st.2 e with hc | hc | ⟨-, hc⟩ <;> rw [hc]
      · exact ⟨h, Nat.le_succ _⟩
      · exact ⟨Or.inl (redraw_pending st.2 h), by rw [redraw_paints]; exact Nat.le_succ _⟩
      · exact ⟨Or.inl (redraw_pending (ImageCombiner.performRedraw st.2) h),
          by rw [redraw_paints]; exact le_refl _⟩

theorem runDisplayEvents_redraw (events : List ImageCombiner.DisplayEvent)
    (st : ImageCombiner × ImageCombiner.RedrawState)
    (h : (st.2.pendingRedraw = true ∧ st.2.frameCallbacks = 1)
      ∨ (st.2.pendingRedraw = false ∧ st.2.frameCallbacks = 0)) :
    (((ImageCombiner.runDisplayEvents st events).2.pendingRedraw = true
          ∧ (ImageCombiner.runDisplayEvents st events).2.frameCallbacks = 1)
        ∨ ((ImageCombiner.runDisplayEvents st events).2.pendingRedraw = false
          ∧ (ImageCombiner.runDisplayEvents st events).2.frameCallbacks = 0))
      ∧ (ImageCombiner.runDisplayEvents st events).2.paints
        ≤ st.2.paints + ImageCombiner.pointerMoves events := by
  induction events generalizing st with
  | nil => exact ⟨h, le_refl _⟩
  | cons event rest ih =>
    obtain ⟨s1, s2⟩ := handleDisplayEvent_redraw st event h
    obtain ⟨r1, r2⟩ := ih (ImageCombiner.handleDisplayEvent st event) s1
    have hcount : ImageCombiner.pointerMoves (event :: rest)
        = ImageCombiner.pointerMoves [event] + ImageCombiner.pointerMoves rest := by
      unfold ImageCombiner.pointerMoves
      rw [← List.length_append, ← List.filter_append]
      rfl
    simp only [ImageCombiner.runDisplayEvents, List.foldl_cons] at r1 r2 ⊢
    refine ⟨r1, ?_⟩
    rw [hcount]
    omega

/-- A display refresh runs the waiting callback, if there is one, and leaves
nothing pending. -/
theorem runFrame_paints (s : ImageCombiner.RedrawState)
    (h : (s.pendingRedraw = true ∧ s.frameCallbacks = 1)
      ∨ (s.pendingRedraw = false ∧ s.frameCallbacks = 0)) :
    (ImageCombiner.runFrame s).paints = s.paints + s.frameCallbacks
      ∧ (ImageCombiner.runFrame s).pendingRedraw = false
      ∧ (ImageCombiner.runFrame s).frameCallbacks = 0 := by
  unfold ImageCombiner.runFrame
  rcases h with ⟨-, h2⟩ | ⟨h1, h2⟩
  · rw [h2]
    exact ⟨rfl, rfl, rfl⟩
  · rw [h2]
    exact ⟨rfl, h1, rfl⟩

theorem mouseMoveRedraw_viewport (c : ImageCombiner) (s : ImageCombiner.RedrawState)
    (e : MouseEvent) (handle : CanvasHandle) (start : Canvas)
    (hdrag : c.isDragging = true) (hflag : c.isResizingCanvas = true)
    (hgrab : c.canvasResizeHandle = some handle)
    (hstart : c.canvasResizeStartState = some start) (hmoved : reachesThreshold c e) :
    ImageCombiner.mouseMoveRedraw c s e
      = ImageCombiner.redraw
          (if ImageCombiner.canvasResizeRepaints c (e.pos.x - c.dragStartPos.x)
              (e.pos.y - c.dragStartPos.y) handle.name then
            ImageCombiner.performRedraw s
          else s) := by
  obtain ⟨c', hrun, -⟩ := handleCanvasResize_canvas c start (e.pos.x - c.dragStartPos.x)
    (e.pos.y - c.dragStartPos.y) handle.name hstart
  unfold reachesThreshold at hmoved
  unfold ImageCombiner.mouseMoveRedraw
  simp only [hdrag, Bool.not_true, Bool.false_eq_true, if_false, hflag, hgrab]
  rw [if_neg hmoved]
  simp only [hrun]

/-- C24, refuted as stated. During the viewport resize `Examples.resizingCanvas`,
right after a display refresh, two pointer-moves (100 and 200 to the right of
the drag start) arrive before the next refresh. Each changes the viewport size,
so `handleCanvasResize` calls `performRedraw()` itself each time: two paints
have run when the refresh comes, and its callback paints a third time. -/
theorem performRedraw_runs_per_pointer_move :
    (ImageCombiner.runDisplayEvents (Examples.resizingCanvas, Examples.settled)
        [.pointer (.move Examples.moveRight100),
         .pointer (.move Examples.moveRight200)]).2.paints = 2
      ∧ (ImageCombiner.runDisplayEvents (Examples.resizingCanvas, Examples.settled)
          [.pointer (.move Examples.moveRight100),
           .pointer (.move Examples.moveRight200)]).2.frameCallbacks = 1
      ∧ (ImageCombiner.runFrame
          (ImageCombiner.runDisplayEvents (Examples.resizingCanvas, Examples.settled)
            [.pointer (.move Examples.moveRight100),
             .pointer (.move Examples.moveRight200)]).2).paints = 3 := by
  -- the first pointer-move
  obtain ⟨c1, hrun1, hw1, hh1⟩ := handleCanvasResize_canvas Examples.resizingCanvas
    { width := 1430, height := 680 } 100 0 .se rfl
  have hmoved1 : reachesThreshold Examples.resizingCanvas Examples.moveRight100 := by
    simp only [reachesThreshold, Examples.resizingCanvas, Examples.constructed,
      Examples.moveRight100, Bool.false_eq_true, if_false]
    norm_num
  have hmove1 : ImageCombiner.handleMouseMove Examples.resizingCanvas Examples.moveRight100
      = some c1 := by
    rw [handleMouseMove_viewport Examples.resizingCanvas
      { name := .se, x := 1414, y := 664, cursor := "nwse-resize" } Examples.moveRight100
      rfl rfl rfl hmoved1, ← hrun1]
    norm_num [Examples.moveRight100, Examples.resizingCanvas]
  obtain ⟨canvas, images, hframe⟩ :=
    handleMouseMove_frame Examples.resizingCanvas Examples.moveRight100
  rw [hmove1] at hframe
  have hc1 : c1 = { Examples.resizingCanvas with canvas := canvas, images := images } := hframe
  have hcw : canvas.width = 1460 := by
    have : c1.canvas = canvas := by rw [hc1]
    rw [← this, hw1]
    norm_num [ImageCombiner.canvasResizeTarget, canvasDimension_ofNat]
  have hch : canvas.height = 680 := by
    have : c1.canvas = canvas := by rw [hc1]
    rw [← this, hh1]
    norm_num [ImageCombiner.canvasResizeTarget, canvasDimension_ofNat]
  have hs1 : ImageCombiner.mouseMoveRedraw Examples.resizingCanvas Examples.settled
      Examples.moveRight100
      = { pendingRedraw := true, frameCallbacks := 1, paints := 1 } := by
    rw [mouseMoveRedraw_viewport Examples.resizingCanvas Examples.settled Examples.moveRight100
      { name := .se, x := 1414, y := 664, cursor := "nwse-resize" }
      { width := 1430, height := 680 } rfl rfl rfl rfl hmoved1]
    have hrep : ImageCombiner.canvasResizeRepaints Examples.resizingCanvas
        (Examples.moveRight100.pos.x - Examples.resizingCanvas.dragStartPos.x)
        (Examples.moveRight100.pos.y - Examples.resizingCanvas.dragStartPos.y) .se = true := by
      simp only [ImageCombiner.canvasResizeRepaints, Examples.resizingCanvas,
        Examples.constructed, Examples.moveRight100, ImageCombiner.canvasResizeTarget]
      norm_num
    rw [hrep]
    rfl
  -- the second pointer-move
  have hmoved2 : reachesThreshold
      { Examples.resizingCanvas with canvas := canvas, images := images }
      Examples.moveRight200 := by
    simp only [reachesThreshold, Examples.resizingCanvas, Examples.constructed,
      Examples.moveRight200, Bool.false_eq_true, if_false]
    norm_num
  have hs2 : ImageCombiner.mouseMoveRedraw
      { Examples.resizingCanvas with canvas := canvas, images := images }
      { pendingRedraw := true, frameCallbacks := 1, paints := 1 } Examples.moveRight200
      = { pendingRedraw := true, frameCallbacks := 1, paints := 2 } := by
    rw [mouseMoveRedraw_viewport
      { Examples.resizingCanvas with canvas := canvas, images := images }
      { pendingRedraw := true, frameCallbacks := 1, paints := 1 } Examples.moveRight200
      { name := .se, x := 1414, y := 664, cursor := "nwse-resize" }
      { width := 1430, height := 680 } rfl rfl rfl rfl hmoved2]
    have hrep : ImageCombiner.canvasResizeRepaints
        { Examples.resizingCanvas with canvas := canvas, images := images }
        (Examples.moveRight200.pos.x - Examples.resizingCanvas.dragStartPos.x)
        (Examples.moveRight200.pos.y - Examples.resizingCanvas.dragStartPos.y) .se = true := by
      simp only [ImageCombiner.canvasResizeRepaints, Examples.resizingCanvas,
        Examples.constructed, Examples.moveRight200, ImageCombiner.canvasResizeTarget, hcw, hch]
      norm_num
    have hrep' : ImageCombiner.canvasResizeRepaints
        { Examples.resizingCanvas with canvas := canvas, images := images }
        (Examples.moveRight200.pos.x
          - ({ Examples.resizingCanvas with canvas := canvas, images := images } :
              ImageCombiner).dragStartPos.x)
        (Examples.moveRight200.pos.y
          - ({ Examples.resizingCanvas with canvas := canvas, images := images } :
              ImageCombiner).dragStartPos.y)
        ({ name := .se, x := 1414, y := 664, cursor := "nwse-resize" } : CanvasHandle).name
        = true := hrep
    rw [hrep']
    rfl
  have hrun : ImageCombiner.runDisplayEvents (Examples.resizingCanvas, Examples.settled)
      [.pointer (.move Examples.moveRight100), .pointer (.move Examples.moveRight200)]
      = (ImageCombiner.stateAfter
            { Examples.resizingCanvas with canvas := canvas, images := images }
            (ImageCombiner.handleMouseMove
              { Examples.resizingCanvas with canvas := canvas, images := images }
              Examples.moveRight200),
          { pendingRedraw := true, frameCallbacks := 1, paints := 2 }) := by
    simp only [ImageCombiner.runDisplayEvents, List.foldl_cons, List.foldl_nil,
      ImageCombiner.handleDisplayEvent, hmove1, hs1, ImageCombiner.stateAfter,
      Option.getD_some, hc1, hs2]
  rw [hrun]
  exact ⟨rfl, rfl, rfl⟩

/-- C24, amended. Scheduled redraws are coalesced, paints made at once are not.
From a state with no redraw pending and no frame callback waiting, after every
sequence of pointer events and redraw requests at most one frame callback is
waiting (one exactly when `pendingRedraw` is set), so the next display refresh
runs `performRedraw` at most once and leaves nothing pending. Before that
refresh `performRedraw` has run at most once per pointer-move of the sequence:
a pointer-move paints at once only during a viewport resize, and no other
event does. -/
theorem redraw_coalesced_amended (c : ImageCombiner) (s : ImageCombiner.RedrawState)
    (events : List ImageCombiner.DisplayEvent)
    (hpending : s.pendingRedraw = false) (hwaiting : s.frameCallbacks = 0) :
    (ImageCombiner.runDisplayEvents (c, s) events).2.frameCallbacks ≤ 1
      ∧ ((ImageCombiner.runDisplayEvents (c, s) events).2.pendingRedraw = true
          ↔ (ImageCombiner.runDisplayEvents (c, s) events).2.frameCallbacks = 1)
      ∧ (ImageCombiner.runFrame (ImageCombiner.runDisplayEvents (c, s) events).2).paints
          = (ImageCombiner.runDisplayEvents (c, s) events).2.paints
            + (ImageCombiner.runDisplayEvents (c, s) events).2.frameCallbacks
      ∧ (ImageCombiner.runFrame
          (ImageCombiner.runDisplayEvents (c, s) events).2).pendingRedraw = false
      ∧ (ImageCombiner.runFrame
          (ImageCombiner.runDisplayEvents (c, s) events).2).frameCallbacks = 0
      ∧ (ImageCombiner.runDisplayEvents (c, s) events).2.paints
          ≤ s.paints + ImageCombiner.pointerMoves events
      ∧ (∀ (c' : ImageCombiner) (s' : ImageCombiner.RedrawState) (e : MouseEvent),
          c'.isResizingCanvas = false →
          (ImageCombiner.mouseMoveRedraw c' s' e).paints = s'.paints) := by
  obtain ⟨hq, hp⟩ := runDisplayEvents_redraw events (c, s) (Or.inr ⟨hpending, hwaiting⟩)
  obtain ⟨f1, f2, f3⟩ := runFrame_paints _ hq
  refine ⟨?_, ?_, f1, f2, f3, hp, ?_⟩
  · rcases hq with ⟨-, h2⟩ | ⟨-, h2⟩
    · exact le_of_eq h2
    · exact le_of_eq_of_le h2 (Nat.zero_le 1)
  · rcases hq with ⟨h1, h2⟩ | ⟨h1, h2⟩
    · exact ⟨fun _ => h2, fun _ => h1⟩
    · constructor
      · intro ht
        rw [h1] at ht
        exact Bool.noConfusion ht
      · intro ht
        rw [h2] at ht
        exact absurd ht (by decide)
  · intro c' s' e hflag
    rcases mouseMoveRedraw_cases c' s' e with hc | hc | ⟨ht, -⟩
    · rw [hc]
    · rw [hc, redraw_paints]
    · rw [hflag] at ht
      exact Bool.noConfusion ht

/-- Witness of C24, amended: the two pointer-moves of the viewport resize
`Examples.resizingCanvas` and a redraw request leave one frame callback
waiting, and the refresh leaves nothing pending. -/
theorem redraw_coalesced_amended_witness :
    (ImageCombiner.runDisplayEvents (Examples.resizingCanvas, Examples.settled)
        [.pointer (.move Examples.moveRight100), .pointer (.move Examples.moveRight200),
         .redrawRequest]).2.frameCallbacks ≤ 1
      ∧ (ImageCombiner.runFrame
          (ImageCombiner.runDisplayEvents (Examples.resizingCanvas, Examples.settled)
            [.pointer (.move Examples.moveRight100), .pointer (.move Examples.moveRight200),
             .redrawRequest]).2).pendingRedraw = false :=
  ⟨(redraw_coalesced_amended Examples.resizingCanvas Examples.settled
      [.pointer (.move Examples.moveRight100), .pointer (.move Examples.moveRight200),
       .redrawRequest] rfl rfl).1,
    (redraw_coalesced_amended Examples.resizingCanvas Examples.settled
      [.pointer (.move Examples.moveRight100), .pointer (.move Examples.moveRight200),
       .redrawRequest] rfl rfl).2.2.2.1⟩

end PIRADS
